import Mathlib

/-!
# ngpt: the SP3 orbit reader (`src/sp3.cpp`, `src/sp3.hpp`)

A shallow embedding of `ngpt::sp3` and of the part of the C and C++ run-time
library it relies on, followed by theorems about it.

Modelling conventions.

* A `char` is a `Char`; a `char` array is a `List Char`; the bytes of a C
  string are the elements of such a list up to the first `NUL`.
* A `double` is a rational number (`ℚ`).  `strtod` gives the exact value of
  the decimal notation (sign, digits, point, exponent); the hexadecimal,
  `inf` and `nan` spellings are not modelled.  Binary rounding is modelled
  where a test of the code depends on it: the interval field of line 2 of the
  header is rounded to a `double` (`to_double`) before its fractional part is
  tested, and the `float` additions of `range` are rounded to a `float`
  (`to_float`).
* `long` is an `Int` in the range `LONG_MIN .. LONG_MAX`; conversions to
  narrower integer types wrap explicitly, and so does the product
  `(long)i_seconds * 1000L` of the header reader (`to_long`).
* `errno` is a field of the reader state: the C++ code saves, tests and
  restores it.
* The function-local `static` line buffers of the record readers are fields
  of the reader state as well, since their bytes outlive a call.
* A loop over the lines of the file is a recursion on a bound of one round
  per byte of the file, plus one; `none` (`out_of_fuel` for the header) is
  returned when the bound is used up.  The sections on progress and
  termination prove that neither the record loops nor the header loops get
  there.
* A thrown `std::runtime_error` and a failed `assert` are outcomes of their
  own of the header reader.
* The code is taken as compiled without `DEBUG`: where the source throws
  under `#ifdef DEBUG` and returns 1 otherwise, the header reader returns 1.
* The point-building loops of `main` (`bin/inxtr.cpp`) recur on an explicit
  bound on the number of tests of their condition.
-/

namespace ngpt

/-! ## C library -/

/-- The terminating byte of a C string. -/
def NUL : Char := Char.ofNat 0

/-- The value of `ERANGE` in `<cerrno>`. -/
def ERANGE : Int := 34

def LONG_MAX : Int := 9223372036854775807

def LONG_MIN : Int := -9223372036854775808

/-- The function `isspace` in the "C" locale. -/
def isspace (c : Char) : Bool :=
  c == ' ' || c == '\t' || c == '\n' || c == '\r' || c == Char.ofNat 11 || c == Char.ofNat 12

/-- The function `isdigit`. -/
def isdigit (c : Char) : Bool :=
  decide (48 ≤ c.toNat) && decide (c.toNat ≤ 57)

/-- The number a run of decimal digits denotes. -/
def digits_value (ds : List Char) : Nat :=
  ds.foldl (fun acc c => acc * 10 + (c.toNat - 48)) 0

/-- An optional sign in front of a number: whether it is a minus, and the rest. -/
def read_sign : List Char → Bool × List Char
  | '-' :: r => (true, r)
  | '+' :: r => (false, r)
  | s => (false, s)

/-- The conversion `(int)` of a `long`: the value modulo `2^32`, signed. -/
def to_int (v : Int) : Int := (v + 2147483648) % 4294967296 - 2147483648

/-- The conversion `(short int)` of a `long`. -/
def to_short (v : Int) : Int := (v + 32768) % 65536 - 32768

/-- The conversion of a signed integer to `std::size_t` (64 bits). -/
def to_size_t (v : Int) : Nat := (v % 18446744073709551616).toNat

/-- The function `strtol(s, &end, 10)`: the converted value, and whether the
call sets `errno` to `ERANGE`.  Leading white space is skipped, an optional
sign is read, then as many decimal digits as follow; with no digits the
value is 0. -/
def strtol (s : List Char) : Int × Bool :=
  let sg := read_sign (s.dropWhile isspace)
  let m : Int := digits_value (sg.2.takeWhile isdigit)
  let v : Int := if sg.1 then -m else m
  if LONG_MAX < v then (LONG_MAX, true)
  else if v < LONG_MIN then (LONG_MIN, true)
  else (v, false)

/-- The least magnitude `strtod` reports as an overflow: the midpoint between
the largest finite `double` and `2^1024`. -/
def DBL_OVERFLOW : ℚ := 2 ^ 1024 - 2 ^ 970

/-- The least positive normal `double`, `2^-1022`. -/
def DBL_MIN : ℚ := 1 / 2 ^ 1022

/-- The exponent part of a decimal floating literal (`e`, optional sign,
digits); 0 when there is none. -/
def read_exponent : List Char → Int
  | [] => 0
  | c :: r =>
    if c == 'e' || c == 'E' then
      let sg := read_sign r
      let ed := sg.2.takeWhile isdigit
      if ed.isEmpty then 0
      else if sg.1 then -(digits_value ed : Int) else (digits_value ed : Int)
    else 0

/-- The function `strtod(s, &end)` on decimal notation: the converted value,
and whether the call sets `errno` to `ERANGE` (overflow, or a non-zero
result below the normal range).  With no digits the value is 0. -/
def strtod (s : List Char) : ℚ × Bool :=
  let sg := read_sign (s.dropWhile isspace)
  let ip := sg.2.takeWhile isdigit
  let r1 := sg.2.dropWhile isdigit
  let fp := match r1 with
    | '.' :: r => r.takeWhile isdigit
    | _ => []
  let r2 := match r1 with
    | '.' :: r => r.dropWhile isdigit
    | _ => r1
  if ip.isEmpty && fp.isEmpty then (0, false)
  else
    let m : ℚ := (digits_value (ip ++ fp) : ℚ)
    let a : ℚ := m * (10 : ℚ) ^ (read_exponent r2 - (fp.length : Int))
    let v : ℚ := if sg.1 then -a else a
    (v, decide (DBL_OVERFLOW ≤ a) || (decide (0 < a) && decide (a < DBL_MIN)))

/-- The functions `std::strncmp(a, b, n) == 0`: the first `n` bytes agree, the
comparison ending early at a `NUL` present in both. -/
def strncmp_eq : List Char → List Char → Nat → Bool
  | _, _, 0 => true
  | a, b, n + 1 =>
    let x := a.headD NUL
    let y := b.headD NUL
    if x != y then false
    else if x == NUL then true
    else strncmp_eq a.tail b.tail n

/-- The bytes `buf[off] .. buf[off+len-1]`, as `std::memcpy` copies them. -/
def bytes_at (buf : List Char) (off len : Nat) : List Char :=
  (buf.drop off).take len

/-- The byte `buf[i]`. -/
def byte_at (buf : List Char) (i : Nat) : Char := buf.getD i NUL

/-- Writing `chars` and a terminating `NUL` at the start of `buf`; the bytes
behind the terminator keep their old value. -/
def store_line (buf chars : List Char) : List Char :=
  chars ++ NUL :: buf.drop (chars.length + 1)

/-- The integral part `modf` stores: truncation toward zero. -/
def trunc (x : ℚ) : Int := if 0 ≤ x then ⌊x⌋ else ⌈x⌉

/-- The integer nearest to `x`, the even one of the two when `x` lies half
way between two integers. -/
def round_half_even (x : ℚ) : Int :=
  if x - ⌊x⌋ < 1 / 2 then ⌊x⌋
  else if 1 / 2 < x - ⌊x⌋ then ⌊x⌋ + 1
  else if ⌊x⌋ % 2 = 0 then ⌊x⌋ else ⌊x⌋ + 1

/-- The loop of `ilog2`: as many halvings as `n` takes to get below 2, `fuel`
at most. -/
def ilog2_loop : Nat → Nat → Nat
  | 0, _ => 0
  | fuel + 1, n => if 2 ≤ n then ilog2_loop fuel (n / 2) + 1 else 0

/-- The exponent `k` with `2^k <= n < 2^(k+1)`, for a positive `n`. -/
def ilog2 (n : Nat) : Nat := ilog2_loop n n

/-- The exponent `e` with `2^e <= a < 2^(e+1)`, for a positive `a`. -/
def binade (a : ℚ) : Int :=
  if (2 : ℚ) ^ ((ilog2 a.num.natAbs : Int) - (ilog2 a.den : Int)) ≤ a then
    (ilog2 a.num.natAbs : Int) - (ilog2 a.den : Int)
  else (ilog2 a.num.natAbs : Int) - (ilog2 a.den : Int) - 1

/-- Rounding to the nearest number of a binary floating-point format with a
significand of `p` bits and the least exponent `emin` (subnormal numbers
included), ties to even.  The largest exponent is not modelled: a value that
rounds to `2^1024` or more stands for an infinity. -/
def round_binary (p : Nat) (emin : Int) (x : ℚ) : ℚ :=
  if x = 0 then 0
  else
    (round_half_even (x / (2 : ℚ) ^ (max (binade |x|) emin - ((p : Int) - 1))) : ℚ)
      * (2 : ℚ) ^ (max (binade |x|) emin - ((p : Int) - 1))

/-- The `double` (IEEE 754 binary64) nearest to `x`. -/
def to_double (x : ℚ) : ℚ := round_binary 53 (-1022) x

/-- The `float` (IEEE 754 binary32) nearest to `x`. -/
def to_float (x : ℚ) : ℚ := round_binary 24 (-126) x

/-- The conversion `(long)` of a `double` with the integral value `i`: the
value when it fits a `long`; otherwise the behaviour is undefined, and the
conversion instruction of x86-64 gives `LONG_MIN`. -/
def long_of_double (i : Int) : Int := if LONG_MIN ≤ i ∧ i ≤ LONG_MAX then i else LONG_MIN

/-- A result of `long` arithmetic, wrapped to 64 bits. -/
def to_long (v : Int) : Int :=
  (v + 9223372036854775808) % 18446744073709551616 - 9223372036854775808

/-! ## Input stream (`std::ifstream`) -/

/-- An input file stream: the bytes of the file, the read position and the
three error-state bits. -/
structure ifstream where
  data : List Char
  pos : Nat
  eofbit : Bool
  failbit : Bool
  badbit : Bool
  deriving DecidableEq, Repr

namespace ifstream

/-- The member `good()`: no error-state bit is set. -/
def good (f : ifstream) : Bool := !f.eofbit && !f.failbit && !f.badbit

/-- The member `fail()`, the negation of `operator bool`. -/
def fail (f : ifstream) : Bool := f.failbit || f.badbit

/-- The unread bytes. -/
def rest (f : ifstream) : List Char := f.data.drop f.pos

/-- The characters `getline(s, n)` stores: those before the first newline,
`n - 1` at most. -/
def line_chars (f : ifstream) (n : Nat) : List Char :=
  (f.rest.takeWhile (fun c => c != '\n')).take (n - 1)

/-- The member `getline(s, n)`: the stream afterwards and the buffer
afterwards.  A stream that is not good only gets `failbit`; otherwise
characters are stored up to a newline (consumed, not stored), the end of the
file (`eofbit`) or `n - 1` characters (`failbit`); storing nothing and
consuming nothing sets `failbit`.  A `NUL` is stored behind the characters in
every case. -/
def getline (f : ifstream) (buf : List Char) (n : Nat) : ifstream × List Char :=
  if !f.good then ({ f with failbit := true }, store_line buf [])
  else
    let cs := f.line_chars n
    match f.rest.drop cs.length with
    | [] =>
      ({ f with pos := f.pos + cs.length, eofbit := true,
                failbit := cs.isEmpty }, store_line buf cs)
    | c :: _ =>
      if c == '\n' then ({ f with pos := f.pos + cs.length + 1 }, store_line buf cs)
      else ({ f with pos := f.pos + cs.length, failbit := true }, store_line buf cs)

/-- The characters `get(s, n)` stores: as for `getline`. -/
def get_chars (f : ifstream) (n : Nat) : List Char := f.line_chars n

/-- The member `get(s, n)`: as `getline`, but the newline is left in the
stream and reaching `n - 1` characters is no failure; `eofbit` is set when
the end of the file stops the extraction. -/
def get (f : ifstream) (n : Nat) : ifstream × List Char :=
  if !f.good then ({ f with failbit := true }, [])
  else
    let cs := f.get_chars n
    let hit_eof := cs.length < n - 1 && (f.rest.drop cs.length).isEmpty
    ({ f with pos := f.pos + cs.length, eofbit := hit_eof,
              failbit := cs.isEmpty }, cs)

/-- The member `unget()`: clears `eofbit`; on a stream that then is not good
sets `failbit`; otherwise steps one byte back, or sets `badbit` at the start
of the file. -/
def unget (f : ifstream) : ifstream :=
  let g := { f with eofbit := false }
  if g.failbit || g.badbit then { g with failbit := true }
  else if g.pos = 0 then { g with badbit := true }
  else { g with pos := g.pos - 1 }

/-- The member `peek()`: the next byte, without consuming it; `none` stands
for `Traits::eof()`.  At the end of the file `eofbit` is set; a stream that
is not good gets `failbit`. -/
def peek (f : ifstream) : ifstream × Option Char :=
  if !f.good then ({ f with failbit := true }, none)
  else
    match f.rest with
    | [] => ({ f with eofbit := true }, none)
    | c :: _ => (f, some c)

/-- The member `seekg(0)`: clears `eofbit`; on a stream that then is not good
sets `failbit`; otherwise moves to the start of the file. -/
def seekg0 (f : ifstream) : ifstream :=
  let g := { f with eofbit := false }
  if g.failbit || g.badbit then { g with failbit := true } else { g with pos := 0 }

/-- The member `tellg()`: the stream afterwards and the read position.  On a
stream that is not good (`eofbit` included) it sets `failbit` and gives -1. -/
def tellg (f : ifstream) : ifstream × Int :=
  if !f.good then ({ f with failbit := true }, -1) else (f, (f.pos : Int))

end ifstream

/-! ## Data model -/

/-- Modelled from the spec: `satellite.hpp` is missing.  A satellite id is a
system tag and a numeric slot, parsed from a 3-character token (the tag is
the first character, the slot the number in the next two) and compared by
exact match. -/
structure satellite where
  sys : Char
  prn : Int
  deriving DecidableEq, Repr

/-- The default-constructed satellite. -/
def satellite.default : satellite := ⟨NUL, 0⟩

/-- The constructor `satellite(const char*)`. -/
def satellite.of_chars (s : List Char) : satellite :=
  ⟨s.headD NUL, (strtol (bytes_at s 1 2)).1⟩

/-- Modelled from the spec: `satellite.hpp` is missing.  The satellite
systems a one-letter code can denote. -/
inductive satellite_system where
  | gps | glonass | sbas | galileo | bds | qzss | mixed
  deriving DecidableEq, Repr

/-- Modelled from the spec: `satellite.hpp` is missing.  The system a code
letter denotes; `none` stands for the exception thrown on an unknown letter. -/
def char_to_satsys (c : Char) : Option satellite_system :=
  if c == 'G' then some .gps
  else if c == 'R' then some .glonass
  else if c == 'S' then some .sbas
  else if c == 'E' then some .galileo
  else if c == 'C' then some .bds
  else if c == 'J' then some .qzss
  else if c == 'M' then some .mixed
  else none

/-- The enumeration `satellite_state_option_flag`. -/
inductive state_flag_option where
  | no_velocity | bad_or_absent | unknown_acc | no_vel_acc | maneuver | prediction
  deriving DecidableEq, Repr

/-- Modelled from the spec: `genflags.hpp` is missing.  A `flag` over the
state options is a set of them, one bit per option. -/
structure state_flag where
  no_velocity : Bool
  bad_or_absent : Bool
  unknown_acc : Bool
  no_vel_acc : Bool
  maneuver : Bool
  prediction : Bool
  deriving DecidableEq, Repr

/-- The empty set of state options. -/
def state_flag.empty : state_flag := ⟨false, false, false, false, false, false⟩

/-- The member `flag::set`. -/
def state_flag.set (f : state_flag) : state_flag_option → state_flag
  | .no_velocity => { f with no_velocity := true }
  | .bad_or_absent => { f with bad_or_absent := true }
  | .unknown_acc => { f with unknown_acc := true }
  | .no_vel_acc => { f with no_vel_acc := true }
  | .maneuver => { f with maneuver := true }
  | .prediction => { f with prediction := true }

/-- The member `flag::set`, applied when `b` holds. -/
def state_flag.set_if (f : state_flag) (b : Bool) (o : state_flag_option) : state_flag :=
  if b then f.set o else f

/-- The enumeration `satellite_clock_option_flag`. -/
inductive clock_flag_option where
  | no_velocity | bad_or_absent | unknown_acc | no_vel_acc | discontinuity | prediction
  deriving DecidableEq, Repr

/-- Modelled from the spec: `genflags.hpp` is missing.  A `flag` over the
clock options is a set of them, one bit per option. -/
structure clock_flag where
  no_velocity : Bool
  bad_or_absent : Bool
  unknown_acc : Bool
  no_vel_acc : Bool
  discontinuity : Bool
  prediction : Bool
  deriving DecidableEq, Repr

/-- The empty set of clock options. -/
def clock_flag.empty : clock_flag := ⟨false, false, false, false, false, false⟩

/-- The member `flag::set`. -/
def clock_flag.set (f : clock_flag) : clock_flag_option → clock_flag
  | .no_velocity => { f with no_velocity := true }
  | .bad_or_absent => { f with bad_or_absent := true }
  | .unknown_acc => { f with unknown_acc := true }
  | .no_vel_acc => { f with no_vel_acc := true }
  | .discontinuity => { f with discontinuity := true }
  | .prediction => { f with prediction := true }

/-- The member `flag::set`, applied when `b` holds. -/
def clock_flag.set_if (f : clock_flag) (b : Bool) (o : clock_flag_option) : clock_flag :=
  if b then f.set o else f

/-- Modelled from the spec: `satellite.hpp` is missing.  A satellite state:
position, velocity, their std-deviations, and a set of state options. -/
structure satellite_state where
  x : ℚ
  y : ℚ
  z : ℚ
  vx : ℚ
  vy : ℚ
  vz : ℚ
  sx : ℚ
  sy : ℚ
  sz : ℚ
  svx : ℚ
  svy : ℚ
  svz : ℚ
  flag : state_flag
  deriving DecidableEq, Repr

/-- The default-constructed state. -/
def satellite_state.default : satellite_state :=
  ⟨0, 0, 0, 0, 0, 0, 0, 0, 0, 0, 0, 0, state_flag.empty⟩

/-- The constructor `satellite_state{x, y, z, sdev_x, sdev_y, sdev_z, flag}`. -/
def satellite_state.of_pos (x y z sx sy sz : ℚ) (f : state_flag) : satellite_state :=
  ⟨x, y, z, 0, 0, 0, sx, sy, sz, 0, 0, 0, f⟩

/-- Modelled from the spec: `satellite.hpp` is missing.  A satellite clock:
the correction, its std-deviation, the std-deviation of its rate, and a set
of clock options. -/
structure satellite_clock where
  c : ℚ
  sc : ℚ
  svc : ℚ
  flag : clock_flag
  deriving DecidableEq, Repr

/-- The default-constructed clock. -/
def satellite_clock.default : satellite_clock := ⟨0, 0, 0, clock_flag.empty⟩

/-- The constructor `satellite_clock{c, sdev_c, flag}`. -/
def satellite_clock.of_clk (c sc : ℚ) (f : clock_flag) : satellite_clock :=
  ⟨c, sc, 0, f⟩

/-- The number of milliseconds in a day. -/
def MS_IN_DAY : Int := 86400000

/-- Modelled from the spec: `datetime_v2.hpp` is missing.  An epoch
(`datev2<milliseconds>`) is a calendar date, held as a modified julian day,
and a time of day in milliseconds, `0 ≤ ms < 86400000`; equality is exact. -/
structure datetime_ms where
  mjd : Int
  ms : Int
  deriving DecidableEq, Repr

/-- The epoch a count of milliseconds since MJD 0 denotes. -/
def datetime_ms.of_total (t : Int) : datetime_ms := ⟨t / MS_IN_DAY, t % MS_IN_DAY⟩

/-- The count of milliseconds since MJD 0. -/
def datetime_ms.total (d : datetime_ms) : Int := d.mjd * MS_IN_DAY + d.ms

/-- The modified julian day of a date of the Gregorian calendar. -/
def cal2mjd (year month day : Int) : Int :=
  let a := (14 - month) / 12
  let y := year + 4800 - a
  let m := month + 12 * a - 3
  day + (153 * m + 2) / 5 + 365 * y + y / 4 - y / 100 + y / 400 - 32045 - 2400001

/-- The constructor `datev2{year, month, day_of_month, hours, minutes,
milliseconds}`. -/
def datetime_ms.of_calendar (yr mt dm hr mn ms : Int) : datetime_ms :=
  datetime_ms.of_total (cal2mjd yr mt dm * MS_IN_DAY + hr * 3600000 + mn * 60000 + ms)

/-- The default-constructed epoch. -/
def datetime_ms.default : datetime_ms := ⟨0, 0⟩

/-- The member `add_seconds`: the epoch `t` milliseconds later. -/
def datetime_ms.add_seconds (d : datetime_ms) (t : Int) : datetime_ms :=
  datetime_ms.of_total (d.total + t)

/-- The canonical form of an epoch: the time of day lies within the day. -/
def datetime_ms.canonical (d : datetime_ms) : Prop := 0 ≤ d.ms ∧ d.ms < MS_IN_DAY

/-! ## The reader `ngpt::sp3` -/

/-- In satellite lines, the satellite records start at this index. -/
def sat_start_idx : Nat := 9

/-- One past-the-end index of the satellite records. -/
def sat_stop_idx : Nat := 60

def sats_per_line : Nat := (sat_stop_idx - sat_start_idx) / 3

def sats_max_num : Nat := 85

def sats_max_lines : Nat := 5

/-- A bad or absent satellite position in the sp3 file is denoted as this. -/
def BAD_POS_VALUE : ℚ := 0

/-- A bad or absent clock correction is denoted with a value larger or equal
to this. -/
def BAD_CLK_VALUE : ℚ := 999999

/-- The exponent value which denotes that the actual accuracy is unknown or
too large to represent: anything larger or equal to this. -/
def BAD_EXP_VALUE : Int := 99

/-- No header line can have more than 80 chars. -/
def MAX_HEADER_CHARS : Nat := 82

/-- A zero-initialised line buffer. -/
def zero_line : List Char := List.replicate MAX_HEADER_CHARS NUL

/-- The class `ngpt::sp3`: its data members, together with `errno` and the
function-local `static` line buffers of its member functions. -/
structure sp3 where
  istream : ifstream
  errno : Int
  end_of_head : Int
  first_epoch : datetime_ms
  last_epoch : datetime_ms
  num_of_epochs : Int
  satsys : satellite_system
  coordSys : List Char
  orbType : List Char
  sat_vec : List satellite
  sat_acc : List Int
  base_for_pos : ℚ
  base_for_clk : ℚ
  interval : Int
  pos_line : List Char
  corr_line : List Char
  vel_line : List Char
  epoch_line : List Char
  deriving DecidableEq, Repr

/-- The tolerance of the comparisons with `BAD_POS_VALUE`, `1e-10`. -/
def POS_EPS : ℚ := 1 / 10000000000

/-- Half the least positive `double`, `2^-1075`: a non-zero magnitude up to
it rounds to zero. -/
def DBL_UNDERFLOW : ℚ := 1 / 2 ^ 1075

/-- The function `std::pow(base, (double)e)` for an integer `e`: the value,
and whether the call sets `errno` to `ERANGE` (a zero base with a negative
exponent, an overflow, or a non-zero result that rounds to zero; a subnormal
result is returned without an error). -/
def pow (base : ℚ) (e : Int) : ℚ × Bool :=
  if base = 0 ∧ e < 0 then (0, true)
  else (base ^ e, decide (DBL_OVERFLOW ≤ |base ^ e|)
                    || (decide (0 < |base ^ e|) && decide (|base ^ e| ≤ DBL_UNDERFLOW)))

/-- The value of `errno` after library calls of which `errs` tells, one by
one, whether they met a range error. -/
def errno_after (errno : Int) (errs : List Bool) : Int :=
  if errs.any id then ERANGE else errno

/-- The four 14-byte numeric fields of a record line, converted with `strtod`
from a copy of their bytes. -/
def field_x (line : List Char) : ℚ × Bool := strtod (bytes_at line 4 14)

def field_y (line : List Char) : ℚ × Bool := strtod (bytes_at line 18 14)

def field_z (line : List Char) : ℚ × Bool := strtod (bytes_at line 32 14)

def field_c (line : List Char) : ℚ × Bool := strtod (bytes_at line 46 14)

/-- The four accuracy exponents of a record line, converted with `strtol`
from the line at their first byte. -/
def idev_x (line : List Char) : Int × Bool := strtol (line.drop 61)

def idev_y (line : List Char) : Int × Bool := strtol (line.drop 64)

def idev_z (line : List Char) : Int × Bool := strtol (line.drop 67)

def idev_c (line : List Char) : Int × Bool := strtol (line.drop 70)

/-- The test of lines 468-470 and 592-594: some component is farther than
`1e-10` from `BAD_POS_VALUE`. -/
def off_bad_pos (x y z : ℚ) : Bool :=
  decide (|x - BAD_POS_VALUE| > POS_EPS) || decide (|y - BAD_POS_VALUE| > POS_EPS)
    || decide (|z - BAD_POS_VALUE| > POS_EPS)

/-- The test of lines 491-493 and 623-625: some exponent is at least
`BAD_EXP_VALUE`. -/
def some_bad_exp (ex ey ez : Int) : Bool :=
  decide (ex ≥ BAD_EXP_VALUE) || decide (ey ≥ BAD_EXP_VALUE) || decide (ez ≥ BAD_EXP_VALUE)

/-- The member `sp3::read_next_epoch_header`: status, the epoch argument
afterwards, the reader afterwards.  A return value of 999 signals EOF. -/
def read_next_epoch_header (s : sp3) (date : datetime_ms) : Int × datetime_ms × sp3 :=
  let prev_errno := s.errno
  let g := s.istream.getline s.epoch_line MAX_HEADER_CHARS
  let line := g.2
  let s1 := { s with istream := g.1, epoch_line := line }
  if g.1.fail || byte_at line 0 != '*' then
    if strncmp_eq line ['E', 'O', 'F'] 3 then (999, date, s1) else (1, date, s1)
  else
    let yr := strtol (line.drop 3)
    let mt := strtol (line.drop 8)
    let dm := strtol (line.drop 11)
    let hr := strtol (line.drop 14)
    let mn := strtol (line.drop 17)
    let decimal_sec := strtod (line.drop 20)
    let mls : Int := ⌊decimal_sec.1⌋ * 1000
    let epoch := datetime_ms.of_calendar (to_int yr.1) (to_int mt.1) (to_int dm.1)
      (to_int hr.1) (to_int mn.1) mls
    let errno := errno_after s.errno [yr.2, mt.2, dm.2, hr.2, mn.2, decimal_sec.2]
    if errno = ERANGE then (1, date, { s1 with errno := prev_errno })
    else (0, epoch, { s1 with errno := errno })

/-- The member `sp3::read_next_corr`: read and ignore an `E[P|V]` line. -/
def read_next_corr (s : sp3) : Int × sp3 :=
  let g := s.istream.getline s.corr_line MAX_HEADER_CHARS
  let s1 := { s with istream := g.1, corr_line := g.2 }
  if g.1.fail || byte_at g.2 0 != 'E' then (1, s1) else (0, s1)

/-- The member `sp3::read_next_vel`: status, the state and the clock
afterwards, the reader afterwards. -/
def read_next_vel (s : sp3) (sat : satellite) (state : satellite_state)
    (clkcor : satellite_clock) : Int × satellite_state × satellite_clock × sp3 :=
  let prev_errno := s.errno
  let g := s.istream.getline s.vel_line MAX_HEADER_CHARS
  let line := g.2
  let s1 := { s with istream := g.1, vel_line := line }
  if g.1.fail || byte_at line 0 != 'V' then (1, state, clkcor, s1)
  else
    let tmp_sat := satellite.of_chars (line.drop 1)
    if sat ≠ tmp_sat then (-2, state, clkcor, s1)
    else
      let x := field_x line
      let y := field_y line
      let z := field_z line
      let c := field_c line
      let errno1 := errno_after s.errno [x.2, y.2, z.2, c.2]
      if errno1 = ERANGE then (-1, state, clkcor, { s1 with errno := prev_errno })
      else
        let state1 : satellite_state :=
          if off_bad_pos x.1 y.1 z.1 then
            { state with flag := state.flag.set .no_velocity }
          else { state with vx := x.1, vy := y.1, vz := z.1 }
        let clk1 : satellite_clock :=
          if c.1 ≥ BAD_CLK_VALUE then { clkcor with flag := clkcor.flag.set .no_velocity }
          else { clkcor with c := c.1 }
        let ex := idev_x line
        let sdev_x := pow s.base_for_pos ex.1
        let ey := idev_y line
        let sdev_y := pow s.base_for_pos ey.1
        let ez := idev_z line
        let sdev_z := pow s.base_for_pos ez.1
        let ec := idev_c line
        let sdev_c := pow s.base_for_clk ec.1
        let errno2 := errno_after errno1
          [ex.2, sdev_x.2, ey.2, sdev_y.2, ez.2, sdev_z.2, ec.2, sdev_c.2]
        if errno2 = ERANGE then (-1, state1, clk1, { s1 with errno := prev_errno })
        else
          let state2 : satellite_state :=
            if some_bad_exp ex.1 ey.1 ez.1 then
              { state1 with flag := state1.flag.set .no_vel_acc }
            else { state1 with svx := sdev_x.1, svy := sdev_y.1, svz := sdev_z.1 }
          let clk2 : satellite_clock :=
            if ec.1 ≥ BAD_EXP_VALUE then { clk1 with flag := clk1.flag.set .no_vel_acc }
            else { clk1 with svc := sdev_c.1 }
          (0, state2, clk2, { s1 with errno := errno2 })

/-- The outcome of a record reader: status, satellite, state and clock
arguments afterwards, reader afterwards. -/
structure record_result where
  status : Int
  sat : satellite
  state : satellite_state
  clock : satellite_clock
  self : sp3
  deriving DecidableEq, Repr

/-- The loop of lines 518-532 of `read_next_pos_n_clock`: while two characters
can be looked at, read the correlation or velocity record they start; `fuel`
bounds the number of iterations. -/
def follow_records : Nat → sp3 → satellite → satellite_state → satellite_clock →
    Option record_result
  | 0, _, _, _, _ => none
  | fuel + 1, s, sat, state, clkcor =>
    let g := s.istream.get 3
    if g.1.fail then some ⟨0, sat, state, clkcor, { s with istream := g.1 }⟩
    else
      let s1 := { s with istream := g.1.unget.unget }
      let next0 := byte_at g.2 0
      let next1 := byte_at g.2 1
      if next0 == 'E' && (next1 == 'P' || next1 == 'V') then
        let r := read_next_corr s1
        if r.1 ≠ 0 then some ⟨r.1, sat, state, clkcor, r.2⟩
        else follow_records fuel r.2 sat state clkcor
      else if next0 == 'V' then
        let r := read_next_vel s1 sat state clkcor
        if r.1 ≠ 0 then some ⟨r.1, sat, r.2.1, r.2.2.1, r.2.2.2⟩
        else follow_records fuel r.2.2.2 sat r.2.1 r.2.2.1
      else some ⟨0, sat, state, clkcor, s1⟩

/-- The state flag `read_next_pos_n_clock` builds from a record line (lines
438, 468-473, 491-496, 504-506): `no_velocity` at the start, then the options
the line calls for. -/
def pos_flag_of (line : List Char) : state_flag :=
  ((((state_flag.empty.set .no_velocity).set_if
      (off_bad_pos (field_x line).1 (field_y line).1 (field_z line).1) .bad_or_absent).set_if
      (some_bad_exp (idev_x line).1 (idev_y line).1 (idev_z line).1) .unknown_acc).set_if
      (byte_at line 78 == 'M') .maneuver).set_if
      (byte_at line 79 == 'P') .prediction

/-- The clock flag `read_next_pos_n_clock` builds from a record line (lines
439, 475, 498-502). -/
def clk_flag_of (line : List Char) : clock_flag :=
  ((((clock_flag.empty.set .no_velocity).set_if
      (decide ((field_c line).1 ≥ BAD_CLK_VALUE)) .bad_or_absent).set_if
      (decide ((idev_c line).1 ≥ BAD_EXP_VALUE)) .unknown_acc).set_if
      (byte_at line 74 == 'E') .discontinuity).set_if
      (byte_at line 75 == 'P') .prediction

/-- The state `tmp_state` of line 508. -/
def pos_state_of (base_for_pos : ℚ) (line : List Char) : satellite_state :=
  satellite_state.of_pos (field_x line).1 (field_y line).1 (field_z line).1
    (pow base_for_pos (idev_x line).1).1 (pow base_for_pos (idev_y line).1).1
    (pow base_for_pos (idev_z line).1).1 (pos_flag_of line)

/-- The clock `tmp_clk` of line 511. -/
def pos_clock_of (base_for_clk : ℚ) (line : List Char) : satellite_clock :=
  satellite_clock.of_clk (field_c line).1 (pow base_for_clk (idev_c line).1).1
    (clk_flag_of line)

/-- The member `sp3::read_next_pos_n_clock`.  Exit status: `< 0` conversion
error, `= 0` ok, `> 0` format error; `none` when the loop over the following
records is not finished after one iteration per byte of the file. -/
def read_next_pos_n_clock (s : sp3) (sat : satellite) (state : satellite_state)
    (clkcor : satellite_clock) : Option record_result :=
  let prev_errno := s.errno
  let g := s.istream.getline s.pos_line MAX_HEADER_CHARS
  let line := g.2
  let s1 := { s with istream := g.1, pos_line := line }
  if g.1.fail || byte_at line 0 != 'P' then some ⟨1, sat, state, clkcor, s1⟩
  else
    let sat1 := satellite.of_chars (line.drop 1)
    let errno1 := errno_after s.errno
      [(field_x line).2, (field_y line).2, (field_z line).2, (field_c line).2]
    if errno1 = ERANGE then some ⟨-1, sat1, state, clkcor, { s1 with errno := prev_errno }⟩
    else
      let errno2 := errno_after errno1
        [(idev_x line).2, (pow s.base_for_pos (idev_x line).1).2,
         (idev_y line).2, (pow s.base_for_pos (idev_y line).1).2,
         (idev_z line).2, (pow s.base_for_pos (idev_z line).1).2,
         (idev_c line).2, (pow s.base_for_clk (idev_c line).1).2]
      if errno2 = ERANGE then
        some ⟨-1, sat1, state, clkcor, { s1 with errno := prev_errno }⟩
      else
        follow_records (s.istream.data.length + 1) { s1 with errno := errno2 } sat1
          (pos_state_of s.base_for_pos line) (pos_clock_of s.base_for_clk line)

/-- The outcome of `get_next_epoch`: status, the epoch, states and clocks
arguments afterwards, the by-value satellites vector at return, the reader
afterwards. -/
structure epoch_result where
  status : Int
  epoch : datetime_ms
  sats : List satellite
  states : List satellite_state
  clocks : List satellite_clock
  self : sp3
  deriving DecidableEq, Repr

/-- The loop of lines 408-417 of `get_next_epoch`: while the next byte is a
`P`, read a record and append it; `fuel` bounds the number of iterations. -/
def read_records : Nat → sp3 → datetime_ms → satellite → satellite_state → satellite_clock →
    List satellite → List satellite_state → List satellite_clock → Option epoch_result
  | 0, _, _, _, _, _, _, _, _ => none
  | fuel + 1, s, epoch, sat, state, clock, sats, states, clocks =>
    let p := s.istream.peek
    let s1 := { s with istream := p.1 }
    if p.2 = some 'P' then
      match read_next_pos_n_clock s1 sat state clock with
      | none => none
      | some r =>
        if r.status ≠ 0 then some ⟨1, epoch, sats, states, clocks, r.self⟩
        else read_records fuel r.self epoch r.sat r.state r.clock
          (sats ++ [r.sat]) (states ++ [r.state]) (clocks ++ [r.clock])
    else some ⟨0, epoch, sats, states, clocks, s1⟩

/-- The member `sp3::get_next_epoch`: get the next epoch off the sp3 file;
`none` when the loop over the records is not finished after one iteration
per byte of the file. -/
def get_next_epoch (s : sp3) (epoch : datetime_ms) (sats : List satellite)
    (states : List satellite_state) (clocks : List satellite_clock) : Option epoch_result :=
  if !s.istream.good then some ⟨-1, epoch, sats, states, clocks, s⟩
  else
    let h := read_next_epoch_header s epoch
    if h.1 ≠ 0 then some ⟨h.1, h.2.1, sats, states, clocks, h.2.2⟩
    else
      read_records (s.istream.data.length + 1) h.2.2 h.2.1 satellite.default
        satellite_state.default satellite_clock.default sats states clocks

/-! ## The header reader -/

/-- The function `satellite_lines`: `(sat_nr-1) / sats_per_line + 1`, where
`sats_per_line` is a `std::size_t`, so that the difference is converted to
`std::size_t` before the division, and the result back to `int`. -/
def satellite_lines (sat_nr : Int) : Int :=
  to_int ((to_size_t (sat_nr - 1) / sats_per_line + 1 : Nat) : Int)

/-- How a call of `read_header` ends: it returns a status, throws a
`std::runtime_error`, fails an `assert`, or does not finish one of its loops
over lines within one iteration per byte of the file. -/
inductive header_outcome where
  | returned (status : Int)
  | thrown
  | assert_failed
  | out_of_fuel
  deriving DecidableEq, Repr

/-- The byte offsets of the 3-character records of a satellite line. -/
def sat_offsets : List Nat := (List.range sats_per_line).map (fun i => sat_start_idx + 3 * i)

/-- The inner loop of lines 214-219: append the satellites at the offsets
`offs` of the line, stopping once `num_of_sats` are collected. -/
def collect_sats (line : List Char) (num_of_sats : Nat) :
    List Nat → List satellite → List satellite
  | [], v => v
  | off :: offs, v =>
    let v1 := v ++ [satellite.of_chars (line.drop off)]
    if v1.length = num_of_sats then v1 else collect_sats line num_of_sats offs v1

/-- The inner loop of lines 250-257: append the accuracy codes at the offsets
`offs` of the line, stopping once `num_of_sats` are collected. -/
def collect_accs (line : List Char) (num_of_sats : Nat) :
    List Nat → List Int → List Int
  | [], v => v
  | off :: offs, v =>
    let v1 := v ++ [to_short (strtol (bytes_at line off 3)).1]
    if v1.length = num_of_sats then v1 else collect_accs line num_of_sats offs v1

/-- The state of a loop over header lines: whether it ended on a failed
`getline`, the stream, the line buffer and the collected values. -/
structure line_loop (α : Type) where
  failed : Bool
  stream : ifstream
  line : List Char
  values : List α

/-- The loop of lines 212-229 over the lines starting with `"+ "`. -/
def read_sat_lines (num_of_sats : Nat) :
    Nat → ifstream → List Char → List satellite → Option (line_loop satellite)
  | 0, _, _, _ => none
  | fuel + 1, f, line, v =>
    if strncmp_eq line ['+', ' '] 2 then
      let v1 := if v.length < num_of_sats then collect_sats line num_of_sats sat_offsets v else v
      let g := f.getline line MAX_HEADER_CHARS
      if g.1.fail then some ⟨true, g.1, g.2, v1⟩
      else read_sat_lines num_of_sats fuel g.1 g.2 v1
    else some ⟨false, f, line, v⟩

/-- The loop of lines 248-267 over the lines starting with `"++"`. -/
def read_acc_lines (num_of_sats : Nat) :
    Nat → ifstream → List Char → List Int → Option (line_loop Int)
  | 0, _, _, _ => none
  | fuel + 1, f, line, v =>
    if strncmp_eq line ['+', '+'] 2 then
      let v1 := if v.length < num_of_sats then collect_accs line num_of_sats sat_offsets v else v
      let g := f.getline line MAX_HEADER_CHARS
      if g.1.fail then some ⟨true, g.1, g.2, v1⟩
      else read_acc_lines num_of_sats fuel g.1 g.2 v1
    else some ⟨false, f, line, v⟩

/-- The loop of lines 364-375 over the comment lines: whether it ended on a
failure, and the stream and line buffer afterwards. -/
def read_comment_lines : Nat → ifstream → List Char → Option (line_loop Unit)
  | 0, _, _ => none
  | fuel + 1, f, line =>
    let p := f.peek
    if p.2 = some '/' then
      let g := p.1.getline line MAX_HEADER_CHARS
      if g.1.fail || !strncmp_eq g.2 ['/', '*'] 2 then some ⟨true, g.1, g.2, []⟩
      else read_comment_lines fuel g.1 g.2
    else some ⟨false, p.1, line, []⟩

/-- The loop of lines 382-384: `n` times `add_seconds(interval)`. -/
def advance_epoch (interval : Int) : Nat → datetime_ms → datetime_ms
  | 0, d => d
  | n + 1, d => advance_epoch interval n (d.add_seconds interval)

/-- The check of lines 133-141: from index 23 up to the next blank, every
byte of line 1 is a `'0'`. -/
def seconds_fit (line : List Char) : Bool :=
  ((line.drop 23).takeWhile (fun c => c != ' ')).all (fun c => c == '0')

/-- Lines 270-388 of `read_header`, from the first `"%c"` line on; `f` and
`line` are the stream and the line buffer, `errno3` the value of `errno`. -/
def read_header_tail (s : sp3) (prev_errno errno3 : Int) (f : ifstream) (line : List Char) :
    header_outcome × sp3 :=
  if !strncmp_eq line ['%', 'c'] 2 then (.returned 1, { s with istream := f, errno := errno3 })
  else
    let sys := (char_to_satsys (byte_at line 3)).orElse (fun _ => char_to_satsys (byte_at line 4))
    match sys with
    | none => (.thrown, { s with istream := f, errno := errno3 })
    | some satsys =>
      let s := { s with satsys := satsys, errno := errno3 }
      let g1 := f.getline line MAX_HEADER_CHARS
      if g1.1.fail || !strncmp_eq g1.2 ['%', 'c'] 2 then (.returned 1, { s with istream := g1.1 })
      else
        let g2 := g1.1.getline g1.2 MAX_HEADER_CHARS
        if g2.1.fail || !strncmp_eq g2.2 ['%', 'f'] 2 then
          (.returned 1, { s with istream := g2.1 })
        else
          let bp := strtod (g2.2.drop 3)
          let bc := strtod (g2.2.drop 14)
          let s := { s with base_for_pos := bp.1, base_for_clk := bc.1 }
          let errno4 := errno_after errno3 [bp.2, bc.2]
          if errno4 = ERANGE then (.returned 1, { s with istream := g2.1, errno := prev_errno })
          else
            let s := { s with errno := errno4 }
            let g3 := g2.1.getline g2.2 MAX_HEADER_CHARS
            if g3.1.fail || !strncmp_eq g3.2 ['%', 'f'] 2 then
              (.returned 1, { s with istream := g3.1 })
            else
              let g4 := g3.1.getline g3.2 MAX_HEADER_CHARS
              if g4.1.fail || !strncmp_eq g4.2 ['%', 'i'] 2 then
                (.returned 1, { s with istream := g4.1 })
              else
                let g5 := g4.1.getline g4.2 MAX_HEADER_CHARS
                if g5.1.fail || !strncmp_eq g5.2 ['%', 'i'] 2 then
                  (.returned 1, { s with istream := g5.1 })
                else
                  match read_comment_lines (g5.1.data.length + 1) g5.1 g5.2 with
                  | none => (.out_of_fuel, { s with istream := g5.1 })
                  | some cl =>
                    if cl.failed then (.returned 1, { s with istream := cl.stream })
                    else
                      (.returned 0,
                        { s with istream := cl.stream.tellg.1, end_of_head := cl.stream.tellg.2,
                                 last_epoch := advance_epoch s.interval s.num_of_epochs.toNat
                                   s.first_epoch })

/-- Lines 190-268 of `read_header`: the satellite and accuracy lines; then
the rest of the header. -/
def read_header_sats (s : sp3) (prev_errno errno2 : Int) (f : ifstream) (line : List Char) :
    header_outcome × sp3 :=
  let g := f.getline line MAX_HEADER_CHARS
  if g.1.fail || !strncmp_eq g.2 ['+', ' '] 2 then
    (.returned 1, { s with istream := g.1, errno := errno2 })
  else
    let lint := strtol (g.2.drop 4)
    let errno3 := errno_after errno2 [lint.2]
    let num_of_sats : Nat := to_size_t (to_int lint.1)
    if ¬ num_of_sats ≤ sats_max_num then
      (.assert_failed, { s with istream := g.1, errno := errno3 })
    else
      let sat_lines : Nat := to_size_t (satellite_lines (to_int (num_of_sats : Int)))
      if ¬ sat_lines ≤ sats_max_lines then
        (.assert_failed, { s with istream := g.1, errno := errno3 })
      else
        match read_sat_lines num_of_sats (g.1.data.length + 1) g.1 g.2 [] with
        | none => (.out_of_fuel, { s with istream := g.1, errno := errno3 })
        | some sl =>
          if sl.failed then (.returned 1, { s with istream := sl.stream, errno := errno3 })
          else
            let s := { s with sat_vec := sl.values }
            if !strncmp_eq sl.line ['+', '+'] 2 then
              (.returned 1, { s with istream := sl.stream, errno := errno3 })
            else
              match read_acc_lines num_of_sats (sl.stream.data.length + 1) sl.stream sl.line [] with
              | none => (.out_of_fuel, { s with istream := sl.stream, errno := errno3 })
              | some al =>
                if al.failed then (.returned 1, { s with istream := al.stream, errno := errno3 })
                else
                  read_header_tail { s with sat_acc := al.values } prev_errno errno3
                    al.stream al.line

/-- The member `sp3::read_header`; `line0` is the content of the local line
buffer, which the C++ code leaves uninitialised, at entry.  The interval of
line 2 is the `double` nearest to the value of its field, the `1e-8` of line
169 is the `double` nearest to it, and `(long)i_seconds * 1000L` is computed
in 64 bits. -/
def read_header (s : sp3) (line0 : List Char) : header_outcome × sp3 :=
  let prev_errno := s.errno
  let f0 := s.istream.seekg0
  let g1 := f0.getline line0 MAX_HEADER_CHARS
  let line := g1.2
  if g1.1.fail || byte_at line 1 != 'c' then (.returned 1, { s with istream := g1.1 })
  else
    let yr := strtol (line.drop 3)
    let mt := strtol (line.drop 8)
    let dm := strtol (line.drop 11)
    let hr := strtol (line.drop 14)
    let mn := strtol (line.drop 17)
    let decimal_sec := strtod (line.drop 20)
    let mls : Int := ⌊decimal_sec.1⌋ * 1000
    let ne := strtol (line.drop 32)
    let s := { s with istream := g1.1, num_of_epochs := to_int ne.1,
                      coordSys := bytes_at line 46 5 ++ [NUL],
                      orbType := bytes_at line 52 3 ++ [NUL] }
    let errno1 := errno_after s.errno [yr.2, mt.2, dm.2, hr.2, mn.2, decimal_sec.2, ne.2]
    if errno1 = ERANGE then (.thrown, { s with errno := prev_errno })
    else if !seconds_fit line then (.returned 1, { s with errno := errno1 })
    else
      let s := { s with first_epoch := datetime_ms.of_calendar (to_int yr.1) (to_int mt.1)
                          (to_int dm.1) (to_int hr.1) (to_int mn.1) mls,
                        errno := errno1 }
      let g2 := g1.1.getline line MAX_HEADER_CHARS
      if g2.1.fail then (.returned 1, { s with istream := g2.1 })
      else
        let eph_interval := strtod (g2.2.drop 24)
        let i_seconds : Int := trunc (to_double eph_interval.1)
        let f_seconds : ℚ := to_double eph_interval.1 - i_seconds
        let errno2 := errno_after errno1 [eph_interval.2]
        if |f_seconds - 0| > to_double (1 / 100000000) then
          (.thrown, { s with istream := g2.1, errno := errno2 })
        else
          let s := { s with interval := to_long (long_of_double i_seconds * 1000) }
          if errno2 = ERANGE then (.thrown, { s with istream := g2.1, errno := prev_errno })
          else read_header_sats s prev_errno errno2 g2.1 g2.2

/-- The members as the constructor `sp3::sp3(const char*)` initialises them
on a file that could be opened, with content `file`, before it reads the
header; `errno` is the value of `errno` at entry. -/
def sp3.initial (file : List Char) (errno : Int) : sp3 :=
  { istream := ⟨file, 0, false, false, false⟩, errno := errno, end_of_head := 0,
    first_epoch := datetime_ms.default, last_epoch := datetime_ms.default,
    num_of_epochs := 0, satsys := .mixed,
    coordSys := List.replicate 6 NUL, orbType := List.replicate 4 NUL,
    sat_vec := [], sat_acc := [], base_for_pos := 0, base_for_clk := 0, interval := 0,
    pos_line := zero_line, corr_line := zero_line, vel_line := zero_line,
    epoch_line := zero_line }

/-- The constructor `sp3::sp3(const char*)`: the initial members, then
`read_header`; `none` stands for the exception thrown when the header cannot
be read.  `line0` is the content of the header line buffer at entry. -/
def sp3.open (file : List Char) (errno : Int) (line0 : List Char) : Option sp3 :=
  match read_header (sp3.initial file errno) line0 with
  | (.returned 0, s) => some s
  | _ => none

/-! ## The TEC interpolation engine -/

/-- Modelled from the spec: `ionex.cpp`, which defines `ionex::interpolate`,
is missing (`ionex.hpp` declares the reader, `inxtr.cpp` calls it).  A TEC
map is one epoch and a rectangular grid of raw integer samples addressed by
latitude index and longitude index. -/
structure tec_map where
  epoch : datetime_ms
  samples : List (List Int)
  deriving DecidableEq, Repr

/-- Modelled from the spec: `ionex.cpp` is missing.  The physical value at a
grid point is the raw sample times `10^exponent`. -/
def tec_map.value (m : tec_map) (exponent : Int) (i j : Nat) : ℚ :=
  (((m.samples.getD i []).getD j 0 : Int) : ℚ) * (10 : ℚ) ^ exponent

/-- Modelled from the spec: `ionex.cpp` is missing.  The weight of the later
of two bracketing maps at a query time: 0 at the epoch of the earlier map, 1
at the epoch of the later one, and in between the elapsed part of the time
between the two epochs. -/
def later_weight (t0 t1 t : datetime_ms) : ℚ :=
  if t.total = t0.total then 0
  else if t.total = t1.total then 1
  else ((t.total - t0.total : Int) : ℚ) / ((t1.total - t0.total : Int) : ℚ)

/-- Modelled from the spec: `ionex.cpp` is missing.  Temporal interpolation:
linear interpolation between the values of the two bracketing maps at the
query time; a query time coincident with a map epoch gives that map's value,
with zero weight on the other map. -/
def interpolate_in_time (t0 t1 t : datetime_ms) (v0 v1 : ℚ) : ℚ :=
  (1 - later_weight t0 t1 t) * v0 + later_weight t0 t1 t * v1

/-- Modelled from the spec: `ionex.cpp` is missing.  The value at a grid
point and a query time between two consecutive maps. -/
def interpolate_at (m0 m1 : tec_map) (exponent : Int) (i j : Nat) (t : datetime_ms) : ℚ :=
  interpolate_in_time m0.epoch m1.epoch t (m0.value exponent i j) (m1.value exponent i j)

/-! ## The extraction tool `inxtr`: ranges and the point-building loops -/

/-- The class template `range<T>` of `inxtr.cpp` (lines 12-25) at `T = float`,
as `main` uses it for latitudes and longitudes; `from_` and `to_` are the
members `from` and `to`, which are keywords here.  The members hold `float`
values, as rationals. -/
structure range where
  from_ : ℚ
  to_ : ℚ
  step : ℚ
  deriving DecidableEq, Repr

/-- The member `start()`. -/
def range.start (r : range) : ℚ := r.from_

/-- The member `less(f)`: `to >= from ? f <= to : f >= from`. -/
def range.less (r : range) (f : ℚ) : Bool :=
  if r.to_ ≥ r.from_ then decide (f ≤ r.to_) else decide (f ≥ r.from_)

/-- The member `increment(f)`: `f += step`, a `float` addition. -/
def range.increment (r : range) (f : ℚ) : ℚ := to_float (f + r.step)

/-- The member `empty()`. -/
def range.empty (r : range) : Bool := r.from_ == r.to_ && (r.to_ == r.step && r.step == 0)

/-- The inner loop of lines 171-173 of `main`, for the latitude `lat`: from
the longitude `lon` on, `points.emplace_back(lon, lat)` while
`lon_range.less(lon)`.  `fuel` bounds the number of tests of the condition;
`none` stands for a loop that has not ended within it. -/
def lon_loop (lon_range : range) (lat : ℚ) : Nat → ℚ → List (ℚ × ℚ) → Option (List (ℚ × ℚ))
  | 0, _, _ => none
  | fuel + 1, lon, points =>
    if lon_range.less lon then
      lon_loop lon_range lat fuel (lon_range.increment lon) (points ++ [(lon, lat)])
    else some points

/-- The outer loop of lines 170-174 of `main`: from the latitude `lat` on,
the inner loop while `lat_range.less(lat)`. -/
def lat_loop (lat_range lon_range : range) (inner_fuel : Nat) :
    Nat → ℚ → List (ℚ × ℚ) → Option (List (ℚ × ℚ))
  | 0, _, _ => none
  | fuel + 1, lat, points =>
    if lat_range.less lat then
      match lon_loop lon_range lat inner_fuel lon_range.from_ points with
      | none => none
      | some p => lat_loop lat_range lon_range inner_fuel fuel (lat_range.increment lat) p
    else some points

/-- The vector `points` that lines 169-174 of `main` build. -/
def build_points (lat_range lon_range : range) (fuel : Nat) : Option (List (ℚ × ℚ)) :=
  lat_loop lat_range lon_range fuel fuel lat_range.from_ []

/-! ## Sample inputs -/

/-- The bytes of a file with the given lines, each ended by a newline. -/
def file_of_lines (ls : List String) : List Char := ls.flatMap (fun l => l.toList ++ ['\n'])

/-- A header: first epoch 2020-01-01T00:00:00, 96 epochs, interval 900 s,
three satellites, scale bases 1.25 and 1.025; then one epoch line. -/
def sample_header : List Char := file_of_lines
  ["#cP2020  1  1  0  0  0.00000000      96 ORBIT IGS14 HLM  IGS",
   "## 2086 259200.00000000   900.00000000 58849 0.0000000000000",
   "+    3   G01G02G03  0  0  0  0  0  0  0  0  0  0  0  0  0  0",
   "++         2  2  3  0  0  0  0  0  0  0  0  0  0  0  0  0  0",
   "%c G  cc GPS ccc cccc cccc cccc cccc ccccc ccccc ccccc ccccc",
   "%c cc cc ccc ccc cccc cccc cccc cccc ccccc ccccc ccccc ccccc",
   "%f  1.2500000  1.025000000  0.00000000000  0.000000000000000",
   "%f  0.0000000  0.000000000  0.00000000000  0.000000000000000",
   "%i    0    0    0    0      0      0      0      0         0",
   "%i    0    0    0    0      0      0      0      0         0",
   "/* PRECISE ORBIT",
   "*  2020  1  1  0  0  0.00000000"]

/-- A reader past its header, with scale bases 1.25 and 1.025, about to read
the bytes `data`. -/
def sample_reader (data : List Char) : sp3 :=
  { sp3.initial data 0 with base_for_pos := 5 / 4, base_for_clk := 41 / 40 }

/-- A position record of G01 with coordinates far from zero, exponents 10, 9,
11 and 102, and all four status columns set; then its velocity record, with
a velocity far from zero. -/
def sample_pos_record : List Char := file_of_lines
  ["PG01  15000.123456 -20000.654321   5000.000001    123.456789 10  9 11 102 EP  MP",
   "VG01  20298.880364 -18462.044804   1381.387685     -4.534317 14 14 14 191"]

/-- A position record of G02 with the absent position 0.0 0.0 0.0 and the
absent clock 999999.999999. -/
def sample_absent_record : List Char := file_of_lines
  ["PG02      0.000000      0.000000      0.000000 999999.999999"]

/-- A position record of G03 whose four accuracy exponents are 99, 99, 99 and
999. -/
def sample_unknown_acc_record : List Char := file_of_lines
  ["PG03 -11044.805800 -10475.672350  21929.418200    -82.650000 99 99 99 999"]

/-- A velocity record of G01 with a velocity far from zero, exponents 14. -/
def sample_vel_record : List Char := file_of_lines
  ["VG01  20298.880364 -18462.044804   1381.387685     -4.534317 14 14 14 191"]

/-- A velocity record of G01 with the absent velocity 0.0 0.0 0.0. -/
def sample_absent_vel_record : List Char := file_of_lines
  ["VG01      0.000000      0.000000      0.000000 999999.999999"]

/-- A velocity record of G01 whose second accuracy exponent is 99. -/
def sample_unknown_acc_vel_record : List Char := file_of_lines
  ["VG01  20298.880364 -18462.044804   1381.387685     -4.534317 14 99 14 191"]

/-- The satellite G01. -/
def sample_sat : satellite := ⟨'G', 1⟩

/-- The satellite G02. -/
def sample_other_sat : satellite := ⟨'G', 2⟩

/-- A state with velocity (1, 2, 3), velocity std-deviations (4, 5, 6) and no
option set. -/
def sample_state : satellite_state :=
  { satellite_state.default with vx := 1, vy := 2, vz := 3, svx := 4, svy := 5, svz := 6 }

/-- The record a failed call is replaced by in the samples. -/
def no_record : record_result :=
  ⟨1, satellite.default, satellite_state.default, satellite_clock.default, sample_reader []⟩

/-- The result of `read_next_pos_n_clock` on the sample position record. -/
def sample_pos_result : record_result :=
  (read_next_pos_n_clock (sample_reader sample_pos_record) satellite.default
    satellite_state.default satellite_clock.default).getD no_record

/-- The result of `read_next_pos_n_clock` on the sample absent record. -/
def sample_absent_result : record_result :=
  (read_next_pos_n_clock (sample_reader sample_absent_record) satellite.default
    satellite_state.default satellite_clock.default).getD no_record

/-- The result of `read_next_pos_n_clock` on the sample record with exponents
99. -/
def sample_unknown_acc_result : record_result :=
  (read_next_pos_n_clock (sample_reader sample_unknown_acc_record) satellite.default
    satellite_state.default satellite_clock.default).getD no_record

/-- A file whose data section is the single line `EOF`. -/
def sample_eof_line : List Char := file_of_lines ["EOF"]

/-- The result a failed call of `get_next_epoch` is replaced by in the
samples. -/
def no_epoch : epoch_result := ⟨1, datetime_ms.default, [], [], [], sample_reader []⟩

/-- The result of `get_next_epoch` on the sample `EOF` line, called with an
epoch, a state and a clock already in the arguments. -/
def sample_eof_result : epoch_result :=
  (get_next_epoch (sample_reader sample_eof_line) (datetime_ms.of_calendar 2020 1 1 0 0 0)
    [] [sample_state] [satellite_clock.default]).getD no_epoch

/-- The result of `get_next_epoch` on an empty data section. -/
def sample_end_result : epoch_result :=
  (get_next_epoch (sample_reader []) (datetime_ms.of_calendar 2020 1 1 0 0 0)
    [] [sample_state] [satellite_clock.default]).getD no_epoch

/-- Four position records and the `EOF` line. -/
def sample_four_records : List String :=
  ["PG01  15001.123456 -20000.654321   5000.000001    123.456789 10  9 11  12",
   "PG02  15002.123456 -20000.654321   5000.000001    123.456789 10  9 11  12",
   "PG03  15003.123456 -20000.654321   5000.000001    123.456789 10  9 11  12",
   "PG04  15004.123456 -20000.654321   5000.000001    123.456789 10  9 11  12",
   "EOF"]

/-- The sample header and its epoch line, followed by the four position
records and the `EOF` line: one record more than the three satellites the
header declares. -/
def sample_orbit_file : List Char := sample_header ++ file_of_lines sample_four_records

/-- An epoch line followed by the four position records and the `EOF` line. -/
def sample_epoch_block : List Char :=
  file_of_lines ("*  2020  1  1  0  0  0.00000000" :: sample_four_records)

/-- The result of `get_next_epoch` on a reader, called with the vectors
`states` and `clocks`. -/
def epoch_of (s : sp3) (states : List satellite_state) (clocks : List satellite_clock) :
    epoch_result :=
  (get_next_epoch s datetime_ms.default [] states clocks).getD no_epoch

/-- The result of opening the sample orbit file and reading its first epoch
into empty vectors; `none` when the file cannot be opened. -/
def sample_orbit_epoch : Option epoch_result :=
  (sp3.open sample_orbit_file 0 zero_line).map (fun s => epoch_of s [] [])

/-- A position record followed by the one-character line `X`. -/
def sample_short_line_block : List Char := file_of_lines
  ["PG01  15001.123456 -20000.654321   5000.000001    123.456789 10  9 11  12",
   "X",
   "EOF"]

/-- A position record followed by an empty line. -/
def sample_empty_line_block : List Char := file_of_lines
  ["PG01  15001.123456 -20000.654321   5000.000001    123.456789 10  9 11  12",
   "",
   "EOF"]

/-- The result of `read_next_pos_n_clock` on a sample block. -/
def pos_result_of (data : List Char) : record_result :=
  (read_next_pos_n_clock (sample_reader data) satellite.default satellite_state.default
    satellite_clock.default).getD no_record

/-- An epoch line followed by a position record of 89 characters. -/
def sample_overlong_epoch : List Char := file_of_lines
  ["*  2020  1  1  0  0  0.00000000",
   "PG01  15000.123456 -20000.654321   5000.000001    123.456789 10  9 11  12        TRAILING"]

/-- An epoch line followed by a position record whose x field, `1e999`, is
out of the range of a `double`. -/
def sample_range_epoch : List Char := file_of_lines
  ["*  2020  1  1  0  0  0.00000000",
   "PG01         1e999 -20000.654321   5000.000001    123.456789 10  9 11  12"]

/-- An epoch line followed by a position record of G01 and a velocity record
of G02. -/
def sample_mismatch_epoch : List Char := file_of_lines
  ["*  2020  1  1  0  0  0.00000000",
   "PG01  15001.123456 -20000.654321   5000.000001    123.456789 10  9 11  12",
   "VG02  20298.880364 -18462.044804   1381.387685     -4.534317 14 14 14 191"]

/-- A position record whose x field is `abcdefgh`. -/
def sample_not_a_number_record : List Char := file_of_lines
  ["PG01      abcdefgh -20000.654321   5000.000001    123.456789 10  9 11  12"]

/-- A reader on the sample mismatch epoch whose stream has `failbit` set. -/
def sample_failed_reader : sp3 :=
  { sample_reader sample_mismatch_epoch with
    istream := ⟨sample_mismatch_epoch, 0, false, true, false⟩ }

/-- The record lines of a sample epoch, behind its epoch line of 31
characters and a newline. -/
def records_of (epoch_data : List Char) : List Char := epoch_data.drop 32

/-- The sample header with the interval field `900.000000005` on line 2: an
interval with a fractional part of five nanoseconds. -/
def sample_fractional_header : List Char := file_of_lines
  ["#cP2020  1  1  0  0  0.00000000      96 ORBIT IGS14 HLM  IGS",
   "## 2086 259200.00000000 900.000000005 58849 0.0000000000000",
   "+    3   G01G02G03  0  0  0  0  0  0  0  0  0  0  0  0  0  0",
   "++         2  2  3  0  0  0  0  0  0  0  0  0  0  0  0  0  0",
   "%c G  cc GPS ccc cccc cccc cccc cccc ccccc ccccc ccccc ccccc",
   "%c cc cc ccc ccc cccc cccc cccc cccc ccccc ccccc ccccc ccccc",
   "%f  1.2500000  1.025000000  0.00000000000  0.000000000000000",
   "%f  0.0000000  0.000000000  0.00000000000  0.000000000000000",
   "%i    0    0    0    0      0      0      0      0         0",
   "%i    0    0    0    0      0      0      0      0         0",
   "/* PRECISE ORBIT",
   "*  2020  1  1  0  0  0.00000000"]

/-- The sample header with another line 2. -/
def sample_header_with_line2 (line2 : String) : List Char := file_of_lines
  ["#cP2020  1  1  0  0  0.00000000      96 ORBIT IGS14 HLM  IGS",
   line2,
   "+    3   G01G02G03  0  0  0  0  0  0  0  0  0  0  0  0  0  0",
   "++         2  2  3  0  0  0  0  0  0  0  0  0  0  0  0  0  0",
   "%c G  cc GPS ccc cccc cccc cccc cccc ccccc ccccc ccccc ccccc",
   "%c cc cc ccc ccc cccc cccc cccc cccc ccccc ccccc ccccc ccccc",
   "%f  1.2500000  1.025000000  0.00000000000  0.000000000000000",
   "%f  0.0000000  0.000000000  0.00000000000  0.000000000000000",
   "%i    0    0    0    0      0      0      0      0         0",
   "%i    0    0    0    0      0      0      0      0         0",
   "/* PRECISE ORBIT",
   "*  2020  1  1  0  0  0.00000000"]

/-- The sample header with the interval field `1800.000000010000001`: its
fractional part is above `1e-8`, that of the nearest `double` is below. -/
def sample_rounded_interval_header : List Char :=
  sample_header_with_line2 "## 2086 259200.00000000 1800.000000010000001 58849 0.00000000"

/-- The sample header with the interval field `900.00000001`: its fractional
part is `1e-8`, that of the nearest `double` is above the `double` nearest to
`1e-8`. -/
def sample_threshold_interval_header : List Char :=
  sample_header_with_line2 "## 2086 259200.00000000   900.00000001 58849 0.0000000000000"

/-- The sample header with the interval field `9007199254740993`, which is
`2^53 + 1`. -/
def sample_large_interval_header : List Char :=
  sample_header_with_line2 "## 2086 259200.00000000 9007199254740993 58849 0.0000000000000"

/-- The sample header with the interval field `10000000000000000`. -/
def sample_wrapping_interval_header : List Char :=
  sample_header_with_line2 "## 2086 259200.00000000 10000000000000000 58849 0.000000000000"

/-- The sample header with the interval field `900.50000000` on line 2. -/
def sample_half_second_header : List Char := file_of_lines
  ["#cP2020  1  1  0  0  0.00000000      96 ORBIT IGS14 HLM  IGS",
   "## 2086 259200.00000000   900.50000000 58849 0.0000000000000",
   "+    3   G01G02G03  0  0  0  0  0  0  0  0  0  0  0  0  0  0"]

/-- The sample header with `+x` in the place of the `++` of its accuracy
line. -/
def sample_unmarked_header : List Char := file_of_lines
  ["#cP2020  1  1  0  0  0.00000000      96 ORBIT IGS14 HLM  IGS",
   "## 2086 259200.00000000   900.00000000 58849 0.0000000000000",
   "+    3   G01G02G03  0  0  0  0  0  0  0  0  0  0  0  0  0  0",
   "+x         2  2  3  0  0  0  0  0  0  0  0  0  0  0  0  0  0",
   "%c G  cc GPS ccc cccc cccc cccc cccc ccccc ccccc ccccc ccccc",
   "%c cc cc ccc ccc cccc cccc cccc cccc ccccc ccccc ccccc ccccc",
   "%f  1.2500000  1.025000000  0.00000000000  0.000000000000000",
   "%f  0.0000000  0.000000000  0.00000000000  0.000000000000000",
   "%i    0    0    0    0      0      0      0      0         0",
   "%i    0    0    0    0      0      0      0      0         0",
   "/* PRECISE ORBIT",
   "*  2020  1  1  0  0  0.00000000"]

/-- The sample header with the interval field `900.50000000` on line 2 and
`+x` in the place of the `++` of its accuracy line. -/
def sample_unmarked_half_second_header : List Char := file_of_lines
  ["#cP2020  1  1  0  0  0.00000000      96 ORBIT IGS14 HLM  IGS",
   "## 2086 259200.00000000   900.50000000 58849 0.0000000000000",
   "+    3   G01G02G03  0  0  0  0  0  0  0  0  0  0  0  0  0  0",
   "+x         2  2  3  0  0  0  0  0  0  0  0  0  0  0  0  0  0",
   "%c G  cc GPS ccc cccc cccc cccc cccc ccccc ccccc ccccc ccccc",
   "%c cc cc ccc ccc cccc cccc cccc cccc ccccc ccccc ccccc ccccc",
   "%f  1.2500000  1.025000000  0.00000000000  0.000000000000000",
   "%f  0.0000000  0.000000000  0.00000000000  0.000000000000000",
   "%i    0    0    0    0      0      0      0      0         0",
   "%i    0    0    0    0      0      0      0      0         0",
   "/* PRECISE ORBIT",
   "*  2020  1  1  0  0  0.00000000"]

/-- The sample header with an empty line in the place of its line 1. -/
def sample_empty_first_line_header : List Char := file_of_lines
  ["",
   "## 2086 259200.00000000   900.00000000 58849 0.0000000000000",
   "+    3   G01G02G03  0  0  0  0  0  0  0  0  0  0  0  0  0  0",
   "++         2  2  3  0  0  0  0  0  0  0  0  0  0  0  0  0  0",
   "%c G  cc GPS ccc cccc cccc cccc cccc ccccc ccccc ccccc ccccc",
   "%c cc cc ccc ccc cccc cccc cccc cccc ccccc ccccc ccccc ccccc",
   "%f  1.2500000  1.025000000  0.00000000000  0.000000000000000",
   "%f  0.0000000  0.000000000  0.00000000000  0.000000000000000",
   "%i    0    0    0    0      0      0      0      0         0",
   "%i    0    0    0    0      0      0      0      0         0",
   "/* PRECISE ORBIT",
   "*  2020  1  1  0  0  0.00000000"]

/-- A content of the uninitialised line buffer of `read_header`: the bytes of
line 1 of the sample header, as an earlier call can have left them. -/
def sample_stale_line : List Char :=
  "#cP2020  1  1  0  0  0.00000000      96 ORBIT IGS14 HLM  IGS".toList
    ++ List.replicate 22 NUL

/-- An epoch line with the seconds `30.50000000`. -/
def sample_half_second_epoch : List Char := file_of_lines
  ["*  2020  1  1  0  0 30.50000000"]

/-- An epoch line with the seconds `30.00000000`. -/
def sample_whole_second_epoch : List Char := file_of_lines
  ["*  2020  1  1  0  0 30.00000000"]

/-- A clock with the correction 123.456789 and the std-deviation 2, as a
position record leaves it. -/
def sample_clock : satellite_clock :=
  satellite_clock.of_clk (123456789 / 1000000) 2 clock_flag.empty

/-- A position record of G01 whose x exponent (bytes 61-62) is blank and
whose y exponent (bytes 64-65) is 14. -/
def sample_blank_exp_record : List Char := file_of_lines
  ["PG01  15000.123456 -20000.654321   5000.000001    123.456789    14 11 102"]

/-- The same position record with the y exponent 10: it has the same bytes
61-62 as the record with the y exponent 14. -/
def sample_blank_exp_other_record : List Char := file_of_lines
  ["PG01  15000.123456 -20000.654321   5000.000001    123.456789    10 11 102"]

/-- A position record of G02 of 60 characters: it ends with its clock
field. -/
def sample_short_record : List Char := file_of_lines
  ["PG02  15002.123456 -20000.654321   5000.000001    123.456789"]

/-- The position record of G01 of 80 characters, with exponents and status
columns, followed by the position record of G02 of 60 characters. -/
def sample_long_short_block : List Char := file_of_lines
  ["PG01  15000.123456 -20000.654321   5000.000001    123.456789 10  9 11 102 EP  MP",
   "PG02  15002.123456 -20000.654321   5000.000001    123.456789"]

/-- The result of `read_next_pos_n_clock` on a reader, with default
arguments. -/
def pos_result_on (s : sp3) : record_result :=
  (read_next_pos_n_clock s satellite.default satellite_state.default
    satellite_clock.default).getD no_record

/-- A TEC map of one grid point with the raw sample 100 at
2020-01-01T00:00:00. -/
def sample_first_map : tec_map := ⟨datetime_ms.of_calendar 2020 1 1 0 0 0, [[100]]⟩

/-- A TEC map of one grid point with the raw sample 200, 900 s later. -/
def sample_second_map : tec_map := ⟨datetime_ms.of_calendar 2020 1 1 0 15 0, [[200]]⟩

/-- The sample header with another first system line. -/
def sample_header_with_sys (sys_line : String) : List Char := file_of_lines
  ["#cP2020  1  1  0  0  0.00000000      96 ORBIT IGS14 HLM  IGS",
   "## 2086 259200.00000000   900.00000000 58849 0.0000000000000",
   "+    3   G01G02G03  0  0  0  0  0  0  0  0  0  0  0  0  0  0",
   "++         2  2  3  0  0  0  0  0  0  0  0  0  0  0  0  0  0",
   sys_line,
   "%c cc cc ccc ccc cccc cccc cccc cccc ccccc ccccc ccccc ccccc",
   "%f  1.2500000  1.025000000  0.00000000000  0.000000000000000",
   "%f  0.0000000  0.000000000  0.00000000000  0.000000000000000",
   "%i    0    0    0    0      0      0      0      0         0",
   "%i    0    0    0    0      0      0      0      0         0",
   "/* PRECISE ORBIT",
   "*  2020  1  1  0  0  0.00000000"]

/-- The sample header with the system letter `R` at index 4 of its first
system line, and a blank at index 3. -/
def sample_shifted_sys_header : List Char :=
  sample_header_with_sys "%c  R cc GPS ccc cccc cccc cccc cccc ccccc ccccc ccccc ccccc"

/-- The sample header with no system letter at index 3 or 4 of its first
system line. -/
def sample_unknown_sys_header : List Char :=
  sample_header_with_sys "%c xy cc GPS ccc cccc cccc cccc cccc ccccc ccccc ccccc ccccc"

/-- A header that declares 20 satellites, with the satellite lines and the
accuracy lines given. -/
def sample_header_with_sats (sat_lines acc_lines : List String) : List Char := file_of_lines
  (["#cP2020  1  1  0  0  0.00000000      96 ORBIT IGS14 HLM  IGS",
    "## 2086 259200.00000000   900.00000000 58849 0.0000000000000"]
    ++ sat_lines ++ acc_lines ++
   ["%c G  cc GPS ccc cccc cccc cccc cccc ccccc ccccc ccccc ccccc",
    "%c cc cc ccc ccc cccc cccc cccc cccc ccccc ccccc ccccc ccccc",
    "%f  1.2500000  1.025000000  0.00000000000  0.000000000000000",
    "%f  0.0000000  0.000000000  0.00000000000  0.000000000000000",
    "%i    0    0    0    0      0      0      0      0         0",
    "%i    0    0    0    0      0      0      0      0         0",
    "/* PRECISE ORBIT",
    "*  2020  1  1  0  0  0.00000000"])

/-- A header that declares 20 satellites on two satellite lines. -/
def sample_twenty_sats_header : List Char := sample_header_with_sats
  ["+   20   G01G02G03G04G05G06G07G08G09G10G11G12G13G14G15G16G17",
   "+        G18G19G20  0  0  0  0  0  0  0  0  0  0  0  0  0  0"]
  ["++         2  2  3  2  2  2  2  2  2  2  2  2  2  2  2  2  2",
   "++         2  2  2  0  0  0  0  0  0  0  0  0  0  0  0  0  0"]

/-- A header that declares 20 satellites and has one satellite line. -/
def sample_one_line_header : List Char := sample_header_with_sats
  ["+   20   G01G02G03G04G05G06G07G08G09G10G11G12G13G14G15G16G17"]
  ["++         2  2  3  2  2  2  2  2  2  2  2  2  2  2  2  2  2"]

/-- The reader that `read_header` leaves, on a file and with a zeroed line
buffer. -/
def header_of (file : List Char) : sp3 := (read_header (sp3.initial file 0) zero_line).2

/-- The ascending range from 20 to 22 with the step 1. -/
def sample_lon_range : range := ⟨20, 22, 1⟩

/-- The ascending range from 0 to 1 with the `float` nearest to 0.1 as its
step. -/
def sample_tenth_range : range := ⟨0, 1, to_float (1 / 10)⟩

/-- The range of the one longitude 20. -/
def sample_one_lon_range : range := ⟨20, 20, 1⟩

/-- The descending range from 10 to 0 with the step -2.5. -/
def sample_descending_range : range := ⟨10, 0, -5 / 2⟩

/-- A header that declares no satellite. -/
def sample_no_sats_header : List Char := sample_header_with_sats
  ["+    0     0  0  0  0  0  0  0  0  0  0  0  0  0  0  0  0  0"]
  ["++         0  0  0  0  0  0  0  0  0  0  0  0  0  0  0  0  0"]

/-! ## Vocabulary of the statements -/

/-- The members of a state that `read_next_vel` has no assignment to. -/
def satellite_state.same_position (a b : satellite_state) : Prop :=
  a.x = b.x ∧ a.y = b.y ∧ a.z = b.z ∧ a.sx = b.sx ∧ a.sy = b.sy ∧ a.sz = b.sz ∧
  a.flag.bad_or_absent = b.flag.bad_or_absent ∧ a.flag.unknown_acc = b.flag.unknown_acc ∧
  a.flag.maneuver = b.flag.maneuver ∧ a.flag.prediction = b.flag.prediction

/-- The members of a clock that `read_next_vel` has no assignment to. -/
def satellite_clock.same_accuracy (a b : satellite_clock) : Prop :=
  a.sc = b.sc ∧ a.flag.bad_or_absent = b.flag.bad_or_absent ∧
  a.flag.unknown_acc = b.flag.unknown_acc ∧ a.flag.discontinuity = b.flag.discontinuity ∧
  a.flag.prediction = b.flag.prediction

/-- The line buffer after the `getline` of `read_next_pos_n_clock`. -/
def pos_record_line (s : sp3) : List Char :=
  (s.istream.getline s.pos_line MAX_HEADER_CHARS).2

/-- The line buffer after the `getline` of `read_next_vel`. -/
def vel_record_line (s : sp3) : List Char :=
  (s.istream.getline s.vel_line MAX_HEADER_CHARS).2

/-- The reader is readable and its unread bytes start with the literal
`EOF`. -/
def at_eof_line (s : sp3) : Prop :=
  s.istream.good = true ∧ s.istream.rest.take 3 = ['E', 'O', 'F']

/-- The reader is at the physical end of its file: no byte is unread. -/
def at_end_of_file (s : sp3) : Prop := s.istream.rest = []

instance (s : sp3) : Decidable (at_eof_line s) := by
  unfold at_eof_line
  infer_instance

instance (s : sp3) : Decidable (at_end_of_file s) := by
  unfold at_end_of_file
  infer_instance

/-- The header data a reader holds, and the bytes of its file: what the
constructor fixes. -/
def sp3.header_data (s : sp3) :=
  (s.end_of_head, s.first_epoch, s.last_epoch, s.num_of_epochs, s.satsys, s.coordSys, s.orbType,
    s.sat_vec, s.sat_acc, s.base_for_pos, s.base_for_clk, s.interval, s.istream.data)

/-- The number of unread bytes of the file. -/
def sp3.unread (s : sp3) : Nat := s.istream.data.length - s.istream.pos

/-- The stream and the line buffer after `read_header` has read line 1. -/
def header_line1 (s : sp3) (line0 : List Char) : ifstream × List Char :=
  s.istream.seekg0.getline line0 MAX_HEADER_CHARS

/-- The stream and the line buffer after `read_header` has read line 2. -/
def header_line2 (s : sp3) (line0 : List Char) : ifstream × List Char :=
  (header_line1 s line0).1.getline (header_line1 s line0).2 MAX_HEADER_CHARS

/-- The interval field of line 2, as line 165 of `read_header` converts it. -/
def interval_field (s : sp3) (line0 : List Char) : ℚ :=
  (strtod ((header_line2 s line0).2.drop 24)).1

/-- The fractional part `modf` returns. -/
def frac (x : ℚ) : ℚ := x - trunc x

/-- The interval of line 2 as `strtod` returns it: the `double` nearest to
the value of the field. -/
def interval_double (s : sp3) (line0 : List Char) : ℚ := to_double (interval_field s line0)

/-- A numeric field in decimal notation: behind white space and an optional
sign stands a digit, or a point and a digit, and the number does not start
with the `0x` of the hexadecimal notation. -/
def decimal_notation (s : List Char) : Bool :=
  match (read_sign (s.dropWhile isspace)).2 with
  | '0' :: c :: _ => c != 'x' && c != 'X'
  | '.' :: c :: _ => isdigit c
  | c :: _ => isdigit c
  | [] => false

/-- The lines of a text: the runs of bytes between its newlines.  A text that
ends with a newline has an empty last line. -/
def split_lines : List Char → List (List Char)
  | [] => [[]]
  | c :: r =>
    if c = '\n' then [] :: split_lines r
    else
      match split_lines r with
      | [] => [[c]]
      | l :: ls => (c :: l) :: ls

/-- The line starts with the two characters `a`, `b`. -/
def starts_with (a b : Char) (l : List Char) : Bool := l.take 2 == [a, b]

/-- The line starts with a slash. -/
def starts_slash (l : List Char) : Bool := l.head? == some '/'

/-- The markers of a header from line 3 on, as the lines show them: `"+ "` on
the first line (line 3 of the file); `"++"` on the first line behind the
lines that start with `"+ "`; behind the lines that start with `"++"`, two
lines with `"%c"`, two with `"%f"` and two with `"%i"`; and `"/*"` on every
line of the run of lines starting with a slash that follows. -/
def body_markers_ok (lines : List (List Char)) : Bool :=
  let sat_on := lines.dropWhile (starts_with '+' ' ')
  let sys_on := sat_on.dropWhile (starts_with '+' '+')
  starts_with '+' ' ' (lines.headD [])
    && starts_with '+' '+' (sat_on.headD [])
    && starts_with '%' 'c' (sys_on.headD [])
    && starts_with '%' 'c' ((sys_on.drop 1).headD [])
    && starts_with '%' 'f' ((sys_on.drop 2).headD [])
    && starts_with '%' 'f' ((sys_on.drop 3).headD [])
    && starts_with '%' 'i' ((sys_on.drop 4).headD [])
    && starts_with '%' 'i' ((sys_on.drop 5).headD [])
    && ((sys_on.drop 6).takeWhile starts_slash).all (starts_with '/' '*')

/-- The markers of a header, as the lines of the file show them: `c` as the
second character of line 1, and the markers from line 3 on. -/
def header_markers_ok (lines : List (List Char)) : Bool :=
  (lines.headD []).getD 1 NUL == 'c' && body_markers_ok (lines.drop 2)

/-- The lines a stream can still deliver: those of its unread bytes, or none
when an error bit is set. -/
def ifstream.lines_left (f : ifstream) : List (List Char) :=
  if f.good then split_lines f.rest else []

/-- The stream over the file without its first `k` bytes, at the same byte. -/
def ifstream.drop_front (k : Nat) (f : ifstream) : ifstream :=
  { f with data := f.data.drop k, pos := f.pos - k }

/-- The reader as the loop over the following records sees it from byte `k`
of the file on: the first `k` bytes of the file are dropped, and the line
buffer of `read_next_corr` holds `c`. -/
def sp3.window (k : Nat) (c : List Char) (s : sp3) : sp3 :=
  { s with istream := s.istream.drop_front k, corr_line := c }

/-- The outcome of a record reader, with the reader seen from byte `k` on. -/
def record_result.window (k : Nat) (r : record_result) : record_result :=
  { r with self := r.self.window k [] }

/-- The variables a caller passes to `get_next_epoch(epoch, sats, states,
clocks)`. -/
structure epoch_args where
  epoch : datetime_ms
  sats : List satellite
  states : List satellite_state
  clocks : List satellite_clock
  deriving DecidableEq, Repr

/-- A call `get_next_epoch(epoch, sats, states, clocks)` as the caller sees
it (`sp3.hpp`, lines 35-37): the status, the caller's variables afterwards
and the reader afterwards.  `epoch`, `states` and `clocks` are passed by
reference and hold what the function left in them; `sats` is passed by
value, so the function works on a copy and the caller's vector is the one it
was. -/
def call_get_next_epoch (s : sp3) (a : epoch_args) : Option (Int × epoch_args × sp3) :=
  (get_next_epoch s a.epoch a.sats a.states a.clocks).map
    (fun r => (r.status, ⟨r.epoch, a.sats, r.states, r.clocks⟩, r.self))

/-- The digits of the fraction `strtod` reads behind the integral digits: those
behind a decimal point, or none. -/
def frac_digits (r1 : List Char) : List Char :=
  match r1 with
  | '.' :: r => r.takeWhile isdigit
  | _ => []

/-- The bytes `strtod` looks for an exponent in: those behind the fraction. -/
def after_frac (r1 : List Char) : List Char :=
  match r1 with
  | '.' :: r => r.dropWhile isdigit
  | _ => r1

/-- The satellites at the 17 offsets 9, 12, ..., 57 of a line. -/
def line_sats (l : List Char) : List satellite :=
  sat_offsets.map (fun off => satellite.of_chars (l.drop off))

/-- The satellite lines of a header, as the lines of the file show them: the
run of lines starting with `"+ "` from line 3 on. -/
def header_sat_lines (lines : List (List Char)) : List (List Char) :=
  (lines.drop 2).takeWhile (starts_with '+' ' ')

/-- The satellite count line 3 declares: the number `strtol` reads from
index 4 of the line. -/
def declared_sats (lines : List (List Char)) : Int :=
  (strtol (((lines.drop 2).headD []).drop 4)).1

/-- The line `read_header` takes as the first system line: the first line
behind the lines starting with `"+ "` and the lines starting with `"++"`
that follow line 2. -/
def header_sys_line (lines : List (List Char)) : List Char :=
  (((lines.drop 2).dropWhile (starts_with '+' ' ')).dropWhile (starts_with '+' '+')).headD []

/-- The text of a list of lines: each line followed by a newline. -/
def text_of_lines (ls : List (List Char)) : List Char := ls.flatMap (fun l => l ++ ['\n'])

/-- A line the header reader can store: it holds no newline and fits the
buffer of `MAX_HEADER_CHARS` bytes with its terminator. -/
def storable (l : List Char) : Bool := !l.contains '\n' && decide (l.length < MAX_HEADER_CHARS)

/-- The lines of a header in the layout `read_header` goes through, and the
bytes behind them: line 1, line 2, the satellite lines (line 3 and the lines
that follow it), the accuracy lines, two system lines, two base lines, two
integer lines, the comment lines and the data section. -/
structure header_text where
  line1 : List Char
  line2 : List Char
  sat_line : List Char
  more_sat_lines : List (List Char)
  acc_line : List Char
  more_acc_lines : List (List Char)
  sys_line1 : List Char
  sys_line2 : List Char
  base_line1 : List Char
  base_line2 : List Char
  int_line1 : List Char
  int_line2 : List Char
  comments : List (List Char)
  data_section : List Char

/-- The lines of the header, in file order. -/
def header_text.lines (h : header_text) : List (List Char) :=
  [h.line1, h.line2, h.sat_line] ++ h.more_sat_lines ++ [h.acc_line] ++ h.more_acc_lines
    ++ [h.sys_line1, h.sys_line2, h.base_line1, h.base_line2, h.int_line1, h.int_line2]
    ++ h.comments

/-- The bytes of the file: the lines of the header, each ended by a newline,
then the data section. -/
def header_text.text (h : header_text) : List Char := text_of_lines h.lines ++ h.data_section

/-- The layout of the header: every line is storable, line 1 has `c` as its
second character, and every other line starts with the marker of its place;
the data section does not start with a slash. -/
def header_text.laid_out (h : header_text) : Bool :=
  h.lines.all storable
    && h.line1.getD 1 NUL == 'c'
    && starts_with '+' ' ' h.sat_line && h.more_sat_lines.all (starts_with '+' ' ')
    && starts_with '+' '+' h.acc_line && h.more_acc_lines.all (starts_with '+' '+')
    && starts_with '%' 'c' h.sys_line1 && starts_with '%' 'c' h.sys_line2
    && starts_with '%' 'f' h.base_line1 && starts_with '%' 'f' h.base_line2
    && starts_with '%' 'i' h.int_line1 && starts_with '%' 'i' h.int_line2
    && h.comments.all (starts_with '/' '*')
    && h.data_section.head? != some '/'

/-- The fields of line 1 are well formed: the line reaches its last numeric
field, the numbers at the indices 3, 8, 11, 14, 17, 20 and 32 are in range,
the seconds at index 20 are in decimal notation, and their decimals, from
index 23 to the next blank, are zeros. -/
def header_text.line1_ok (h : header_text) : Bool :=
  decide (32 ≤ h.line1.length)
    && !(strtol (h.line1.drop 3)).2 && !(strtol (h.line1.drop 8)).2
    && !(strtol (h.line1.drop 11)).2 && !(strtol (h.line1.drop 14)).2
    && !(strtol (h.line1.drop 17)).2 && !(strtod (h.line1.drop 20)).2
    && !(strtol (h.line1.drop 32)).2
    && seconds_fit h.line1 && (h.line1.drop 23).contains ' '
    && decimal_notation (h.line1.drop 20)

/-- The fields of the other lines are well formed: the interval at index 24
of line 2 is in decimal notation and in range, and the `double` nearest to
it is a whole number of seconds, to the `double` nearest to `1e-8`; line 3
declares between 1 and 85 satellites at index 4; the first system line names
a satellite system at index 3 or 4; and the two bases at the indices 3 and 14
of the first base line are in decimal notation and in range. -/
def header_text.fields_ok (h : header_text) : Bool :=
  h.line1_ok
    && decide (24 ≤ h.line2.length) && !(strtod (h.line2.drop 24)).2
    && decide (|to_double (strtod (h.line2.drop 24)).1
          - trunc (to_double (strtod (h.line2.drop 24)).1)|
        ≤ to_double (1 / 100000000))
    && decimal_notation (h.line2.drop 24)
    && decimal_notation (h.base_line1.drop 3) && decimal_notation (h.base_line1.drop 14)
    && decide (4 ≤ h.sat_line.length) && !(strtol (h.sat_line.drop 4)).2
    && decide (1 ≤ (strtol (h.sat_line.drop 4)).1) && decide ((strtol (h.sat_line.drop 4)).1 ≤ 85)
    && decide (4 ≤ h.sys_line1.length)
    && ((char_to_satsys (h.sys_line1.getD 3 NUL)).orElse
        (fun _ => char_to_satsys (h.sys_line1.getD 4 NUL))).isSome
    && decide (14 ≤ h.base_line1.length)
    && !(strtod (h.base_line1.drop 3)).2 && !(strtod (h.base_line1.drop 14)).2

/-- The bytes of the same header written with one system line: the lines of
`header_text.lines` without the second `"%c"` line, then the data section. -/
def header_text.text_one_sys (h : header_text) : List Char :=
  text_of_lines ([h.line1, h.line2, h.sat_line] ++ h.more_sat_lines ++ [h.acc_line]
    ++ h.more_acc_lines
    ++ [h.sys_line1, h.base_line1, h.base_line2, h.int_line1, h.int_line2]
    ++ h.comments) ++ h.data_section

/-- The sample header that declares 20 satellites on two satellite lines, as
a `header_text`, with one epoch line as its data section. -/
def sample_header_text : header_text :=
  { line1 := "#cP2020  1  1  0  0  0.00000000      96 ORBIT IGS14 HLM  IGS".toList,
    line2 := "## 2086 259200.00000000   900.00000000 58849 0.0000000000000".toList,
    sat_line := "+   20   G01G02G03G04G05G06G07G08G09G10G11G12G13G14G15G16G17".toList,
    more_sat_lines := ["+        G18G19G20  0  0  0  0  0  0  0  0  0  0  0  0  0  0".toList],
    acc_line := "++         2  2  3  2  2  2  2  2  2  2  2  2  2  2  2  2  2".toList,
    more_acc_lines := ["++         2  2  2  0  0  0  0  0  0  0  0  0  0  0  0  0  0".toList],
    sys_line1 := "%c G  cc GPS ccc cccc cccc cccc cccc ccccc ccccc ccccc ccccc".toList,
    sys_line2 := "%c cc cc ccc ccc cccc cccc cccc cccc ccccc ccccc ccccc ccccc".toList,
    base_line1 := "%f  1.2500000  1.025000000  0.00000000000  0.000000000000000".toList,
    base_line2 := "%f  0.0000000  0.000000000  0.00000000000  0.000000000000000".toList,
    int_line1 := "%i    0    0    0    0      0      0      0      0         0".toList,
    int_line2 := "%i    0    0    0    0      0      0      0      0         0".toList,
    comments := ["/* PRECISE ORBIT".toList],
    data_section := "*  2020  1  1  0  0  0.00000000\n".toList }

/-- The number of lines of 17 tokens needed to hold `n` satellites. -/
def lines_needed (n : Nat) : Nat := (n + sats_per_line - 1) / sats_per_line

/-- The closed interval between `from` and `to`: `from <= f <= to` for an
ascending range, `to <= f <= from` for a descending one. -/
def range.between (r : range) (f : ℚ) : Prop :=
  if r.from_ ≤ r.to_ then r.from_ ≤ f ∧ f ≤ r.to_ else r.to_ ≤ f ∧ f ≤ r.from_

instance (r : range) (f : ℚ) : Decidable (r.between f) := by
  unfold range.between
  infer_instance

/-- The number of the values `from`, `from + step`, ... up to `to`, for an
ascending range with a positive step. -/
def range.count (r : range) : Nat := (⌊(r.to_ - r.from_) / r.step⌋ + 1).toNat

/-- The members of the range are `float` values, and the additions of a loop
over the range are exact: every `from + k * step` up to the first one above
`to` is a `float`. -/
def range.exact (r : range) : Bool :=
  to_float r.to_ == r.to_ && to_float r.step == r.step
    && (List.range (r.count + 1)).all
      (fun (k : Nat) => to_float (r.from_ + (k : ℚ) * r.step) == r.from_ + (k : ℚ) * r.step)

/-- The values `from`, `from + step`, ... up to `to`, for an ascending range
with a positive step. -/
def range.values (r : range) : List ℚ :=
  (List.range r.count).map (fun (k : Nat) => r.from_ + (k : ℚ) * r.step)

/-- A line of the file starts at byte `q`: at byte 0, or behind a newline. -/
def line_start (data : List Char) (q : Nat) : Bool :=
  q == 0 || data.getD (q - 1) NUL == '\n'

/-- A position record starts at byte `q` of the file: a line starts there,
with a `P`. -/
def record_start (data : List Char) (q : Nat) : Bool :=
  line_start data q && data.getD q NUL == 'P'

/-- The number of the position records of the file that start at a byte `q`
with `p0 <= q < p1`. -/
def records_between (data : List Char) (p0 p1 : Nat) : Nat :=
  (List.range' p0 (p1 - p0)).countP (record_start data)

/-- A stream that, when it is good, stands behind a newline. -/
def ifstream.behind_newline (f : ifstream) : Prop :=
  f.good = true → 0 < f.pos ∧ f.data.getD (f.pos - 1) NUL = '\n'

/-- A stream whose next byte, when it is a `P`, starts a line. -/
def ifstream.at_line (f : ifstream) : Prop :=
  f.peek.2 = some 'P' → line_start f.data f.pos = true

/-! ## Epoch arithmetic -/

theorem datetime_ms.total_of_total (t : Int) : (datetime_ms.of_total t).total = t := by
  simp only [datetime_ms.of_total, datetime_ms.total]
  exact Int.ediv_add_emod' t MS_IN_DAY

theorem datetime_ms.of_total_canonical (t : Int) : (datetime_ms.of_total t).canonical := by
  simp only [datetime_ms.of_total, datetime_ms.canonical, MS_IN_DAY]
  omega

theorem datetime_ms.of_total_total (d : datetime_ms) (h : d.canonical) :
    datetime_ms.of_total d.total = d := by
  obtain ⟨mjd, ms⟩ := d
  simp only [datetime_ms.canonical, MS_IN_DAY] at h
  simp only [datetime_ms.of_total, datetime_ms.total, MS_IN_DAY, datetime_ms.mk.injEq]
  omega

/-- Adding the interval `n` times is adding `n` times the interval once. -/
theorem advance_epoch_eq (i : Int) (n : Nat) (d : datetime_ms) (h : d.canonical) :
    advance_epoch i n d = d.add_seconds ((n : Int) * i) := by
  induction n generalizing d with
  | zero => simp [advance_epoch, datetime_ms.add_seconds, datetime_ms.of_total_total d h]
  | succ k ih =>
    rw [advance_epoch, ih (d.add_seconds i) (datetime_ms.of_total_canonical _)]
    simp only [datetime_ms.add_seconds, datetime_ms.total_of_total]
    congr 1
    push_cast
    ring

/-! ## The header reader: what an accepted header stores -/

theorem read_header_tail_ok (s s1 : sp3) (pe e3 : Int) (f : ifstream) (line : List Char)
    (h : read_header_tail s pe e3 f line = (.returned 0, s1)) :
    s1.last_epoch = advance_epoch s.interval s.num_of_epochs.toNat s.first_epoch ∧
    s1.first_epoch = s.first_epoch ∧ s1.interval = s.interval ∧
    s1.num_of_epochs = s.num_of_epochs := by
  unfold read_header_tail at h
  simp only [] at h
  repeat' split at h
  all_goals try solve | simp at h
  all_goals (simp only [Prod.mk.injEq, true_and] at h; subst h; simp)

theorem read_header_sats_ok (s s1 : sp3) (pe e2 : Int) (f : ifstream) (line : List Char)
    (h : read_header_sats s pe e2 f line = (.returned 0, s1)) :
    s1.last_epoch = advance_epoch s.interval s.num_of_epochs.toNat s.first_epoch ∧
    s1.first_epoch = s.first_epoch ∧ s1.interval = s.interval ∧
    s1.num_of_epochs = s.num_of_epochs := by
  unfold read_header_sats at h
  simp only [] at h
  repeat' split at h
  all_goals try solve | simp at h
  all_goals (have h5 := read_header_tail_ok _ _ _ _ _ _ h; exact h5)

theorem read_header_ok (s s1 : sp3) (line0 : List Char)
    (h : read_header s line0 = (.returned 0, s1)) :
    s1.first_epoch.canonical ∧
    s1.last_epoch = advance_epoch s1.interval s1.num_of_epochs.toNat s1.first_epoch := by
  unfold read_header at h
  simp only [] at h
  repeat' split at h
  all_goals try solve | simp at h
  all_goals
    (obtain ⟨h1, h2, h3, h4⟩ := read_header_sats_ok _ _ _ _ _ _ h
     rw [h1, h2, h3, h4]
     exact ⟨datetime_ms.of_total_canonical _, rfl⟩)

/-! ## The record readers: what a velocity record leaves alone -/

theorem read_next_vel_frame (s : sp3) (sat : satellite) (st : satellite_state)
    (clk : satellite_clock) :
    (read_next_vel s sat st clk).2.1.same_position st ∧
    (read_next_vel s sat st clk).2.2.1.same_accuracy clk := by
  unfold read_next_vel
  simp only []
  repeat' split
  all_goals simp [satellite_state.same_position, satellite_clock.same_accuracy,
    state_flag.set, clock_flag.set]

theorem satellite_state.same_position_trans {a b c : satellite_state}
    (h1 : a.same_position b) (h2 : b.same_position c) : a.same_position c := by
  simp only [satellite_state.same_position] at *
  obtain ⟨a1, a2, a3, a4, a5, a6, a7, a8, a9, a10⟩ := h1
  obtain ⟨b1, b2, b3, b4, b5, b6, b7, b8, b9, b10⟩ := h2
  exact ⟨a1.trans b1, a2.trans b2, a3.trans b3, a4.trans b4, a5.trans b5, a6.trans b6,
    a7.trans b7, a8.trans b8, a9.trans b9, a10.trans b10⟩

theorem satellite_clock.same_accuracy_trans {a b c : satellite_clock}
    (h1 : a.same_accuracy b) (h2 : b.same_accuracy c) : a.same_accuracy c := by
  simp only [satellite_clock.same_accuracy] at *
  obtain ⟨a1, a2, a3, a4, a5⟩ := h1
  obtain ⟨b1, b2, b3, b4, b5⟩ := h2
  exact ⟨a1.trans b1, a2.trans b2, a3.trans b3, a4.trans b4, a5.trans b5⟩

theorem follow_records_frame (fuel : Nat) (s : sp3) (sat : satellite) (st : satellite_state)
    (clk : satellite_clock) (r : record_result)
    (h : follow_records fuel s sat st clk = some r) :
    r.sat = sat ∧ r.state.same_position st ∧ r.clock.same_accuracy clk := by
  induction fuel generalizing s st clk with
  | zero => simp [follow_records] at h
  | succ k ih =>
    unfold follow_records at h
    simp only [] at h
    have hv := fun s1 => read_next_vel_frame s1 sat st clk
    repeat' split at h
    all_goals first
      | (simp only [Option.some.injEq] at h; subst h
         refine ⟨rfl, ?_, ?_⟩
         · simp [satellite_state.same_position]
         · simp [satellite_clock.same_accuracy])
      | (simp only [Option.some.injEq] at h; subst h
         exact ⟨rfl, (hv _).1, (hv _).2⟩)
      | exact ih _ _ _ h
      | (obtain ⟨h1, h2, h3⟩ := ih _ _ _ h
         exact ⟨h1, satellite_state.same_position_trans h2 (hv _).1,
           satellite_clock.same_accuracy_trans h3 (hv _).2⟩)

theorem read_next_pos_n_clock_decoded (s : sp3) (sat : satellite) (st : satellite_state)
    (clk : satellite_clock) (r : record_result)
    (h : read_next_pos_n_clock s sat st clk = some r) (h0 : r.status = 0) :
    r.sat = satellite.of_chars ((pos_record_line s).drop 1) ∧
    r.state.same_position (pos_state_of s.base_for_pos (pos_record_line s)) ∧
    r.clock.same_accuracy (pos_clock_of s.base_for_clk (pos_record_line s)) := by
  unfold read_next_pos_n_clock at h
  simp only [] at h
  repeat' split at h
  all_goals first
    | (simp only [Option.some.injEq] at h; subst h; simp at h0)
    | exact follow_records_frame _ _ _ _ _ _ h

/-! ## The record readers: flags and values of a decoded record -/

theorem state_flag_set_if_bad_or_absent (f : state_flag) (b : Bool) (o : state_flag_option) :
    (f.set_if b o).bad_or_absent = (f.bad_or_absent || (b && decide (o = .bad_or_absent))) := by
  cases b <;> cases o <;> simp [state_flag.set_if, state_flag.set]

theorem state_flag_set_if_unknown_acc (f : state_flag) (b : Bool) (o : state_flag_option) :
    (f.set_if b o).unknown_acc = (f.unknown_acc || (b && decide (o = .unknown_acc))) := by
  cases b <;> cases o <;> simp [state_flag.set_if, state_flag.set]

theorem clock_flag_set_if_bad_or_absent (f : clock_flag) (b : Bool) (o : clock_flag_option) :
    (f.set_if b o).bad_or_absent = (f.bad_or_absent || (b && decide (o = .bad_or_absent))) := by
  cases b <;> cases o <;> simp [clock_flag.set_if, clock_flag.set]

theorem clock_flag_set_if_unknown_acc (f : clock_flag) (b : Bool) (o : clock_flag_option) :
    (f.set_if b o).unknown_acc = (f.unknown_acc || (b && decide (o = .unknown_acc))) := by
  cases b <;> cases o <;> simp [clock_flag.set_if, clock_flag.set]

theorem pos_flag_of_bad_or_absent (line : List Char) :
    (pos_flag_of line).bad_or_absent
      = off_bad_pos (field_x line).1 (field_y line).1 (field_z line).1 := by
  simp [pos_flag_of, state_flag_set_if_bad_or_absent, state_flag.set, state_flag.empty]

theorem pos_flag_of_unknown_acc (line : List Char) :
    (pos_flag_of line).unknown_acc
      = some_bad_exp (idev_x line).1 (idev_y line).1 (idev_z line).1 := by
  simp [pos_flag_of, state_flag_set_if_unknown_acc, state_flag.set, state_flag.empty]

theorem clk_flag_of_bad_or_absent (line : List Char) :
    (clk_flag_of line).bad_or_absent = decide ((field_c line).1 ≥ BAD_CLK_VALUE) := by
  simp [clk_flag_of, clock_flag_set_if_bad_or_absent, clock_flag.set, clock_flag.empty]

theorem clk_flag_of_unknown_acc (line : List Char) :
    (clk_flag_of line).unknown_acc = decide ((idev_c line).1 ≥ BAD_EXP_VALUE) := by
  simp [clk_flag_of, clock_flag_set_if_unknown_acc, clock_flag.set, clock_flag.empty]

theorem off_bad_pos_iff (x y z : ℚ) :
    off_bad_pos x y z = true ↔
      ¬ (|x - 0| ≤ 1 / 10000000000 ∧ |y - 0| ≤ 1 / 10000000000 ∧ |z - 0| ≤ 1 / 10000000000) := by
  simp only [off_bad_pos, BAD_POS_VALUE, POS_EPS, Bool.or_eq_true, decide_eq_true_eq, gt_iff_lt,
    not_and, not_le]
  constructor
  · rintro ((h | h) | h) hx hy
    · exact absurd hx (not_le.mpr h)
    · exact absurd hy (not_le.mpr h)
    · exact h
  · intro h
    by_cases hx : |x - 0| ≤ 1 / 10000000000
    · by_cases hy : |y - 0| ≤ 1 / 10000000000
      · exact Or.inr (h hx hy)
      · exact Or.inl (Or.inr (not_le.mp hy))
    · exact Or.inl (Or.inl (not_le.mp hx))

theorem pow_value (b : ℚ) (e : Int) : (pow b e).1 = b ^ e := by
  unfold pow
  split
  · rename_i h
    obtain ⟨hb, he⟩ := h
    simp only [hb]
    exact (zero_zpow e (ne_of_lt he)).symm
  · rfl

/-- What the code does with the state flag: the flag `bad_or_absent` of a decoded `P` record is
set exactly when some coordinate is farther than `1e-10` from 0.0. -/
theorem pos_bad_or_absent_code (s : sp3) (sat : satellite) (st : satellite_state)
    (clk : satellite_clock) (r : record_result)
    (h : read_next_pos_n_clock s sat st clk = some r) (h0 : r.status = 0) :
    r.state.flag.bad_or_absent = true ↔
      ¬ (|(field_x (pos_record_line s)).1 - 0| ≤ 1 / 10000000000 ∧
         |(field_y (pos_record_line s)).1 - 0| ≤ 1 / 10000000000 ∧
         |(field_z (pos_record_line s)).1 - 0| ≤ 1 / 10000000000) := by
  obtain ⟨_, hs, _⟩ := read_next_pos_n_clock_decoded s sat st clk r h h0
  rw [hs.2.2.2.2.2.2.1, ← off_bad_pos_iff]
  simp only [pos_state_of, satellite_state.of_pos, pos_flag_of_bad_or_absent]

/-- What the code does with the std-deviations: every decoded `P` record
carries the scale base to the power of each decoded exponent, whatever the
exponent is. -/
theorem pos_sdev_code (s : sp3) (sat : satellite) (st : satellite_state)
    (clk : satellite_clock) (r : record_result)
    (h : read_next_pos_n_clock s sat st clk = some r) (h0 : r.status = 0) :
    r.state.sx = s.base_for_pos ^ (idev_x (pos_record_line s)).1 ∧
    r.state.sy = s.base_for_pos ^ (idev_y (pos_record_line s)).1 ∧
    r.state.sz = s.base_for_pos ^ (idev_z (pos_record_line s)).1 ∧
    r.clock.sc = s.base_for_clk ^ (idev_c (pos_record_line s)).1 := by
  obtain ⟨_, hs, hc⟩ := read_next_pos_n_clock_decoded s sat st clk r h h0
  obtain ⟨_, _, _, h4, h5, h6, _⟩ := hs
  rw [h4, h5, h6, hc.1]
  simp [pos_state_of, satellite_state.of_pos, pos_clock_of, satellite_clock.of_clk, pow_value]

/-- What the code does with a decoded velocity: when some component is
farther than `1e-10` from 0.0 it sets `no_velocity` and keeps the velocity of
the state; when all three are within `1e-10` of 0.0 it stores them. -/
theorem read_next_vel_velocity_code (s : sp3) (sat : satellite) (state : satellite_state)
    (clkcor : satellite_clock) (h0 : (read_next_vel s sat state clkcor).1 = 0) :
    (off_bad_pos (field_x (vel_record_line s)).1 (field_y (vel_record_line s)).1
        (field_z (vel_record_line s)).1 = true →
      (read_next_vel s sat state clkcor).2.1.flag.no_velocity = true ∧
      (read_next_vel s sat state clkcor).2.1.vx = state.vx ∧
      (read_next_vel s sat state clkcor).2.1.vy = state.vy ∧
      (read_next_vel s sat state clkcor).2.1.vz = state.vz) ∧
    (off_bad_pos (field_x (vel_record_line s)).1 (field_y (vel_record_line s)).1
        (field_z (vel_record_line s)).1 = false →
      (read_next_vel s sat state clkcor).2.1.vx = (field_x (vel_record_line s)).1 ∧
      (read_next_vel s sat state clkcor).2.1.vy = (field_y (vel_record_line s)).1 ∧
      (read_next_vel s sat state clkcor).2.1.vz = (field_z (vel_record_line s)).1) := by
  unfold vel_record_line
  unfold read_next_vel at h0 ⊢
  simp only [] at h0 ⊢
  split at h0
  · simp at h0
  · rename_i c1
    split at h0
    · simp at h0
    · rename_i c2
      split at h0
      · simp at h0
      · rename_i c3
        split at h0
        · simp at h0
        · rename_i c4
          rw [if_neg c1, if_neg c2, if_neg c3, if_neg c4]
          constructor
          · intro hbad
            rw [if_pos hbad]
            split <;> simp [state_flag.set]
          · intro hbad
            have hb2 : ¬ off_bad_pos (field_x (s.istream.getline s.vel_line MAX_HEADER_CHARS).2).1
                (field_y (s.istream.getline s.vel_line MAX_HEADER_CHARS).2).1
                (field_z (s.istream.getline s.vel_line MAX_HEADER_CHARS).2).1 = true := by
              simp [hbad]
            rw [if_neg hb2]
            split <;> simp

/-! ## The epoch reader: the `EOF` line and the end of the file -/

theorem ifstream.getline_buf (f : ifstream) (buf : List Char) (n : Nat) (hg : f.good = true) :
    (f.getline buf n).2 = store_line buf (f.line_chars n) := by
  unfold ifstream.getline
  simp only [hg, Bool.not_true, Bool.false_eq_true, if_false]
  split
  · rfl
  · split <;> rfl

theorem strncmp_eq_store_line (buf cs : List Char)
    (h : strncmp_eq (store_line buf cs) ['E', 'O', 'F'] 3 = true) :
    cs.take 3 = ['E', 'O', 'F'] := by
  have hE : ('E' == NUL) = false := by decide
  have hO : ('O' == NUL) = false := by decide
  match cs with
  | [] => simp [strncmp_eq, store_line, NUL] at h
  | [a] =>
    simp only [strncmp_eq, store_line, List.cons_append, List.nil_append, List.headD_cons,
      List.tail_cons] at h
    by_cases ha : a = 'E'
    · subst ha
      simp [hE, NUL] at h
    · simp [ha] at h
  | [a, b] =>
    simp only [strncmp_eq, store_line, List.cons_append, List.nil_append, List.headD_cons,
      List.tail_cons] at h
    by_cases ha : a = 'E'
    · subst ha
      by_cases hb : b = 'O'
      · subst hb
        simp [hE, hO, NUL] at h
      · simp [hE, hb] at h
    · simp [ha] at h
  | a :: b :: c :: t =>
    simp only [strncmp_eq, store_line, List.cons_append, List.headD_cons,
      List.tail_cons] at h
    by_cases ha : a = 'E'
    · subst ha
      by_cases hb : b = 'O'
      · subst hb
        by_cases hc : c = 'F'
        · subst hc
          rfl
        · simp [hE, hO, hc] at h
      · simp [hE, hb] at h
    · simp [ha] at h

theorem strncmp_eq_eof_line (buf t : List Char) :
    strncmp_eq (store_line buf ('E' :: 'O' :: 'F' :: t)) ['E', 'O', 'F'] 3 = true := by
  have hE : ('E' == NUL) = false := by decide
  have hO : ('O' == NUL) = false := by decide
  have hF : ('F' == NUL) = false := by decide
  simp [strncmp_eq, store_line, hE, hO, hF]

theorem line_chars_take (f : ifstream) (a b c : Char)
    (h : (f.line_chars MAX_HEADER_CHARS).take 3 = [a, b, c]) : f.rest.take 3 = [a, b, c] := by
  unfold ifstream.line_chars MAX_HEADER_CHARS at h
  generalize f.rest = l at h
  match l with
  | [] => simp at h
  | [x] =>
    by_cases hx : (x != '\n') = true
    · simp [List.takeWhile, hx] at h
    · simp [List.takeWhile, hx] at h
  | [x, y] =>
    by_cases hx : (x != '\n') = true
    · by_cases hy : (y != '\n') = true
      · simp [List.takeWhile, hx, hy] at h
      · simp [List.takeWhile, hx, hy] at h
    · simp [List.takeWhile, hx] at h
  | x :: y :: z :: t =>
    by_cases hx : (x != '\n') = true
    · by_cases hy : (y != '\n') = true
      · by_cases hz : (z != '\n') = true
        · simp [List.takeWhile, hx, hy, hz] at h
          simp [h]
        · simp [List.takeWhile, hx, hy, hz] at h
      · simp [List.takeWhile, hx, hy] at h
    · simp [List.takeWhile, hx] at h

theorem line_chars_eof (f : ifstream) (h : f.rest.take 3 = ['E', 'O', 'F']) :
    ∃ t, f.line_chars MAX_HEADER_CHARS = 'E' :: 'O' :: 'F' :: t := by
  unfold ifstream.line_chars MAX_HEADER_CHARS
  generalize f.rest = l at h
  match l with
  | [] => simp at h
  | [x] => simp at h
  | [x, y] => simp at h
  | x :: y :: z :: t =>
    simp only [List.take_succ_cons, List.take_zero, List.cons.injEq, and_true] at h
    obtain ⟨rfl, rfl, rfl⟩ := h
    exact ⟨_, by simp [List.takeWhile]; rfl⟩

theorem read_next_epoch_header_eof (s : sp3) (date : datetime_ms) (h : at_eof_line s) :
    (read_next_epoch_header s date).1 = 999 ∧ (read_next_epoch_header s date).2.1 = date := by
  obtain ⟨hg, hE⟩ := h
  obtain ⟨t, ht⟩ := line_chars_eof s.istream hE
  have hl := ifstream.getline_buf s.istream s.epoch_line MAX_HEADER_CHARS hg
  rw [ht] at hl
  have h1 : byte_at (s.istream.getline s.epoch_line MAX_HEADER_CHARS).2 0 = 'E' := by
    rw [hl]; rfl
  have h2 := strncmp_eq_eof_line s.epoch_line t
  rw [← hl] at h2
  have h3 : (('E' : Char) != '*') = true := by decide
  unfold read_next_epoch_header
  simp [h1, h2, h3]

theorem read_next_epoch_header_status (s : sp3) (date : datetime_ms) :
    ((read_next_epoch_header s date).1 = 0 ∨ (read_next_epoch_header s date).1 = 1 ∨
      (read_next_epoch_header s date).1 = 999) ∧
    ((read_next_epoch_header s date).1 = 999 → s.istream.good = true → at_eof_line s) := by
  unfold read_next_epoch_header
  simp only []
  split
  · split
    · rename_i h
      refine ⟨Or.inr (Or.inr rfl), fun _ hg => ⟨hg, ?_⟩⟩
      rw [ifstream.getline_buf _ _ _ hg] at h
      exact line_chars_take _ _ _ _ (strncmp_eq_store_line _ _ h)
    · exact ⟨Or.inr (Or.inl rfl), fun h => by simp at h⟩
  · split
    · exact ⟨Or.inr (Or.inl rfl), fun h => by simp at h⟩
    · exact ⟨Or.inl rfl, fun h => by simp at h⟩

theorem read_records_status (fuel : Nat) (s : sp3) (epoch : datetime_ms) (sat : satellite)
    (state : satellite_state) (clock : satellite_clock) (sats : List satellite)
    (states : List satellite_state) (clocks : List satellite_clock) (r : epoch_result)
    (h : read_records fuel s epoch sat state clock sats states clocks = some r) :
    r.status = 0 ∨ r.status = 1 := by
  induction fuel generalizing s sat state clock sats states clocks with
  | zero => simp [read_records] at h
  | succ k ih =>
    unfold read_records at h
    simp only [] at h
    split at h
    · split at h
      · simp at h
      · split at h
        · simp only [Option.some.injEq] at h
          subst h
          exact Or.inr rfl
        · exact ih _ _ _ _ _ _ _ h
    · simp only [Option.some.injEq] at h
      subst h
      exact Or.inl rfl

/-! ## The record loops: progress and termination -/

theorem ifstream.rest_ne_nil_iff (f : ifstream) : f.rest ≠ [] ↔ f.pos < f.data.length := by
  simp [ifstream.rest, List.drop_eq_nil_iff]

theorem ifstream.line_chars_ne_nil (f : ifstream) (n : Nat) (h : f.line_chars n ≠ []) :
    f.rest ≠ [] := by
  intro h2
  apply h
  simp [ifstream.line_chars, h2]

theorem ifstream.good_bits (f : ifstream) (hg : f.good = true) :
    f.eofbit = false ∧ f.failbit = false ∧ f.badbit = false := by
  simp only [ifstream.good, Bool.and_eq_true, Bool.not_eq_true'] at hg
  exact ⟨hg.1.1, hg.1.2, hg.2⟩

/-- A `getline` that does not fail was given a good stream with an unread
byte, and leaves the position farther by the stored characters, plus one
when it consumed a newline. -/
theorem ifstream.getline_progress (f : ifstream) (buf : List Char) (n : Nat)
    (h : (f.getline buf n).1.fail = false) :
    f.good = true ∧ (f.getline buf n).1.data = f.data ∧
    f.pos + (f.line_chars n).length ≤ (f.getline buf n).1.pos ∧
    f.pos < (f.getline buf n).1.pos ∧ f.pos < f.data.length := by
  by_cases hg : f.good = true
  · obtain ⟨_, _, hb⟩ := f.good_bits hg
    cases hd : f.rest.drop (f.line_chars n).length with
    | nil =>
      have e : f.getline buf n =
          ({ f with
              pos := f.pos + (f.line_chars n).length, eofbit := true,
              failbit := (f.line_chars n).isEmpty }, store_line buf (f.line_chars n)) := by
        unfold ifstream.getline
        simp only [hg, Bool.not_true, Bool.false_eq_true, if_false, hd]
      rw [e] at h ⊢
      simp only [ifstream.fail, hb, Bool.or_false, List.isEmpty_eq_false] at h
      have hne : f.line_chars n ≠ [] := by
        intro h2
        simp [h2] at h
      have hl : 0 < (f.line_chars n).length := List.length_pos.mpr hne
      have hr := (ifstream.rest_ne_nil_iff f).mp (ifstream.line_chars_ne_nil f n hne)
      exact ⟨hg, rfl, le_refl _, Nat.lt_add_of_pos_right hl, hr⟩
    | cons c t =>
      have hr : f.rest ≠ [] := by
        intro h2
        simp [h2] at hd
      have hr2 := (ifstream.rest_ne_nil_iff f).mp hr
      by_cases hc : (c == '\n') = true
      · have e : f.getline buf n = ({ f with pos := f.pos + (f.line_chars n).length + 1 },
            store_line buf (f.line_chars n)) := by
          unfold ifstream.getline
          simp only [hg, Bool.not_true, Bool.false_eq_true, if_false, hd, hc, if_true]
        rw [e]
        exact ⟨hg, rfl, Nat.le_succ _, Nat.lt_succ_of_le (Nat.le_add_right _ _), hr2⟩
      · have e : f.getline buf n =
            ({ f with
                pos := f.pos + (f.line_chars n).length,
                failbit := true }, store_line buf (f.line_chars n)) := by
          unfold ifstream.getline
          simp only [hg, Bool.not_true, Bool.false_eq_true, if_false, hd, hc]
        rw [e] at h
        simp [ifstream.fail] at h
  · unfold ifstream.getline at h
    simp [hg, ifstream.fail] at h

/-- A `get` that does not fail was given a good stream and stored one or two
characters; the position moved by their number. -/
theorem ifstream.get_progress (f : ifstream) (h : (f.get 3).1.fail = false) :
    f.good = true ∧ (f.get 3).2 = f.line_chars 3 ∧ f.line_chars 3 ≠ [] ∧
    (f.get 3).1.data = f.data ∧ (f.get 3).1.pos = f.pos + (f.line_chars 3).length ∧
    (f.get 3).1.failbit = false ∧ (f.get 3).1.badbit = false := by
  by_cases hg : f.good = true
  · obtain ⟨_, _, hb⟩ := f.good_bits hg
    have e : f.get 3 =
        ({ f with
            pos := f.pos + (f.line_chars 3).length,
            eofbit := decide ((f.line_chars 3).length < 3 - 1)
              && (f.rest.drop (f.line_chars 3).length).isEmpty,
            failbit := (f.line_chars 3).isEmpty }, f.line_chars 3) := by
      unfold ifstream.get
      simp only [hg, Bool.not_true, Bool.false_eq_true, if_false, ifstream.get_chars]
    rw [e] at h ⊢
    simp only [ifstream.fail, hb, Bool.or_false, List.isEmpty_eq_false] at h
    have hne : f.line_chars 3 ≠ [] := by
      intro h2
      simp [h2] at h
    exact ⟨hg, rfl, hne, rfl, rfl, by simpa using hne, hb⟩
  · unfold ifstream.get at h
    simp [hg, ifstream.fail] at h

theorem ifstream.line_chars_length_le (f : ifstream) (n : Nat) :
    (f.line_chars n).length ≤ n - 1 := by
  simp [ifstream.line_chars, List.length_take]

/-- Two `unget` after a `get` that stored two characters: the stream is back
where it was, readable. -/
theorem ifstream.unget_unget_two (f g : ifstream) (hf : g.failbit = false) (hb : g.badbit = false)
    (hd : g.data = f.data) (hp : g.pos = f.pos + 2) :
    g.unget.unget = ⟨f.data, f.pos, false, false, false⟩ := by
  obtain ⟨gd, gp, ge, gf, gb⟩ := g
  simp only at hf hb hd hp
  subst hf hb hd hp
  simp [ifstream.unget]

/-- Two `unget` after a `get` that stored one character: the stream is one
byte before where it was, or bad at the start of the file. -/
theorem ifstream.unget_unget_one (f g : ifstream) (hf : g.failbit = false) (hb : g.badbit = false)
    (hd : g.data = f.data) (hp : g.pos = f.pos + 1) :
    (f.pos = 0 ∧ g.unget.unget.good = false) ∨
    (0 < f.pos ∧ g.unget.unget = ⟨f.data, f.pos - 1, false, false, false⟩) := by
  obtain ⟨gd, gp, ge, gf, gb⟩ := g
  simp only at hf hb hd hp
  subst hf hb hd hp
  by_cases h0 : f.pos = 0
  · left
    simp [ifstream.unget, ifstream.good, h0]
  · right
    refine ⟨Nat.pos_of_ne_zero h0, ?_⟩
    simp [ifstream.unget, h0]
theorem ifstream.getline_data (f : ifstream) (buf : List Char) (n : Nat) :
    (f.getline buf n).1.data = f.data := by
  unfold ifstream.getline
  split
  · rfl
  · simp only []
    split
    · rfl
    · split <;> rfl

theorem ifstream.line_chars_one (f : ifstream) (c : Char) (h : f.line_chars 3 = [c]) :
    ∃ tail, f.rest = c :: tail ∧ (c != '\n') = true ∧
      (tail = [] ∨ ∃ d t, tail = d :: t ∧ (d != '\n') = false) := by
  unfold ifstream.line_chars at h
  generalize f.rest = l at h
  match l with
  | [] => simp at h
  | [x] =>
    by_cases hx : (x != '\n') = true
    · simp [List.takeWhile, hx] at h
      exact ⟨[], by rw [h], by rw [← h]; exact hx, Or.inl rfl⟩
    · simp [List.takeWhile, hx] at h
  | x :: y :: t =>
    by_cases hx : (x != '\n') = true
    · by_cases hy : (y != '\n') = true
      · simp [List.takeWhile, hx, hy] at h
      · simp [List.takeWhile, hx, hy] at h
        refine ⟨y :: t, by rw [h], by rw [← h]; exact hx, Or.inr ⟨y, t, rfl, ?_⟩⟩
        simpa using hy
    · simp [List.takeWhile, hx] at h

/-- A `getline` one byte before a position where exactly one character
stands in front of a newline or the end: when it does not fail and stores a
non-empty line, it ends behind that position. -/
theorem ifstream.getline_after_back_step (f : ifstream) (buf : List Char) (c : Char)
    (hpos : 0 < f.pos) (hc : f.line_chars 3 = [c])
    (h : ((⟨f.data, f.pos - 1, false, false, false⟩ : ifstream).getline buf
      MAX_HEADER_CHARS).1.fail = false)
    (hb : byte_at ((⟨f.data, f.pos - 1, false, false, false⟩ : ifstream).getline buf
      MAX_HEADER_CHARS).2 0 ≠ NUL) :
    f.pos < ((⟨f.data, f.pos - 1, false, false, false⟩ : ifstream).getline buf
      MAX_HEADER_CHARS).1.pos := by
  obtain ⟨tail, hr, hcn, _⟩ := f.line_chars_one c hc
  have hlt : f.pos < f.data.length := by
    apply (ifstream.rest_ne_nil_iff f).mp
    rw [hr]
    simp
  have hlt2 : f.pos - 1 < f.data.length := by omega
  have hrest : (⟨f.data, f.pos - 1, false, false, false⟩ : ifstream).rest
      = f.data[f.pos - 1] :: c :: tail := by
    simp only [ifstream.rest]
    rw [List.drop_eq_getElem_cons hlt2]
    have : f.pos - 1 + 1 = f.pos := by omega
    rw [this]
    simp only [ifstream.rest] at hr
    rw [hr]
  obtain ⟨hg, _, hlen, _, _⟩ := ifstream.getline_progress _ buf MAX_HEADER_CHARS h
  by_cases hd : (f.data[f.pos - 1] != '\n') = true
  · have h2 : 2 ≤ ((⟨f.data, f.pos - 1, false, false, false⟩ : ifstream).line_chars
        MAX_HEADER_CHARS).length := by
      simp only [ifstream.line_chars, hrest, List.takeWhile, hd, hcn, MAX_HEADER_CHARS]
      simp
    simp only at hlen
    omega
  · exfalso
    apply hb
    rw [ifstream.getline_buf _ _ _ hg]
    have : (⟨f.data, f.pos - 1, false, false, false⟩ : ifstream).line_chars MAX_HEADER_CHARS
        = [] := by
      simp only [ifstream.line_chars, hrest, List.takeWhile, hd]
      simp
    rw [this]
    rfl

theorem read_next_corr_stream (s : sp3) :
    (read_next_corr s).2.istream = (s.istream.getline s.corr_line MAX_HEADER_CHARS).1 ∧
    ((read_next_corr s).1 = 0 →
      (s.istream.getline s.corr_line MAX_HEADER_CHARS).1.fail = false) := by
  unfold read_next_corr
  simp only []
  split
  · exact ⟨rfl, fun h => by simp at h⟩
  · rename_i h
    refine ⟨rfl, fun _ => ?_⟩
    simp only [Bool.or_eq_true, not_or, Bool.not_eq_true] at h
    exact h.1

theorem read_next_vel_stream (s : sp3) (sat : satellite) (st : satellite_state)
    (clk : satellite_clock) :
    (read_next_vel s sat st clk).2.2.2.istream
      = (s.istream.getline s.vel_line MAX_HEADER_CHARS).1 ∧
    ((read_next_vel s sat st clk).1 = 0 →
      (s.istream.getline s.vel_line MAX_HEADER_CHARS).1.fail = false ∧
      byte_at (s.istream.getline s.vel_line MAX_HEADER_CHARS).2 0 = 'V') := by
  unfold read_next_vel
  simp only []
  split
  · exact ⟨rfl, fun h => by simp at h⟩
  · rename_i h
    simp only [Bool.or_eq_true, not_or, Bool.not_eq_true, bne_eq_false_iff_eq] at h
    split
    · exact ⟨rfl, fun h => by simp at h⟩
    · split
      · exact ⟨rfl, fun h => by simp at h⟩
      · split
        · exact ⟨rfl, fun h => by simp at h⟩
        · exact ⟨rfl, fun _ => h⟩
theorem byte_at_one_length (cs : List Char) (h : byte_at cs 1 ≠ NUL) : 2 ≤ cs.length := by
  match cs with
  | [] => simp [byte_at] at h
  | [a] => simp [byte_at] at h
  | a :: b :: t => simp

/-- One round of the loop over the following records that reads a
correlation record with status 0 ends farther in the same file. -/
theorem follow_step_corr (s : sp3) (hget : (s.istream.get 3).1.fail = false)
    (h1 : byte_at (s.istream.get 3).2 1 ≠ NUL)
    (h0 : (read_next_corr { s with istream := (s.istream.get 3).1.unget.unget }).1 = 0) :
    (read_next_corr { s with istream := (s.istream.get 3).1.unget.unget }).2.istream.data
      = s.istream.data ∧
    s.istream.pos
      < (read_next_corr { s with istream := (s.istream.get 3).1.unget.unget }).2.istream.pos ∧
    s.istream.pos < s.istream.data.length := by
  obtain ⟨_, hcs, _, hd, hp, hf, hb⟩ := ifstream.get_progress s.istream hget
  have hlen : (s.istream.line_chars 3).length = 2 := by
    have := ifstream.line_chars_length_le s.istream 3
    have := byte_at_one_length _ (hcs ▸ h1)
    omega
  rw [hlen] at hp
  have hu := ifstream.unget_unget_two s.istream _ hf hb hd hp
  obtain ⟨hs, hok⟩ := read_next_corr_stream { s with istream := (s.istream.get 3).1.unget.unget }
  have hnf := hok h0
  rw [hs]
  simp only [hu] at hnf ⊢
  obtain ⟨_, hd2, _, hp2, hl2⟩ := ifstream.getline_progress _ _ _ hnf
  exact ⟨hd2, hp2, hl2⟩

/-- One round of the loop over the following records that reads a velocity
record with status 0 ends farther in the same file. -/
theorem follow_step_vel (s : sp3) (sat : satellite) (st : satellite_state)
    (clk : satellite_clock) (hget : (s.istream.get 3).1.fail = false)
    (h0 : (read_next_vel { s with istream := (s.istream.get 3).1.unget.unget } sat st clk).1
      = 0) :
    (read_next_vel { s with istream := (s.istream.get 3).1.unget.unget } sat st
      clk).2.2.2.istream.data = s.istream.data ∧
    s.istream.pos < (read_next_vel { s with istream := (s.istream.get 3).1.unget.unget } sat st
      clk).2.2.2.istream.pos ∧
    s.istream.pos < s.istream.data.length := by
  obtain ⟨_, hcs, hne, hd, hp, hf, hb⟩ := ifstream.get_progress s.istream hget
  have hle := ifstream.line_chars_length_le s.istream 3
  have hpos : 0 < (s.istream.line_chars 3).length := List.length_pos.mpr hne
  have hlt : s.istream.pos < s.istream.data.length :=
    (ifstream.rest_ne_nil_iff _).mp (ifstream.line_chars_ne_nil _ 3 hne)
  obtain ⟨hs, hok⟩ := read_next_vel_stream { s with istream := (s.istream.get 3).1.unget.unget }
    sat st clk
  obtain ⟨hnf, hV⟩ := hok h0
  rw [hs]
  by_cases hlen : (s.istream.line_chars 3).length = 2
  · rw [hlen] at hp
    have hu := ifstream.unget_unget_two s.istream _ hf hb hd hp
    simp only [hu] at hnf ⊢
    obtain ⟨_, hd2, _, hp2, _⟩ := ifstream.getline_progress _ _ _ hnf
    exact ⟨hd2, hp2, hlt⟩
  · have hlen1 : (s.istream.line_chars 3).length = 1 := by omega
    rw [hlen1] at hp
    obtain ⟨c, hc⟩ := List.length_eq_one.mp hlen1
    rcases ifstream.unget_unget_one s.istream _ hf hb hd hp with ⟨_, hbad⟩ | ⟨hp0, hu⟩
    · obtain ⟨hg, _⟩ := ifstream.getline_progress _ _ _ hnf
      simp only at hg
      rw [hbad] at hg
      exact absurd hg (by decide)
    · simp only [hu] at hnf hV ⊢
      have hnn : byte_at ((⟨s.istream.data, s.istream.pos - 1, false, false, false⟩ :
          ifstream).getline s.vel_line MAX_HEADER_CHARS).2 0 ≠ NUL := by
        rw [hV]
        decide
      exact ⟨ifstream.getline_data _ _ _,
        ifstream.getline_after_back_step s.istream s.vel_line c hp0 hc hnf hnn, hlt⟩

/-- The loop over the following records ends within one round per unread
byte, plus one. -/
theorem follow_records_total (fuel : Nat) (s : sp3) (sat : satellite) (st : satellite_state)
    (clk : satellite_clock) (h : s.istream.data.length - s.istream.pos < fuel) :
    ∃ r, follow_records fuel s sat st clk = some r := by
  induction fuel generalizing s st clk with
  | zero => exact absurd h (Nat.not_lt_zero _)
  | succ k ih =>
    unfold follow_records
    simp only []
    by_cases hget : (s.istream.get 3).1.fail = true
    · rw [if_pos hget]
      exact ⟨_, rfl⟩
    · rw [if_neg hget]
      have hget2 : (s.istream.get 3).1.fail = false := by simpa using hget
      split
      · rename_i hE
        split
        · exact ⟨_, rfl⟩
        · rename_i h0
          have h0 : (read_next_corr { s with istream := (s.istream.get 3).1.unget.unget }).1
              = 0 := by simpa using h0
          have h1 : byte_at (s.istream.get 3).2 1 ≠ NUL := by
            simp only [Bool.and_eq_true, Bool.or_eq_true, beq_iff_eq] at hE
            rcases hE.2 with hP | hV
            · rw [hP]; decide
            · rw [hV]; decide
          obtain ⟨hd, hp, hl⟩ := follow_step_corr s hget2 h1 h0
          apply ih
          rw [hd]
          omega
      · split
        · split
          · exact ⟨_, rfl⟩
          · rename_i h0
            have h0 : (read_next_vel { s with istream := (s.istream.get 3).1.unget.unget } sat
                st clk).1 = 0 := by simpa using h0
            obtain ⟨hd, hp, hl⟩ := follow_step_vel s sat st clk hget2 h0
            apply ih
            rw [hd]
            omega
        · exact ⟨_, rfl⟩

/-- The function `read_next_pos_n_clock` returns: its loop never runs out of
rounds. -/
theorem read_next_pos_n_clock_total (s : sp3) (sat : satellite) (st : satellite_state)
    (clk : satellite_clock) : ∃ r, read_next_pos_n_clock s sat st clk = some r := by
  unfold read_next_pos_n_clock
  simp only []
  split
  · exact ⟨_, rfl⟩
  · split
    · exact ⟨_, rfl⟩
    · split
      · exact ⟨_, rfl⟩
      · apply follow_records_total
        simp only [ifstream.getline_data]
        omega
theorem ifstream.get_fail (f : ifstream) (h : (f.get 3).1.fail = true) :
    (f.get 3).1.data = f.data ∧ (f.get 3).1.pos = f.pos := by
  by_cases hg : f.good = true
  · obtain ⟨_, _, hb⟩ := f.good_bits hg
    unfold ifstream.get at h ⊢
    simp only [hg, Bool.not_true, Bool.false_eq_true, if_false, ifstream.get_chars,
      ifstream.fail, hb, Bool.or_false, List.isEmpty_iff] at h ⊢
    simp [h]
  · unfold ifstream.get
    simp [hg]

theorem ifstream.unget_unget_pos (g : ifstream) (hf : g.failbit = false)
    (hb : g.badbit = false) :
    g.unget.unget.data = g.data ∧ g.pos ≤ g.unget.unget.pos + 2 := by
  obtain ⟨gd, gp, ge, gf, gb⟩ := g
  simp only at hf hb
  subst hf hb
  by_cases h0 : gp = 0
  · subst h0
    simp [ifstream.unget]
  · by_cases h1 : gp - 1 = 0
    · simp only [ifstream.unget, h0, h1, Bool.or_self, Bool.false_eq_true, if_false, if_true]
      exact ⟨trivial, by omega⟩
    · simp only [ifstream.unget, h0, h1, Bool.or_self, Bool.false_eq_true, if_false]
      exact ⟨trivial, by omega⟩

theorem ifstream.peek_stream (f : ifstream) :
    f.peek.1.data = f.data ∧ f.peek.1.pos = f.pos := by
  unfold ifstream.peek
  split
  · exact ⟨rfl, rfl⟩
  · split <;> exact ⟨rfl, rfl⟩

/-- A `getline` that does not fail either ends at the end of the file, with
`eofbit`, or consumes a newline behind the stored characters. -/
theorem ifstream.getline_progress_newline (f : ifstream) (buf : List Char) (n : Nat)
    (h : (f.getline buf n).1.fail = false) :
    (f.getline buf n).1.good = false ∨
    f.pos + (f.line_chars n).length + 1 ≤ (f.getline buf n).1.pos := by
  obtain ⟨hg, _⟩ := ifstream.getline_progress f buf n h
  cases hd : f.rest.drop (f.line_chars n).length with
  | nil =>
    left
    unfold ifstream.getline
    simp only [hg, Bool.not_true, Bool.false_eq_true, if_false, hd]
    simp [ifstream.good]
  | cons c t =>
    by_cases hc : (c == '\n') = true
    · right
      unfold ifstream.getline
      simp only [hg, Bool.not_true, Bool.false_eq_true, if_false, hd, hc, if_true]
      exact le_refl _
    · exfalso
      unfold ifstream.getline at h
      simp only [hg, Bool.not_true, Bool.false_eq_true, if_false, hd, hc] at h
      simp [ifstream.fail] at h

/-- Where the loop over the following records leaves the stream when it ends
with status 0: in the same file, at most one byte before where it started,
and where it started when the stream was not good. -/
theorem follow_records_pos (fuel : Nat) (s : sp3) (sat : satellite) (st : satellite_state)
    (clk : satellite_clock) (r : record_result)
    (h : follow_records fuel s sat st clk = some r) (h0 : r.status = 0) :
    r.self.istream.data = s.istream.data ∧ s.istream.pos ≤ r.self.istream.pos + 1 ∧
    (s.istream.good = false → r.self.istream.pos = s.istream.pos) := by
  induction fuel generalizing s st clk with
  | zero => simp [follow_records] at h
  | succ k ih =>
    unfold follow_records at h
    simp only [] at h
    by_cases hget : (s.istream.get 3).1.fail = true
    · rw [if_pos hget] at h
      simp only [Option.some.injEq] at h
      subst h
      obtain ⟨hd, hp⟩ := ifstream.get_fail _ hget
      exact ⟨hd, by simp only [hp]; omega, fun _ => hp⟩
    · rw [if_neg hget] at h
      have hget2 : (s.istream.get 3).1.fail = false := by simpa using hget
      obtain ⟨hg, hcs, hne, hd, hp, hf, hb⟩ := ifstream.get_progress s.istream hget2
      have hgood : s.istream.good = false → r.self.istream.pos = s.istream.pos := by
        intro hbad
        rw [hg] at hbad
        exact absurd hbad (by decide)
      split at h
      · rename_i hE
        split at h
        · simp only [Option.some.injEq] at h
          subst h
          rename_i hne0
          exact absurd h0 hne0
        · rename_i hz
          have hz : (read_next_corr { s with istream := (s.istream.get 3).1.unget.unget }).1
              = 0 := by simpa using hz
          have h1 : byte_at (s.istream.get 3).2 1 ≠ NUL := by
            simp only [Bool.and_eq_true, Bool.or_eq_true, beq_iff_eq] at hE
            rcases hE.2 with hP | hV
            · rw [hP]; decide
            · rw [hV]; decide
          obtain ⟨hd3, hp3, _⟩ := follow_step_corr s hget2 h1 hz
          obtain ⟨i1, i2, _⟩ := ih _ _ _ h
          exact ⟨i1.trans hd3, by omega, hgood⟩
      · split at h
        · split at h
          · simp only [Option.some.injEq] at h
            subst h
            rename_i hne0
            exact absurd h0 hne0
          · rename_i hz
            have hz : (read_next_vel { s with istream := (s.istream.get 3).1.unget.unget } sat
                st clk).1 = 0 := by simpa using hz
            obtain ⟨hd3, hp3, _⟩ := follow_step_vel s sat st clk hget2 hz
            obtain ⟨i1, i2, _⟩ := ih _ _ _ h
            exact ⟨i1.trans hd3, by omega, hgood⟩
        · simp only [Option.some.injEq] at h
          subst h
          obtain ⟨u1, u2⟩ := ifstream.unget_unget_pos _ hf hb
          have hpos : 0 < (s.istream.line_chars 3).length := List.length_pos.mpr hne
          refine ⟨u1.trans hd, ?_, hgood⟩
          simp only
          omega

theorem byte_at_store_line_ne_nul (buf cs : List Char) (h : byte_at (store_line buf cs) 0 ≠ NUL) :
    0 < cs.length := by
  match cs with
  | [] => simp [byte_at, store_line] at h
  | a :: t => simp

/-- A call of `read_next_pos_n_clock` that returns 0 ends farther in the same
file. -/
theorem read_next_pos_n_clock_progress (s : sp3) (sat : satellite) (st : satellite_state)
    (clk : satellite_clock) (r : record_result)
    (h : read_next_pos_n_clock s sat st clk = some r) (h0 : r.status = 0) :
    r.self.istream.data = s.istream.data ∧ s.istream.pos < r.self.istream.pos ∧
    s.istream.pos < s.istream.data.length := by
  unfold read_next_pos_n_clock at h
  simp only [] at h
  split at h
  · simp only [Option.some.injEq] at h
    subst h
    simp at h0
  · rename_i hline
    simp only [Bool.or_eq_true, not_or, Bool.not_eq_true, bne_eq_false_iff_eq] at hline
    obtain ⟨hnf, hP⟩ := hline
    obtain ⟨hg, hd, _, hp, hl⟩ := ifstream.getline_progress _ _ _ hnf
    have hcs : 0 < (s.istream.line_chars MAX_HEADER_CHARS).length := by
      apply byte_at_store_line_ne_nul s.pos_line
      rw [← ifstream.getline_buf _ _ _ hg, hP]
      decide
    split at h
    · simp only [Option.some.injEq] at h
      subst h
      simp at h0
    · split at h
      · simp only [Option.some.injEq] at h
        subst h
        simp at h0
      · obtain ⟨f1, f2, f3⟩ := follow_records_pos _ _ _ _ _ _ h h0
        simp only at f1 f2 f3
        refine ⟨f1.trans hd, ?_, hl⟩
        rcases ifstream.getline_progress_newline _ _ _ hnf with hbad | hnl
        · rw [f3 hbad]
          exact hp
        · omega

/-- The loop over the records of an epoch ends within one round per unread
byte, plus one. -/
theorem read_records_total (fuel : Nat) (s : sp3) (epoch : datetime_ms) (sat : satellite)
    (state : satellite_state) (clock : satellite_clock) (sats : List satellite)
    (states : List satellite_state) (clocks : List satellite_clock)
    (h : s.istream.data.length - s.istream.pos < fuel) :
    ∃ r, read_records fuel s epoch sat state clock sats states clocks = some r := by
  induction fuel generalizing s sat state clock sats states clocks with
  | zero => exact absurd h (Nat.not_lt_zero _)
  | succ k ih =>
    unfold read_records
    simp only []
    obtain ⟨pd, pp⟩ := ifstream.peek_stream s.istream
    split
    · obtain ⟨r, hr⟩ := read_next_pos_n_clock_total { s with istream := s.istream.peek.1 } sat
        state clock
      rw [hr]
      simp only []
      split
      · exact ⟨_, rfl⟩
      · rename_i hz
        have hz : r.status = 0 := by simpa using hz
        obtain ⟨q1, q2, q3⟩ := read_next_pos_n_clock_progress _ _ _ _ _ hr hz
        simp only at q1 q2 q3
        apply ih
        rw [q1, pd]
        rw [pp] at q2
        rw [pp, pd] at q3
        omega
    · exact ⟨_, rfl⟩

theorem read_next_epoch_header_stream (s : sp3) (date : datetime_ms) :
    (read_next_epoch_header s date).2.2.istream.data = s.istream.data := by
  unfold read_next_epoch_header
  simp only []
  split
  · split <;> exact ifstream.getline_data _ _ _
  · split <;> exact ifstream.getline_data _ _ _

/-- The function `get_next_epoch` returns: its loops never run out of
rounds. -/
theorem get_next_epoch_total (s : sp3) (epoch : datetime_ms) (sats : List satellite)
    (states : List satellite_state) (clocks : List satellite_clock) :
    ∃ r, get_next_epoch s epoch sats states clocks = some r := by
  unfold get_next_epoch
  simp only []
  split
  · exact ⟨_, rfl⟩
  · split
    · exact ⟨_, rfl⟩
    · apply read_records_total
      rw [read_next_epoch_header_stream]
      omega

/-! ## The epoch reader: what a call keeps and what it appends -/

theorem ifstream.unget_data (f : ifstream) : f.unget.data = f.data := by
  unfold ifstream.unget
  simp only []
  split
  · rfl
  · split <;> rfl

theorem ifstream.get_data (f : ifstream) (n : Nat) : (f.get n).1.data = f.data := by
  unfold ifstream.get
  split <;> rfl

theorem ifstream.getline_pos_le (f : ifstream) (buf : List Char) (n : Nat) :
    f.pos ≤ (f.getline buf n).1.pos := by
  unfold ifstream.getline
  split
  · exact le_refl _
  · simp only []
    split
    · exact Nat.le_add_right _ _
    · split
      · simp only []
        omega
      · exact Nat.le_add_right _ _

theorem read_next_epoch_header_data (s : sp3) (date : datetime_ms) :
    (read_next_epoch_header s date).2.2.header_data = s.header_data := by
  unfold read_next_epoch_header
  simp only []
  split
  · split <;> simp [sp3.header_data, ifstream.getline_data]
  · split <;> simp [sp3.header_data, ifstream.getline_data]

theorem read_next_epoch_header_pos (s : sp3) (date : datetime_ms) :
    s.istream.pos ≤ (read_next_epoch_header s date).2.2.istream.pos := by
  unfold read_next_epoch_header
  simp only []
  split
  · split <;> exact ifstream.getline_pos_le _ _ _
  · split <;> exact ifstream.getline_pos_le _ _ _

theorem read_next_corr_data (s : sp3) : (read_next_corr s).2.header_data = s.header_data := by
  unfold read_next_corr
  simp only []
  split <;> simp [sp3.header_data, ifstream.getline_data]

theorem read_next_vel_data (s : sp3) (sat : satellite) (st : satellite_state)
    (clk : satellite_clock) :
    (read_next_vel s sat st clk).2.2.2.header_data = s.header_data := by
  unfold read_next_vel
  simp only []
  repeat' split
  all_goals simp [sp3.header_data, ifstream.getline_data]

theorem follow_records_data (fuel : Nat) (s : sp3) (sat : satellite) (st : satellite_state)
    (clk : satellite_clock) (r : record_result)
    (h : follow_records fuel s sat st clk = some r) :
    r.self.header_data = s.header_data := by
  induction fuel generalizing s st clk with
  | zero => simp [follow_records] at h
  | succ k ih =>
    unfold follow_records at h
    simp only [] at h
    have hs1 : sp3.header_data { s with istream := (s.istream.get 3).1.unget.unget }
        = s.header_data := by
      simp [sp3.header_data, ifstream.unget_data, ifstream.get_data]
    split at h
    · simp only [Option.some.injEq] at h
      subst h
      simp [sp3.header_data, ifstream.get_data]
    · split at h
      · split at h
        · simp only [Option.some.injEq] at h
          subst h
          exact (read_next_corr_data _).trans hs1
        · exact (ih _ _ _ h).trans ((read_next_corr_data _).trans hs1)
      · split at h
        · split at h
          · simp only [Option.some.injEq] at h
            subst h
            exact (read_next_vel_data _ _ _ _).trans hs1
          · exact (ih _ _ _ h).trans ((read_next_vel_data _ _ _ _).trans hs1)
        · simp only [Option.some.injEq] at h
          subst h
          exact hs1

theorem read_next_pos_n_clock_data (s : sp3) (sat : satellite) (st : satellite_state)
    (clk : satellite_clock) (r : record_result)
    (h : read_next_pos_n_clock s sat st clk = some r) :
    r.self.header_data = s.header_data := by
  unfold read_next_pos_n_clock at h
  simp only [] at h
  repeat' split at h
  all_goals first
    | (simp only [Option.some.injEq] at h; subst h
       simp [sp3.header_data, ifstream.getline_data])
    | (have h2 := follow_records_data _ _ _ _ _ _ h
       rw [h2]
       simp [sp3.header_data, ifstream.getline_data])

theorem read_records_data (fuel : Nat) (s : sp3) (epoch : datetime_ms) (sat : satellite)
    (state : satellite_state) (clock : satellite_clock) (sats : List satellite)
    (states : List satellite_state) (clocks : List satellite_clock) (r : epoch_result)
    (h : read_records fuel s epoch sat state clock sats states clocks = some r) :
    r.self.header_data = s.header_data := by
  induction fuel generalizing s sat state clock sats states clocks with
  | zero => simp [read_records] at h
  | succ k ih =>
    unfold read_records at h
    simp only [] at h
    have hp : sp3.header_data { s with istream := s.istream.peek.1 } = s.header_data := by
      simp [sp3.header_data, (ifstream.peek_stream s.istream).1]
    split at h
    · split at h
      · simp at h
      · rename_i r1 hr1
        have h1 := read_next_pos_n_clock_data _ _ _ _ _ hr1
        split at h
        · simp only [Option.some.injEq] at h
          subst h
          exact h1.trans hp
        · exact (ih _ _ _ _ _ _ _ h).trans (h1.trans hp)
    · simp only [Option.some.injEq] at h
      subst h
      exact hp

/-- Every call of `get_next_epoch` leaves the header data and the bytes of
the file as they were. -/
theorem get_next_epoch_data (s : sp3) (epoch : datetime_ms) (sats : List satellite)
    (states : List satellite_state) (clocks : List satellite_clock) (r : epoch_result)
    (h : get_next_epoch s epoch sats states clocks = some r) :
    r.self.header_data = s.header_data := by
  unfold get_next_epoch at h
  simp only [] at h
  split at h
  · simp only [Option.some.injEq] at h
    subst h
    rfl
  · split at h
    · simp only [Option.some.injEq] at h
      subst h
      exact read_next_epoch_header_data _ _
    · exact (read_records_data _ _ _ _ _ _ _ _ _ _ h).trans (read_next_epoch_header_data _ _)

/-- The loop over the records appends as many satellites as states as
clocks, one of each per round, and no more than there are unread bytes. -/
theorem read_records_count (fuel : Nat) (s : sp3) (epoch : datetime_ms) (sat : satellite)
    (state : satellite_state) (clock : satellite_clock) (sats : List satellite)
    (states : List satellite_state) (clocks : List satellite_clock) (r : epoch_result)
    (h : read_records fuel s epoch sat state clock sats states clocks = some r) :
    ∃ k, r.sats.length = sats.length + k ∧ r.states.length = states.length + k ∧
      r.clocks.length = clocks.length + k ∧ k ≤ s.unread := by
  induction fuel generalizing s sat state clock sats states clocks with
  | zero => simp [read_records] at h
  | succ k ih =>
    unfold read_records at h
    simp only [] at h
    obtain ⟨pd, pp⟩ := ifstream.peek_stream s.istream
    split at h
    · split at h
      · simp at h
      · rename_i r1 hr1
        split at h
        · simp only [Option.some.injEq] at h
          subst h
          exact ⟨0, rfl, rfl, rfl, Nat.zero_le _⟩
        · rename_i hz
          have hz : r1.status = 0 := by simpa using hz
          obtain ⟨q1, q2, q3⟩ := read_next_pos_n_clock_progress _ _ _ _ _ hr1 hz
          simp only at q1 q2 q3
          rw [pp] at q2
          rw [pp, pd] at q3
          obtain ⟨j, j1, j2, j3, j4⟩ := ih _ _ _ _ _ _ _ h
          refine ⟨j + 1, ?_, ?_, ?_, ?_⟩
          · rw [j1]; simp; omega
          · rw [j2]; simp; omega
          · rw [j3]; simp; omega
          · simp only [sp3.unread] at j4 ⊢
            rw [q1, pd] at j4
            omega
    · simp only [Option.some.injEq] at h
      subst h
      exact ⟨0, rfl, rfl, rfl, Nat.zero_le _⟩

theorem ifstream.eq_of_good (f : ifstream) (hg : f.good = true) :
    (⟨f.data, f.pos, false, false, false⟩ : ifstream) = f := by
  obtain ⟨he, hf, hb⟩ := f.good_bits hg
  obtain ⟨d, p, e, fl, bd⟩ := f
  simp only at he hf hb
  subst he hf hb
  rfl

/-- A line of two characters or more that starts neither a correlation nor a
velocity record ends the loop over the following records at once, with the
reader as it was. -/
theorem follow_records_stop (fuel : Nat) (s : sp3) (sat : satellite) (st : satellite_state)
    (clk : satellite_clock) (a b : Char) (t : List Char) (hg : s.istream.good = true)
    (hr : s.istream.rest = a :: b :: t) (ha : a ≠ '\n') (hb : b ≠ '\n')
    (hE : ¬ (a = 'E' ∧ (b = 'P' ∨ b = 'V'))) (hV : a ≠ 'V') :
    follow_records (fuel + 1) s sat st clk = some ⟨0, sat, st, clk, s⟩ := by
  obtain ⟨he, hf, hbd⟩ := s.istream.good_bits hg
  have ha2 : (a != '\n') = true := by simpa using ha
  have hb2 : (b != '\n') = true := by simpa using hb
  have hcs : s.istream.line_chars 3 = [a, b] := by
    simp [ifstream.line_chars, hr, List.takeWhile, ha2, hb2]
  have hget : s.istream.get 3 = (⟨s.istream.data, s.istream.pos + 2, false, false, false⟩,
      [a, b]) := by
    unfold ifstream.get
    simp [hg, ifstream.get_chars, hcs, hbd]
  have hu : (⟨s.istream.data, s.istream.pos + 2, false, false, false⟩ : ifstream).unget.unget
      = s.istream := by
    rw [ifstream.unget_unget_two s.istream
      ⟨s.istream.data, s.istream.pos + 2, false, false, false⟩ rfl rfl rfl rfl]
    exact ifstream.eq_of_good s.istream hg
  unfold follow_records
  simp only [hget, hu, ifstream.fail, Bool.or_self, Bool.false_eq_true, if_false, byte_at,
    List.getD_cons_zero, List.getD_cons_succ]
  have h1 : ¬ ((a == 'E' && (b == 'P' || b == 'V')) = true) := by
    simpa using hE
  have h2 : ¬ ((a == 'V') = true) := by
    simpa using hV
  rw [if_neg h1, if_neg h2]

/-! ## The header reader: the interval field -/


theorem trunc_intCast (n : Int) : trunc (n : ℚ) = n := by
  unfold trunc
  split <;> simp

theorem ilog2_loop_spec : ∀ (fuel n : Nat), n ≤ fuel → n ≠ 0 →
    2 ^ ilog2_loop fuel n ≤ n ∧ n < 2 ^ (ilog2_loop fuel n + 1) := by
  intro fuel
  induction fuel with
  | zero => intro n h h0; omega
  | succ f ih =>
    intro n h h0
    unfold ilog2_loop
    split
    · rename_i h2
      obtain ⟨a, b⟩ := ih (n / 2) (by omega) (by omega)
      rw [pow_succ, pow_succ]
      rw [pow_succ] at b
      constructor <;> omega
    · simp
      omega

theorem ilog2_spec (n : Nat) (h : n ≠ 0) : 2 ^ ilog2 n ≤ n ∧ n < 2 ^ (ilog2 n + 1) :=
  ilog2_loop_spec n n (le_refl n) h

theorem round_half_even_intCast (k : Int) : round_half_even (k : ℚ) = k := by
  unfold round_half_even
  simp

theorem binade_natCast (m : Nat) (hm : m ≠ 0) : binade (m : ℚ) = (ilog2 m : Int) := by
  unfold binade
  have h1 : ((m : ℚ)).num.natAbs = m := by simp
  have h2 : ((m : ℚ)).den = 1 := by simp
  have h3 : ilog2 1 = 0 := by decide
  rw [h1, h2, h3]
  simp only [Nat.cast_zero, sub_zero, zpow_natCast]
  rw [if_pos]
  have := (ilog2_spec m hm).1
  exact_mod_cast this

/-- Rounding to a `double` leaves an integer of magnitude `2^53` at most as
it is. -/
theorem to_double_intCast (n : Int) (h : |n| ≤ 2 ^ 53) : to_double (n : ℚ) = n := by
  by_cases h0 : n = 0
  · subst h0
    simp [to_double, round_binary]
  have hm : n.natAbs ≠ 0 := by simpa using h0
  have habs : |(n : ℚ)| = ((n.natAbs : Nat) : ℚ) := by
    rw [← Int.cast_abs, Int.abs_eq_natAbs]
    rfl
  have hle : n.natAbs ≤ 2 ^ 53 := by
    have : (n.natAbs : Int) ≤ 2 ^ 53 := by rw [← Int.abs_eq_natAbs]; exact h
    exact_mod_cast this
  have hsp := ilog2_spec n.natAbs hm
  have hL : ilog2 n.natAbs ≤ 53 := by
    by_contra hc
    have : 2 ^ 54 ≤ 2 ^ ilog2 n.natAbs := Nat.pow_le_pow_right (by decide) (by omega)
    omega
  have hn0 : (n : ℚ) ≠ 0 := by exact_mod_cast h0
  unfold to_double round_binary
  rw [if_neg hn0, habs, binade_natCast _ hm]
  have hmax : max ((ilog2 n.natAbs : Nat) : Int) (-1022) = (ilog2 n.natAbs : Int) := by
    omega
  rw [hmax]
  rcases Nat.lt_or_eq_of_le hL with hlt | heq
  · obtain ⟨j, hj⟩ : ∃ j : Nat, (ilog2 n.natAbs : Int) - (((53 : Nat) : Int) - 1) = -(j : Int) :=
      ⟨52 - ilog2 n.natAbs, by omega⟩
    rw [hj, zpow_neg, zpow_natCast, div_inv_eq_mul]
    have : (n : ℚ) * 2 ^ j = ((n * 2 ^ j : Int) : ℚ) := by push_cast; rfl
    rw [this, round_half_even_intCast]
    push_cast
    field_simp
  · have hge : 2 ^ 53 ≤ n.natAbs := by
      have := hsp.1
      rw [heq] at this
      exact this
    have hnat : n.natAbs = 2 ^ 53 := le_antisymm hle hge
    rw [heq]
    rcases Int.natAbs_eq n with hn | hn
    · rw [hn, hnat]
      decide!
    · rw [hn, hnat]
      decide!

/-- The product of a whole number of seconds of magnitude `2^53` at most and
1000 is computed without a wrap. -/
theorem to_long_seconds (n : Int) (h : |n| ≤ 2 ^ 53) :
    to_long (long_of_double n * 1000) = n * 1000 := by
  have h1 := abs_le.mp h
  unfold long_of_double to_long LONG_MIN LONG_MAX
  rw [if_pos (by constructor <;> omega)]
  omega

/-- What an accepted header stores as its interval: the integral part of the
interval, in milliseconds; and the fractional part of the interval is `1e-8`
at most, as a `double`. -/
theorem read_header_interval (s s1 : sp3) (line0 : List Char)
    (h : read_header s line0 = (.returned 0, s1)) :
    s1.interval = to_long (long_of_double (trunc (interval_double s line0)) * 1000) ∧
    ¬ |frac (interval_double s line0)| > to_double (1 / 100000000) := by
  unfold interval_double interval_field header_line2 header_line1 frac
  unfold read_header at h
  simp only [] at h
  repeat' split at h
  all_goals try solve | simp at h
  all_goals
    (rename_i hfrac _
     obtain ⟨_, _, h3, _⟩ := read_header_sats_ok _ _ _ _ _ _ h
     rw [h3]
     exact ⟨rfl, by simpa using hfrac⟩)

/-- A header whose interval has a fractional part above `1e-8`, as a
`double`, makes `read_header` return 1 or throw. -/
theorem read_header_fractional (s : sp3) (line0 : List Char)
    (hf : |frac (interval_double s line0)| > to_double (1 / 100000000)) :
    (read_header s line0).1 = .returned 1 ∨ (read_header s line0).1 = .thrown := by
  unfold interval_double interval_field header_line2 header_line1 frac at hf
  unfold read_header
  simp only []
  split
  · exact Or.inl rfl
  · split
    · exact Or.inr rfl
    · split
      · exact Or.inl rfl
      · split
        · exact Or.inl rfl
        · split
          · exact Or.inr rfl
          · rename_i hn
            exact absurd (by simpa using hf) hn

/-! ## The header reader: the markers of an accepted header -/


theorem split_lines_ne_nil (r : List Char) : split_lines r ≠ [] := by
  cases r with
  | nil => simp [split_lines]
  | cons c r =>
    unfold split_lines
    split
    · simp
    · split <;> simp

theorem split_lines_cons_ne (c : Char) (r : List Char) (hc : c ≠ '\n') :
    split_lines (c :: r) = (c :: (split_lines r).headD []) :: (split_lines r).tail := by
  have hne := split_lines_ne_nil r
  rw [split_lines, if_neg hc]
  cases h : split_lines r with
  | nil => exact absurd h hne
  | cons l ls => rfl

/-- The lines of a newline-free line, a newline and a text: the line, then
the lines of the text. -/
theorem split_lines_append (l r : List Char) (hl : ∀ c ∈ l, c ≠ '\n') :
    split_lines (l ++ '\n' :: r) = l :: split_lines r := by
  induction l with
  | nil => simp [split_lines]
  | cons c t ih =>
    have hc : c ≠ '\n' := hl c (List.mem_cons_self _ _)
    have ht : ∀ x ∈ t, x ≠ '\n' := fun x hx => hl x (List.mem_cons_of_mem _ hx)
    rw [List.cons_append, split_lines_cons_ne _ _ hc, ih ht]
    rfl

/-- The lines of a newline-free text: the text itself. -/
theorem split_lines_single (l : List Char) (hl : ∀ c ∈ l, c ≠ '\n') : split_lines l = [l] := by
  induction l with
  | nil => rfl
  | cons c t ih =>
    have hc : c ≠ '\n' := hl c (List.mem_cons_self _ _)
    have ht : ∀ x ∈ t, x ≠ '\n' := fun x hx => hl x (List.mem_cons_of_mem _ hx)
    rw [split_lines_cons_ne _ _ hc, ih ht]
    rfl

theorem takeWhile_no_newline (r : List Char) :
    ∀ c ∈ r.takeWhile (fun c => c != '\n'), c ≠ '\n' := by
  intro c hc
  have := List.mem_takeWhile_imp hc
  simpa using this

/-- A text is its first line followed by what `dropWhile` leaves. -/
theorem takeWhile_append_dropWhile_nl (r : List Char) :
    r.takeWhile (fun c => c != '\n') ++ r.dropWhile (fun c => c != '\n') = r :=
  List.takeWhile_append_dropWhile _ r

theorem dropWhile_nl_head (r : List Char) (c : Char) (t : List Char)
    (h : r.dropWhile (fun c => c != '\n') = c :: t) : c = '\n' := by
  have := List.head_dropWhile_not (fun c => c != '\n') r (by rw [h]; simp)
  simp only [h, List.head_cons] at this
  simpa using this

/-- When nothing is left behind the characters of a line, they are all of
the text, and the text has no newline. -/
theorem line_chars_all (r : List Char) (k : Nat)
    (h : r.drop ((r.takeWhile (fun c => c != '\n')).take k).length = []) :
    (r.takeWhile (fun c => c != '\n')).take k = r ∧ ∀ c ∈ r, c ≠ '\n' := by
  have hsplit := takeWhile_append_dropWhile_nl r
  have hlen : r.length ≤ ((r.takeWhile (fun c => c != '\n')).take k).length :=
    List.drop_eq_nil_iff.mp h
  have h1 : ((r.takeWhile (fun c => c != '\n')).take k).length
      ≤ (r.takeWhile (fun c => c != '\n')).length := by
    rw [List.length_take]
    exact Nat.min_le_right _ _
  have h2 : (r.takeWhile (fun c => c != '\n')).length ≤ r.length := by
    conv_rhs => rw [← hsplit]
    rw [List.length_append]
    exact Nat.le_add_right _ _
  have h3 : (r.dropWhile (fun c => c != '\n')).length = 0 := by
    have : (r.takeWhile (fun c => c != '\n')).length
        + (r.dropWhile (fun c => c != '\n')).length = r.length := by
      rw [← List.length_append, hsplit]
    omega
  have h4 : r.dropWhile (fun c => c != '\n') = [] := List.length_eq_zero.mp h3
  have h5 : r.takeWhile (fun c => c != '\n') = r := by
    rw [h4, List.append_nil] at hsplit
    exact hsplit
  have h6 : (r.takeWhile (fun c => c != '\n')).length ≤ k := by
    rw [List.length_take] at hlen h1
    omega
  refine ⟨by rw [List.take_of_length_le h6, h5], ?_⟩
  intro c hc
  rw [← h5] at hc
  exact takeWhile_no_newline r c hc

/-- When a newline stands behind the characters of a line, they are the whole
first line of the text. -/
theorem line_chars_newline (r t : List Char) (k : Nat)
    (h : r.drop ((r.takeWhile (fun c => c != '\n')).take k).length = '\n' :: t) :
    (r.takeWhile (fun c => c != '\n')).take k = r.takeWhile (fun c => c != '\n') ∧
    r = r.takeWhile (fun c => c != '\n') ++ '\n' :: t := by
  have hsplit := takeWhile_append_dropWhile_nl r
  have h1 : ((r.takeWhile (fun c => c != '\n')).take k).length
      ≤ (r.takeWhile (fun c => c != '\n')).length := by
    rw [List.length_take]
    exact Nat.min_le_right _ _
  have h2 : ¬ ((r.takeWhile (fun c => c != '\n')).take k).length
      < (r.takeWhile (fun c => c != '\n')).length := by
    intro hlt
    have hd := @List.drop_append_of_le_length _ (r.takeWhile (fun c => c != '\n'))
      (r.dropWhile (fun c => c != '\n')) _ (Nat.le_of_lt hlt)
    rw [hsplit] at hd
    rw [List.drop_eq_getElem_cons hlt] at hd
    rw [hd] at h
    simp only [List.cons_append, List.cons.injEq] at h
    have hm := takeWhile_no_newline r _ (List.getElem_mem hlt)
    exact hm h.1
  have h3 : ((r.takeWhile (fun c => c != '\n')).take k).length
      = (r.takeWhile (fun c => c != '\n')).length := by omega
  have h4 : (r.takeWhile (fun c => c != '\n')).length ≤ k := by
    rw [List.length_take] at h3
    omega
  have h5 := List.take_of_length_le h4
  refine ⟨h5, ?_⟩
  rw [h5] at h
  have hd := List.drop_left (r.takeWhile (fun c => c != '\n'))
    (r.dropWhile (fun c => c != '\n'))
  rw [hsplit] at hd
  rw [hd] at h
  conv_lhs => rw [← hsplit]
  rw [h]

theorem ifstream.rest_after (f : ifstream) (k : Nat) (t : List Char) (c : Char)
    (h : f.rest.drop k = c :: t) :
    (⟨f.data, f.pos + k + 1, f.eofbit, f.failbit, f.badbit⟩ : ifstream).rest = t := by
  simp only [ifstream.rest] at h ⊢
  rw [List.drop_drop] at h
  have e : f.data.drop (f.pos + k + 1) = (f.data.drop (f.pos + k)).drop 1 := by
    rw [List.drop_drop]
  rw [e, h]
  rfl

/-- A `getline` that does not fail stores the first of the lines the stream
could still deliver, and leaves the others to be delivered. -/
theorem ifstream.getline_lines (f : ifstream) (buf : List Char) (n : Nat)
    (h : (f.getline buf n).1.fail = false) :
    ∃ l, f.lines_left = l :: (f.getline buf n).1.lines_left ∧
      (f.getline buf n).2 = store_line buf l := by
  obtain ⟨hg, _⟩ := ifstream.getline_progress f buf n h
  obtain ⟨he, hf, hb⟩ := f.good_bits hg
  cases hd : f.rest.drop (f.line_chars n).length with
  | nil =>
    have e : f.getline buf n =
        ({ f with
            pos := f.pos + (f.line_chars n).length, eofbit := true,
            failbit := (f.line_chars n).isEmpty }, store_line buf (f.line_chars n)) := by
      unfold ifstream.getline
      simp only [hg, Bool.not_true, Bool.false_eq_true, if_false, hd]
    obtain ⟨hall, hnl⟩ := line_chars_all f.rest (n - 1) hd
    have hcs : f.line_chars n = f.rest := hall
    refine ⟨f.rest, ?_, by rw [e, hcs]⟩
    rw [e]
    simp [ifstream.lines_left, hg, ifstream.good, split_lines_single _ hnl, he, hf, hb]
  | cons c t =>
    by_cases hc : (c == '\n') = true
    · have hc2 : c = '\n' := by simpa using hc
      subst hc2
      have e : f.getline buf n = ({ f with pos := f.pos + (f.line_chars n).length + 1 },
          store_line buf (f.line_chars n)) := by
        unfold ifstream.getline
        simp only [hg, Bool.not_true, Bool.false_eq_true, if_false, hd, hc, if_true]
      obtain ⟨htw, hr⟩ := line_chars_newline f.rest t (n - 1) hd
      have hcs : f.line_chars n = f.rest.takeWhile (fun c => c != '\n') := htw
      refine ⟨f.line_chars n, ?_, by rw [e]⟩
      have hrest := ifstream.rest_after f _ t '\n' hd
      rw [e]
      have hg2 : (⟨f.data, f.pos + (f.line_chars n).length + 1, f.eofbit, f.failbit,
          f.badbit⟩ : ifstream).good = true := hg
      simp only [ifstream.lines_left, hg, hg2, if_true, hrest]
      conv_lhs => rw [hr]
      rw [split_lines_append _ _ (takeWhile_no_newline _), hcs]
    · exfalso
      unfold ifstream.getline at h
      simp only [hg, Bool.not_true, Bool.false_eq_true, if_false, hd, hc] at h
      simp [ifstream.fail] at h

theorem strncmp_eq_two (buf l : List Char) (a b : Char) (ha : a ≠ NUL) (hb : b ≠ NUL) :
    strncmp_eq (store_line buf l) [a, b] 2 = starts_with a b l := by
  have ha2 : (a == NUL) = false := by simpa using ha
  match l with
  | [] =>
    have : ¬ NUL = a := fun h => ha h.symm
    simp [strncmp_eq, store_line, starts_with, this]
  | [x] =>
    by_cases hx : x = a
    · subst hx
      have : ¬ NUL = b := fun h => hb h.symm
      simp [strncmp_eq, store_line, starts_with, ha2, this]
    · simp [strncmp_eq, store_line, starts_with, hx]
  | x :: y :: t =>
    by_cases hx : x = a
    · subst hx
      by_cases hy : y = b
      · subst hy
        simp [strncmp_eq, store_line, starts_with, ha2]
      · simp [strncmp_eq, store_line, starts_with, ha2, hy]
    · simp [strncmp_eq, store_line, starts_with, hx]

theorem read_sat_lines_lines (n fuel : Nat) (f : ifstream) (b l : List Char)
    (v : List satellite) (sl : line_loop satellite)
    (h : read_sat_lines n fuel f (store_line b l) v = some sl) (hf : sl.failed = false) :
    ∃ b1 l1, sl.line = store_line b1 l1 ∧
      (l :: f.lines_left).dropWhile (starts_with '+' ' ') = l1 :: sl.stream.lines_left := by
  induction fuel generalizing f b l v with
  | zero => simp [read_sat_lines] at h
  | succ k ih =>
    unfold read_sat_lines at h
    rw [strncmp_eq_two _ _ _ _ (by decide) (by decide)] at h
    simp only [] at h
    split at h
    · rename_i hp
      split at h
      · simp only [Option.some.injEq] at h
        subst h
        simp at hf
      · rename_i hg
        have hg2 : (f.getline (store_line b l) MAX_HEADER_CHARS).1.fail = false := by
          simpa using hg
        obtain ⟨l2, hl2, hb2⟩ := ifstream.getline_lines _ _ _ hg2
        rw [hb2] at h
        obtain ⟨b1, l1, e1, e2⟩ := ih _ _ _ _ h
        refine ⟨b1, l1, e1, ?_⟩
        rw [List.dropWhile_cons_of_pos hp, hl2]
        exact e2
    · rename_i hp
      simp only [Option.some.injEq] at h
      subst h
      refine ⟨b, l, rfl, ?_⟩
      rw [List.dropWhile_cons_of_neg hp]

theorem read_acc_lines_lines (n fuel : Nat) (f : ifstream) (b l : List Char)
    (v : List Int) (al : line_loop Int)
    (h : read_acc_lines n fuel f (store_line b l) v = some al) (hf : al.failed = false) :
    ∃ b1 l1, al.line = store_line b1 l1 ∧
      (l :: f.lines_left).dropWhile (starts_with '+' '+') = l1 :: al.stream.lines_left := by
  induction fuel generalizing f b l v with
  | zero => simp [read_acc_lines] at h
  | succ k ih =>
    unfold read_acc_lines at h
    rw [strncmp_eq_two _ _ _ _ (by decide) (by decide)] at h
    simp only [] at h
    split at h
    · rename_i hp
      split at h
      · simp only [Option.some.injEq] at h
        subst h
        simp at hf
      · rename_i hg
        have hg2 : (f.getline (store_line b l) MAX_HEADER_CHARS).1.fail = false := by
          simpa using hg
        obtain ⟨l2, hl2, hb2⟩ := ifstream.getline_lines _ _ _ hg2
        rw [hb2] at h
        obtain ⟨b1, l1, e1, e2⟩ := ih _ _ _ _ h
        refine ⟨b1, l1, e1, ?_⟩
        rw [List.dropWhile_cons_of_pos hp, hl2]
        exact e2
    · rename_i hp
      simp only [Option.some.injEq] at h
      subst h
      refine ⟨b, l, rfl, ?_⟩
      rw [List.dropWhile_cons_of_neg hp]

/-- What `peek` tells about the lines left: a slash is the first byte of the
first of them; anything else means that the first line does not start with a
slash. -/
theorem ifstream.peek_slash (f : ifstream) :
    (f.peek.2 = some '/' → f.peek.1 = f ∧
      ∀ l ls, f.lines_left = l :: ls → starts_slash l = true) ∧
    (f.peek.2 ≠ some '/' → f.lines_left.takeWhile starts_slash = []) := by
  by_cases hg : f.good = true
  · cases hr : f.rest with
    | nil =>
      have e : f.peek = ({ f with eofbit := true }, none) := by
        unfold ifstream.peek
        simp [hg, hr]
      rw [e]
      refine ⟨fun h => by simp at h, fun _ => ?_⟩
      simp [ifstream.lines_left, hg, hr, split_lines, starts_slash]
    | cons c t =>
      have e : f.peek = (f, some c) := by
        unfold ifstream.peek
        simp [hg, hr]
      rw [e]
      constructor
      · intro h
        simp only [Option.some.injEq] at h
        subst h
        refine ⟨rfl, fun l ls hl => ?_⟩
        simp only [ifstream.lines_left, hg, if_true, hr] at hl
        rw [split_lines_cons_ne _ _ (by decide)] at hl
        simp only [List.cons.injEq] at hl
        rw [← hl.1]
        rfl
      · intro h
        have hc : c ≠ '/' := fun hc => h (by rw [hc])
        simp only [ifstream.lines_left, hg, if_true, hr]
        by_cases hn : c = '\n'
        · subst hn
          simp [split_lines, starts_slash]
        · rw [split_lines_cons_ne _ _ hn]
          simp [starts_slash, hc]
  · have e : f.peek = ({ f with failbit := true }, none) := by
      unfold ifstream.peek
      simp [hg]
    rw [e]
    refine ⟨fun h => by simp at h, fun _ => ?_⟩
    simp [ifstream.lines_left, hg]

theorem read_comment_lines_lines (fuel : Nat) (f : ifstream) (line : List Char)
    (cl : line_loop Unit) (h : read_comment_lines fuel f line = some cl)
    (hf : cl.failed = false) :
    (f.lines_left.takeWhile starts_slash).all (starts_with '/' '*') = true := by
  induction fuel generalizing f line with
  | zero => simp [read_comment_lines] at h
  | succ k ih =>
    unfold read_comment_lines at h
    simp only [] at h
    obtain ⟨p1, p2⟩ := ifstream.peek_slash f
    split at h
    · rename_i hp
      obtain ⟨hpf, hsl⟩ := p1 hp
      rw [hpf] at h
      split at h
      · simp only [Option.some.injEq] at h
        subst h
        simp at hf
      · rename_i hc
        simp only [Bool.or_eq_true, not_or, Bool.not_eq_true, Bool.not_eq_false'] at hc
        obtain ⟨hnf, hm⟩ := hc
        obtain ⟨l, hl, hb⟩ := ifstream.getline_lines _ _ _ hnf
        rw [hb, strncmp_eq_two _ _ _ _ (by decide) (by decide)] at hm
        have hs := hsl l _ hl
        rw [hl, List.takeWhile_cons_of_pos hs, List.all_cons, hm, Bool.true_and]
        exact ih _ _ h
    · rename_i hp
      rw [p2 hp]
      rfl

theorem read_header_tail_markers (s s1 : sp3) (pe e3 : Int) (f : ifstream) (b l : List Char)
    (h : read_header_tail s pe e3 f (store_line b l) = (.returned 0, s1)) :
    starts_with '%' 'c' l = true ∧
    starts_with '%' 'c' (f.lines_left.headD []) = true ∧
    starts_with '%' 'f' ((f.lines_left.drop 1).headD []) = true ∧
    starts_with '%' 'f' ((f.lines_left.drop 2).headD []) = true ∧
    starts_with '%' 'i' ((f.lines_left.drop 3).headD []) = true ∧
    starts_with '%' 'i' ((f.lines_left.drop 4).headD []) = true ∧
    ((f.lines_left.drop 5).takeWhile starts_slash).all (starts_with '/' '*') = true := by
  unfold read_header_tail at h
  rw [strncmp_eq_two _ _ _ _ (by decide) (by decide)] at h
  simp only [] at h
  split at h
  · simp at h
  · rename_i h0
    split at h
    · simp at h
    · split at h
      · simp at h
      · rename_i c1
        simp only [Bool.or_eq_true, not_or, Bool.not_eq_true, Bool.not_eq_false'] at c1
        obtain ⟨n1, m1⟩ := c1
        obtain ⟨l1, hl1, hb1⟩ := ifstream.getline_lines _ _ _ n1
        rw [hb1, strncmp_eq_two _ _ _ _ (by decide) (by decide)] at m1
        rw [hb1] at h
        split at h
        · simp at h
        · rename_i c2
          simp only [Bool.or_eq_true, not_or, Bool.not_eq_true, Bool.not_eq_false'] at c2
          obtain ⟨n2, m2⟩ := c2
          obtain ⟨l2, hl2, hb2⟩ := ifstream.getline_lines _ _ _ n2
          rw [hb2, strncmp_eq_two _ _ _ _ (by decide) (by decide)] at m2
          rw [hb2] at h
          split at h
          · simp at h
          · split at h
            · simp at h
            · rename_i c3
              simp only [Bool.or_eq_true, not_or, Bool.not_eq_true, Bool.not_eq_false'] at c3
              obtain ⟨n3, m3⟩ := c3
              obtain ⟨l3, hl3, hb3⟩ := ifstream.getline_lines _ _ _ n3
              rw [hb3, strncmp_eq_two _ _ _ _ (by decide) (by decide)] at m3
              rw [hb3] at h
              split at h
              · simp at h
              · rename_i c4
                simp only [Bool.or_eq_true, not_or, Bool.not_eq_true, Bool.not_eq_false'] at c4
                obtain ⟨n4, m4⟩ := c4
                obtain ⟨l4, hl4, hb4⟩ := ifstream.getline_lines _ _ _ n4
                rw [hb4, strncmp_eq_two _ _ _ _ (by decide) (by decide)] at m4
                rw [hb4] at h
                split at h
                · simp at h
                · rename_i c5
                  simp only [Bool.or_eq_true, not_or, Bool.not_eq_true,
                    Bool.not_eq_false'] at c5
                  obtain ⟨n5, m5⟩ := c5
                  obtain ⟨l5, hl5, hb5⟩ := ifstream.getline_lines _ _ _ n5
                  rw [hb5, strncmp_eq_two _ _ _ _ (by decide) (by decide)] at m5
                  rw [hb5] at h
                  split at h
                  · simp at h
                  · rename_i cl hcl
                    split at h
                    · simp at h
                    · rename_i hfl
                      have hfl2 : cl.failed = false := by simpa using hfl
                      have hc := read_comment_lines_lines _ _ _ _ hcl hfl2
                      have h0' : starts_with '%' 'c' l = true := by simpa using h0
                      rw [hl1, hl2, hl3, hl4, hl5]
                      exact ⟨h0', m1, m2, m3, m4, m5, hc⟩

theorem read_header_sats_markers (s s1 : sp3) (pe e2 : Int) (f : ifstream) (line : List Char)
    (h : read_header_sats s pe e2 f line = (.returned 0, s1)) :
    body_markers_ok f.lines_left = true := by
  unfold read_header_sats at h
  simp only [] at h
  split at h
  · simp at h
  · rename_i c0
    simp only [Bool.or_eq_true, not_or, Bool.not_eq_true, Bool.not_eq_false'] at c0
    obtain ⟨n0, m0⟩ := c0
    obtain ⟨l0, hl0, hb0⟩ := ifstream.getline_lines _ _ _ n0
    rw [hb0, strncmp_eq_two _ _ _ _ (by decide) (by decide)] at m0
    rw [hb0] at h
    split at h
    · simp at h
    · split at h
      · simp at h
      · split at h
        · simp at h
        · rename_i sl hsl
          split at h
          · simp at h
          · rename_i hsf
            have hsf2 : sl.failed = false := by simpa using hsf
            obtain ⟨b1, l1, e1, d1⟩ := read_sat_lines_lines _ _ _ _ _ _ _ hsl hsf2
            rw [e1] at h
            rw [strncmp_eq_two _ _ _ _ (by decide) (by decide)] at h
            split at h
            · simp at h
            · rename_i m1
              have m1' : starts_with '+' '+' l1 = true := by simpa using m1
              split at h
              · simp at h
              · rename_i al hal
                split at h
                · simp at h
                · rename_i haf
                  have haf2 : al.failed = false := by simpa using haf
                  obtain ⟨b2, l2, e2', d2⟩ := read_acc_lines_lines _ _ _ _ _ _ _ hal haf2
                  rw [e2'] at h
                  obtain ⟨t0, t1, t2, t3, t4, t5, t6⟩ := read_header_tail_markers _ _ _ _ _ _ _ h
                  unfold body_markers_ok
                  simp only [hl0, d1, d2, List.headD_cons, m0, m1', t0, List.drop_succ_cons,
                    List.drop_zero, t1, t2, t3, t4, t5, t6, Bool.and_self]

theorem byte_at_one_store_line (line0 l : List Char) (h0 : byte_at line0 1 ≠ 'c')
    (h : byte_at (store_line line0 l) 1 = 'c') : l.getD 1 NUL = 'c' := by
  match l with
  | [] =>
    exfalso
    apply h0
    rw [← h]
    cases line0 with
    | nil => rfl
    | cons x t => cases t <;> rfl
  | [x] =>
    simp only [store_line, byte_at] at h
    simp [NUL] at h
  | x :: y :: t =>
    simp only [store_line, byte_at] at h
    simpa using h

theorem ifstream.seekg0_lines (f : ifstream) (hg : f.seekg0.good = true) :
    f.seekg0.lines_left = split_lines f.data := by
  have hr : f.seekg0.rest = f.data := by
    unfold ifstream.seekg0 at hg ⊢
    simp only [] at hg ⊢
    split
    · rename_i hb
      rw [if_pos hb] at hg
      simp [ifstream.good] at hg
    · simp [ifstream.rest]
  simp [ifstream.lines_left, hg, hr]

/-- A header that `read_header` accepts has every marker where the lines of
the file are to show it, provided the byte at index 1 of the uninitialised
line buffer is not a `c`. -/
theorem read_header_markers (s s1 : sp3) (line0 : List Char) (h0 : byte_at line0 1 ≠ 'c')
    (h : read_header s line0 = (.returned 0, s1)) :
    header_markers_ok (split_lines s.istream.data) = true := by
  unfold read_header at h
  simp only [] at h
  split at h
  · simp at h
  · rename_i c1
    simp only [Bool.or_eq_true, not_or, Bool.not_eq_true, bne_eq_false_iff_eq] at c1
    obtain ⟨n1, m1⟩ := c1
    obtain ⟨l1, hl1, hb1⟩ := ifstream.getline_lines _ _ _ n1
    obtain ⟨hg1, _⟩ := ifstream.getline_progress _ _ _ n1
    rw [ifstream.seekg0_lines _ hg1] at hl1
    rw [hb1] at m1
    have hc := byte_at_one_store_line line0 l1 h0 m1
    split at h
    · simp at h
    · split at h
      · simp at h
      · split at h
        · simp at h
        · rename_i n2
          have n2' : ((s.istream.seekg0.getline line0 MAX_HEADER_CHARS).1.getline
              (s.istream.seekg0.getline line0 MAX_HEADER_CHARS).2 MAX_HEADER_CHARS).1.fail
              = false := by simpa using n2
          obtain ⟨l2, hl2, hb2⟩ := ifstream.getline_lines _ _ _ n2'
          split at h
          · simp at h
          · split at h
            · simp at h
            · have hb := read_header_sats_markers _ _ _ _ _ _ h
              unfold header_markers_ok
              rw [hl1, hl2]
              simp only [List.headD_cons, hc, beq_self_eq_true, List.drop_succ_cons,
                List.drop_zero, hb, Bool.and_self]

/-! ## The header reader: termination and outcomes -/

theorem read_sat_lines_total (n fuel : Nat) (f : ifstream) (line : List Char)
    (v : List satellite) (h : f.data.length - f.pos < fuel) :
    ∃ r, read_sat_lines n fuel f line v = some r := by
  induction fuel generalizing f line v with
  | zero => exact absurd h (Nat.not_lt_zero _)
  | succ k ih =>
    unfold read_sat_lines
    simp only []
    split
    · split
      · exact ⟨_, rfl⟩
      · rename_i hf
        have hf2 : (f.getline line MAX_HEADER_CHARS).1.fail = false := by simpa using hf
        obtain ⟨_, hd, _, hp, hl⟩ := ifstream.getline_progress _ _ _ hf2
        apply ih
        rw [hd]
        omega
    · exact ⟨_, rfl⟩

theorem read_acc_lines_total (n fuel : Nat) (f : ifstream) (line : List Char)
    (v : List Int) (h : f.data.length - f.pos < fuel) :
    ∃ r, read_acc_lines n fuel f line v = some r := by
  induction fuel generalizing f line v with
  | zero => exact absurd h (Nat.not_lt_zero _)
  | succ k ih =>
    unfold read_acc_lines
    simp only []
    split
    · split
      · exact ⟨_, rfl⟩
      · rename_i hf
        have hf2 : (f.getline line MAX_HEADER_CHARS).1.fail = false := by simpa using hf
        obtain ⟨_, hd, _, hp, hl⟩ := ifstream.getline_progress _ _ _ hf2
        apply ih
        rw [hd]
        omega
    · exact ⟨_, rfl⟩

theorem read_comment_lines_total (fuel : Nat) (f : ifstream) (line : List Char)
    (h : f.data.length - f.pos < fuel) :
    ∃ r, read_comment_lines fuel f line = some r := by
  induction fuel generalizing f line with
  | zero => exact absurd h (Nat.not_lt_zero _)
  | succ k ih =>
    unfold read_comment_lines
    simp only []
    obtain ⟨pd, pp⟩ := ifstream.peek_stream f
    split
    · split
      · exact ⟨_, rfl⟩
      · rename_i hf
        simp only [Bool.or_eq_true, not_or, Bool.not_eq_true] at hf
        obtain ⟨_, hd, _, hp, hl⟩ := ifstream.getline_progress _ _ _ hf.1
        apply ih
        rw [hd, pd]
        rw [pp] at hp
        rw [pd, pp] at hl
        omega
    · exact ⟨_, rfl⟩

theorem read_sat_lines_ne_none (n : Nat) (f : ifstream) (line : List Char)
    (v : List satellite) : read_sat_lines n (f.data.length + 1) f line v ≠ none := by
  obtain ⟨r, hr⟩ := read_sat_lines_total n (f.data.length + 1) f line v (by omega)
  simp [hr]

theorem read_acc_lines_ne_none (n : Nat) (f : ifstream) (line : List Char)
    (v : List Int) : read_acc_lines n (f.data.length + 1) f line v ≠ none := by
  obtain ⟨r, hr⟩ := read_acc_lines_total n (f.data.length + 1) f line v (by omega)
  simp [hr]

theorem read_comment_lines_ne_none (f : ifstream) (line : List Char) :
    read_comment_lines (f.data.length + 1) f line ≠ none := by
  obtain ⟨r, hr⟩ := read_comment_lines_total (f.data.length + 1) f line (by omega)
  simp [hr]

/-- How the rest of the header, from the first `"%c"` line on, can end: with
the status 0 or 1, or with an exception. -/
theorem read_header_tail_outcome (s : sp3) (pe e3 : Int) (f : ifstream) (line : List Char) :
    (read_header_tail s pe e3 f line).1 = .returned 0 ∨
    (read_header_tail s pe e3 f line).1 = .returned 1 ∨
    (read_header_tail s pe e3 f line).1 = .thrown := by
  unfold read_header_tail
  simp only []
  repeat' split
  all_goals first
    | (left; rfl)
    | (right; left; rfl)
    | (right; right; rfl)
    | skip
  rename_i hn
  exact absurd hn (read_comment_lines_ne_none _ _)

/-- How the header from line 3 on can end: with the status 0 or 1, with an
exception or with a failed `assert`. -/
theorem read_header_sats_outcome (s : sp3) (pe e2 : Int) (f : ifstream) (line : List Char) :
    (read_header_sats s pe e2 f line).1 = .returned 0 ∨
    (read_header_sats s pe e2 f line).1 = .returned 1 ∨
    (read_header_sats s pe e2 f line).1 = .thrown ∨
    (read_header_sats s pe e2 f line).1 = .assert_failed := by
  unfold read_header_sats
  simp only []
  repeat' split
  all_goals first
    | (right; left; rfl)
    | (right; right; right; rfl)
    | skip
  · rename_i hn
    exact absurd hn (read_sat_lines_ne_none _ _ _ _)
  · rename_i hn
    exact absurd hn (read_acc_lines_ne_none _ _ _ _)
  · rcases read_header_tail_outcome _ pe _ _ _ with h | h | h
    · left; exact h
    · right; left; exact h
    · right; right; left; exact h

/-- How a call of `read_header` can end: with the status 0 or 1, with an
exception or with a failed `assert`; its loops over lines always end. -/
theorem read_header_outcome (s : sp3) (line0 : List Char) :
    (read_header s line0).1 = .returned 0 ∨ (read_header s line0).1 = .returned 1 ∨
    (read_header s line0).1 = .thrown ∨ (read_header s line0).1 = .assert_failed := by
  unfold read_header
  simp only []
  repeat' split
  all_goals first
    | (right; left; rfl)
    | (right; right; left; rfl)
    | skip
  exact read_header_sats_outcome _ _ _ _ _

/-! ## The record readers: a correlation record between the records -/

theorem ifstream.drop_front_zero (f : ifstream) : f.drop_front 0 = f := by
  simp [ifstream.drop_front]

theorem ifstream.drop_front_drop_front (f : ifstream) (k : Nat) :
    (f.drop_front k).drop_front 0 = f.drop_front k := ifstream.drop_front_zero _

theorem sp3.window_window (s : sp3) (k : Nat) (c : List Char) :
    (s.window k c).window 0 [] = s.window k [] := by
  simp [sp3.window, ifstream.drop_front]

theorem takeWhile_line (l t : List Char) (hn : '\n' ∉ l) :
    (l ++ '\n' :: t).takeWhile (fun c => c != '\n') = l := by
  induction l with
  | nil => simp [List.takeWhile]
  | cons a r ih =>
    have ha : (a != '\n') = true := by
      simp only [List.mem_cons, not_or] at hn
      simpa using fun h => hn.1 h.symm
    have hr : '\n' ∉ r := fun h => hn (List.mem_cons_of_mem _ h)
    simp [List.takeWhile, ha, ih hr]

/-- A `getline` on a good stream in front of a line that fits the buffer and
ends with a newline: the line is stored and the stream is behind the
newline. -/
theorem ifstream.getline_line (f : ifstream) (buf l t : List Char) (n : Nat)
    (hg : f.good = true) (hr : f.rest = l ++ '\n' :: t) (hn : '\n' ∉ l) (hl : l.length < n) :
    f.getline buf n = ({ f with pos := f.pos + l.length + 1 }, store_line buf l) := by
  have hcs : f.line_chars n = l := by
    simp only [ifstream.line_chars, hr, takeWhile_line l t hn]
    exact List.take_of_length_le (by omega)
  have hd : f.rest.drop l.length = '\n' :: t := by
    rw [hr]
    exact List.drop_left _ _
  unfold ifstream.getline
  simp [hg, hcs, hd]

/-- An empty line 1 leaves the byte at index 1 of the line buffer as it was:
with a buffer that holds the bytes of an earlier line 1, `read_header`
accepts the sample header whose line 1 is empty; with a zeroed buffer it
returns 1. -/
theorem read_header_stale_line :
    header_markers_ok (split_lines sample_empty_first_line_header) = false ∧
    byte_at sample_stale_line 1 = 'c' ∧
    (read_header (sp3.initial sample_empty_first_line_header 0) sample_stale_line).1
      = .returned 0 ∧
    (read_header (sp3.initial sample_empty_first_line_header 0) zero_line).1
      = .returned 1 := by
  decide!

/-! ## The record readers: `no_velocity`, field spans and the by-value satellites -/

theorem pos_flag_of_no_velocity (line : List Char) : (pos_flag_of line).no_velocity = true := by
  unfold pos_flag_of
  simp only [state_flag.set_if]
  repeat' split
  all_goals simp [state_flag.set, state_flag.empty]

theorem clk_flag_of_no_velocity (line : List Char) : (clk_flag_of line).no_velocity = true := by
  unfold clk_flag_of
  simp only [clock_flag.set_if]
  repeat' split
  all_goals simp [clock_flag.set, clock_flag.empty]

/-- No path of `read_next_vel` clears `no_velocity`, in the state or in the
clock. -/
theorem read_next_vel_no_velocity (s : sp3) (sat : satellite) (st : satellite_state)
    (clk : satellite_clock) :
    (st.flag.no_velocity = true →
      (read_next_vel s sat st clk).2.1.flag.no_velocity = true) ∧
    (clk.flag.no_velocity = true →
      (read_next_vel s sat st clk).2.2.1.flag.no_velocity = true) := by
  unfold read_next_vel
  simp only []
  repeat' split
  all_goals
    refine ⟨fun h => ?_, fun h => ?_⟩
  all_goals simp [state_flag.set, clock_flag.set, h]

/-- The loop over the following records keeps `no_velocity` in the state and
in the clock. -/
theorem follow_records_no_velocity (fuel : Nat) (s : sp3) (sat : satellite)
    (st : satellite_state) (clk : satellite_clock) (r : record_result)
    (h : follow_records fuel s sat st clk = some r)
    (h1 : st.flag.no_velocity = true) (h2 : clk.flag.no_velocity = true) :
    r.state.flag.no_velocity = true ∧ r.clock.flag.no_velocity = true := by
  induction fuel generalizing s st clk with
  | zero => simp [follow_records] at h
  | succ k ih =>
    unfold follow_records at h
    simp only [] at h
    have hv := fun s1 => read_next_vel_no_velocity s1 sat st clk
    split at h
    · simp only [Option.some.injEq] at h
      subst h
      exact ⟨h1, h2⟩
    · split at h
      · split at h
        · simp only [Option.some.injEq] at h
          subst h
          exact ⟨h1, h2⟩
        · exact ih _ _ _ h h1 h2
      · split at h
        · split at h
          · simp only [Option.some.injEq] at h
            subst h
            exact ⟨(hv _).1 h1, (hv _).2 h2⟩
          · exact ih _ _ _ h ((hv _).1 h1) ((hv _).2 h2)
        · simp only [Option.some.injEq] at h
          subst h
          exact ⟨h1, h2⟩

/-- The four coordinate and clock fields of a record line are converted from
their own 14 bytes only. -/
theorem pos_fields_span (l1 l2 : List Char) :
    (bytes_at l1 4 14 = bytes_at l2 4 14 → field_x l1 = field_x l2) ∧
    (bytes_at l1 18 14 = bytes_at l2 18 14 → field_y l1 = field_y l2) ∧
    (bytes_at l1 32 14 = bytes_at l2 32 14 → field_z l1 = field_z l2) ∧
    (bytes_at l1 46 14 = bytes_at l2 46 14 → field_c l1 = field_c l2) := by
  refine ⟨fun h => ?_, fun h => ?_, fun h => ?_, fun h => ?_⟩
  all_goals simp only [field_x, field_y, field_z, field_c, h]

/-- The number of entries `get_next_epoch` appends is the same for the
function's copy of the satellites, the states and the clocks. -/
theorem get_next_epoch_counts (s : sp3) (epoch : datetime_ms) (sats : List satellite)
    (states : List satellite_state) (clocks : List satellite_clock) (r : epoch_result)
    (h : get_next_epoch s epoch sats states clocks = some r) :
    ∃ k, r.sats.length = sats.length + k ∧ r.states.length = states.length + k ∧
      r.clocks.length = clocks.length + k := by
  unfold get_next_epoch at h
  simp only [] at h
  split at h
  · simp only [Option.some.injEq] at h
    subst h
    exact ⟨0, rfl, rfl, rfl⟩
  · split at h
    · simp only [Option.some.injEq] at h
      subst h
      exact ⟨0, rfl, rfl, rfl⟩
    · obtain ⟨k, k1, k2, k3, _⟩ := read_records_count _ _ _ _ _ _ _ _ _ _ h
      exact ⟨k, k1, k2, k3⟩

/-! ## C library: conversions stop at the terminator -/

theorem dropWhile_append_stop (p : Char → Bool) (x t : List Char) (c : Char)
    (hc : p c = false) : (x ++ c :: t).dropWhile p = x.dropWhile p ++ c :: t := by
  induction x with
  | nil => simp [List.dropWhile, hc]
  | cons a r ih =>
    by_cases ha : p a = true
    · simp [List.dropWhile, ha, ih]
    · simp [List.dropWhile, ha]

theorem takeWhile_append_stop (p : Char → Bool) (x t : List Char) (c : Char)
    (hc : p c = false) : (x ++ c :: t).takeWhile p = x.takeWhile p := by
  induction x with
  | nil => simp [List.takeWhile, hc]
  | cons a r ih =>
    by_cases ha : p a = true
    · simp [List.takeWhile, ha, ih]
    · simp [List.takeWhile, ha]

theorem read_sign_append_nul (x t : List Char) :
    read_sign (x ++ NUL :: t) = ((read_sign x).1, (read_sign x).2 ++ NUL :: t) := by
  match x with
  | [] =>
    show read_sign (NUL :: t) = _
    unfold read_sign
    split
    · rename_i h
      exact absurd (List.cons.inj h).1 (by decide)
    · rename_i h
      exact absurd (List.cons.inj h).1 (by decide)
    · rfl
  | a :: r =>
    show read_sign (a :: (r ++ NUL :: t)) = _
    by_cases h1 : a = '-'
    · subst h1
      rfl
    · by_cases h2 : a = '+'
      · subst h2
        rfl
      · have e1 : read_sign (a :: (r ++ NUL :: t)) = (false, a :: (r ++ NUL :: t)) := by
          unfold read_sign
          split
          · rename_i h
            exact absurd (List.cons.inj h).1 h1
          · rename_i h
            exact absurd (List.cons.inj h).1 h2
          · rfl
        have e2 : read_sign (a :: r) = (false, a :: r) := by
          unfold read_sign
          split
          · rename_i h
            exact absurd (List.cons.inj h).1 h1
          · rename_i h
            exact absurd (List.cons.inj h).1 h2
          · rfl
        rw [e1, e2]
        rfl

/-- The function `strtol` reads no byte behind a `NUL`. -/
theorem strtol_append_nul (x t : List Char) : strtol (x ++ NUL :: t) = strtol x := by
  unfold strtol
  rw [dropWhile_append_stop isspace x t NUL (by decide), read_sign_append_nul]
  simp only [takeWhile_append_stop isdigit _ t NUL (by decide)]

theorem read_exponent_append_nul (x t : List Char) :
    read_exponent (x ++ NUL :: t) = read_exponent x := by
  match x with
  | [] =>
    show read_exponent (NUL :: t) = read_exponent []
    have h : (NUL == 'e' || NUL == 'E') = false := by decide
    unfold read_exponent
    simp only [h, Bool.false_eq_true, if_false]
  | a :: r =>
    show read_exponent (a :: (r ++ NUL :: t)) = read_exponent (a :: r)
    unfold read_exponent
    simp only [read_sign_append_nul, takeWhile_append_stop isdigit _ t NUL (by decide)]

/-- The function `strtod`, with the two case distinctions on the decimal
point named. -/
theorem strtod_eq (s : List Char) :
    strtod s =
      (let sg := read_sign (s.dropWhile isspace)
       let ip := sg.2.takeWhile isdigit
       let r1 := sg.2.dropWhile isdigit
       let fp := frac_digits r1
       let r2 := after_frac r1
       if ip.isEmpty && fp.isEmpty then (0, false)
       else
         let m : ℚ := (digits_value (ip ++ fp) : ℚ)
         let a : ℚ := m * (10 : ℚ) ^ (read_exponent r2 - (fp.length : Int))
         let v : ℚ := if sg.1 then -a else a
         (v, decide (DBL_OVERFLOW ≤ a) || (decide (0 < a) && decide (a < DBL_MIN)))) := rfl

theorem frac_digits_append_nul (y t : List Char) :
    frac_digits (y ++ NUL :: t) = frac_digits y := by
  match y with
  | [] => rfl
  | a :: r =>
    by_cases ha : a = '.'
    · subst ha
      show List.takeWhile isdigit (r ++ NUL :: t) = List.takeWhile isdigit r
      exact takeWhile_append_stop isdigit r t NUL (by decide)
    · have e1 : frac_digits (a :: r ++ NUL :: t) = [] := by
        unfold frac_digits
        split
        · rename_i q h
          exact absurd (List.cons.inj h).1 ha
        · rfl
      have e2 : frac_digits (a :: r) = [] := by
        unfold frac_digits
        split
        · rename_i q h
          exact absurd (List.cons.inj h).1 ha
        · rfl
      rw [e1, e2]

theorem after_frac_append_nul (y t : List Char) :
    read_exponent (after_frac (y ++ NUL :: t)) = read_exponent (after_frac y) := by
  match y with
  | [] => exact read_exponent_append_nul [] t
  | a :: r =>
    by_cases ha : a = '.'
    · subst ha
      show read_exponent (List.dropWhile isdigit (r ++ NUL :: t))
        = read_exponent (List.dropWhile isdigit r)
      rw [dropWhile_append_stop isdigit r t NUL (by decide), read_exponent_append_nul]
    · have e1 : after_frac (a :: r ++ NUL :: t) = a :: r ++ NUL :: t := by
        unfold after_frac
        split
        · rename_i q h
          exact absurd (List.cons.inj h).1 ha
        · rfl
      have e2 : after_frac (a :: r) = a :: r := by
        unfold after_frac
        split
        · rename_i q h
          exact absurd (List.cons.inj h).1 ha
        · rfl
      rw [e1, e2, read_exponent_append_nul]

/-- The function `strtod` reads no byte behind a `NUL`. -/
theorem strtod_append_nul (x t : List Char) : strtod (x ++ NUL :: t) = strtod x := by
  rw [strtod_eq, strtod_eq]
  simp only [dropWhile_append_stop isspace x t NUL (by decide), read_sign_append_nul,
    takeWhile_append_stop isdigit _ t NUL (by decide),
    dropWhile_append_stop isdigit _ t NUL (by decide), frac_digits_append_nul,
    after_frac_append_nul]

theorem store_line_drop (b l : List Char) (k : Nat) (h : k ≤ l.length) :
    (store_line b l).drop k = l.drop k ++ NUL :: b.drop (l.length + 1) := by
  unfold store_line
  rw [List.drop_append_of_le_length h]

/-- A conversion by `strtol` that starts within the stored line sees the
bytes of the line only. -/
theorem strtol_store_line (b l : List Char) (k : Nat) (h : k ≤ l.length) :
    strtol ((store_line b l).drop k) = strtol (l.drop k) := by
  rw [store_line_drop b l k h, strtol_append_nul]

/-- A conversion by `strtod` that starts within the stored line sees the
bytes of the line only. -/
theorem strtod_store_line (b l : List Char) (k : Nat) (h : k ≤ l.length) :
    strtod ((store_line b l).drop k) = strtod (l.drop k) := by
  rw [store_line_drop b l k h, strtod_append_nul]

theorem byte_at_store_line (b l : List Char) (i : Nat) (h : i ≤ l.length) :
    byte_at (store_line b l) i = l.getD i NUL := by
  unfold byte_at store_line
  rcases Nat.lt_or_eq_of_le h with h1 | h1
  · rw [List.getD_append _ _ _ _ h1]
  · subst h1
    rw [List.getD_append_right _ _ _ _ (le_refl _)]
    simp

/-! ## The header reader: the satellites and the system of an accepted header -/

theorem read_header_tail_stores (s s1 : sp3) (pe e3 : Int) (f : ifstream) (line : List Char)
    (h : read_header_tail s pe e3 f line = (.returned 0, s1)) :
    (char_to_satsys (byte_at line 3)).orElse (fun _ => char_to_satsys (byte_at line 4))
      = some s1.satsys ∧
    s1.sat_vec = s.sat_vec ∧ s1.sat_acc = s.sat_acc := by
  unfold read_header_tail at h
  simp only [] at h
  split at h
  · simp at h
  · split at h
    · simp at h
    · rename_i satsys hsys
      repeat' split at h
      all_goals try solve | simp at h
      all_goals (simp only [Prod.mk.injEq, true_and] at h; subst h; exact ⟨hsys, rfl, rfl⟩)

theorem satellite.of_chars_append (y z : List Char) (h : 3 ≤ y.length) :
    satellite.of_chars (y ++ z) = satellite.of_chars y := by
  match y, h with
  | a :: b :: c :: r, _ => simp [satellite.of_chars, bytes_at]

theorem sat_offsets_le (off : Nat) (h : off ∈ sat_offsets) : off + 3 ≤ 60 := by
  simp only [sat_offsets, sats_per_line, sat_stop_idx, sat_start_idx, List.mem_map,
    List.mem_range] at h
  obtain ⟨i, hi, rfl⟩ := h
  omega

/-- The satellites `read_header` takes from a stored line of 60 characters
or more are those of the line. -/
theorem line_sats_store_line (b l : List Char) (h : 60 ≤ l.length) :
    sat_offsets.map (fun off => satellite.of_chars ((store_line b l).drop off))
      = line_sats l := by
  unfold line_sats
  apply List.map_congr_left
  intro off hoff
  have h1 := sat_offsets_le off hoff
  rw [store_line_drop b l off (by omega)]
  exact satellite.of_chars_append _ _ (by simp; omega)

theorem collect_sats_eq (line : List Char) (n : Nat) (offs : List Nat) (v : List satellite)
    (hv : v.length < n) :
    collect_sats line n offs v
      = (v ++ offs.map (fun off => satellite.of_chars (line.drop off))).take n := by
  induction offs generalizing v with
  | nil =>
    simp only [collect_sats, List.map_nil, List.append_nil]
    exact (List.take_of_length_le (by omega)).symm
  | cons off offs ih =>
    unfold collect_sats
    simp only []
    split
    · rename_i he
      simp only [List.length_append, List.length_singleton] at he
      have e : v ++ List.map (fun off => satellite.of_chars (List.drop off line)) (off :: offs)
          = (v ++ [satellite.of_chars (line.drop off)])
            ++ offs.map (fun off => satellite.of_chars (line.drop off)) := by simp
      rw [e, List.take_append_of_le_length (by simp; omega)]
      exact (List.take_of_length_le (by simp; omega)).symm
    · rename_i he
      simp only [List.length_append, List.length_singleton] at he
      rw [ih _ (by simp; omega)]
      simp

theorem take_append_take {α : Type} (x y : List α) (n : Nat) :
    (x.take n ++ y).take n = (x ++ y).take n := by
  by_cases h : x.length ≤ n
  · rw [List.take_of_length_le h]
  · have h1 : n ≤ x.length := by omega
    rw [List.take_append_of_le_length (by simp; omega), List.take_append_of_le_length h1,
      List.take_take]
    simp

theorem line_sats_length (l : List Char) : (line_sats l).length = 17 := by
  simp [line_sats, sat_offsets, sats_per_line, sat_stop_idx, sat_start_idx]

/-- One round of the loop over the satellite lines, on a stored line of 60
characters or more: the satellites of the line are appended, up to the
declared number. -/
theorem sat_line_step (n : Nat) (b l : List Char) (v : List satellite) (hv : v.length ≤ n)
    (hl : 60 ≤ l.length) :
    (if v.length < n then collect_sats (store_line b l) n sat_offsets v else v)
      = (v ++ line_sats l).take n := by
  split
  · rename_i h
    rw [collect_sats_eq _ _ _ _ h, line_sats_store_line b l hl]
  · rename_i h
    have e : v.length = n := by omega
    rw [List.take_append_of_le_length (by omega)]
    exact (List.take_of_length_le (by omega)).symm

/-- The satellites the loop over the satellite lines collects: those of the
lines starting with `"+ "`, in file order, up to the declared number. -/
theorem read_sat_lines_values (n fuel : Nat) (f : ifstream) (b l : List Char)
    (v : List satellite) (sl : line_loop satellite)
    (h : read_sat_lines n fuel f (store_line b l) v = some sl) (hf : sl.failed = false)
    (hv : v.length ≤ n)
    (hl : ∀ x ∈ (l :: f.lines_left).takeWhile (starts_with '+' ' '), 60 ≤ x.length) :
    sl.values
      = (v ++ ((l :: f.lines_left).takeWhile (starts_with '+' ' ')).flatMap line_sats).take n
      := by
  induction fuel generalizing f b l v with
  | zero => simp [read_sat_lines] at h
  | succ k ih =>
    unfold read_sat_lines at h
    rw [strncmp_eq_two _ _ _ _ (by decide) (by decide)] at h
    simp only [] at h
    split at h
    · rename_i hp
      rw [List.takeWhile_cons_of_pos hp] at hl ⊢
      split at h
      · simp only [Option.some.injEq] at h
        subst h
        simp at hf
      · rename_i hg
        have hg2 : (f.getline (store_line b l) MAX_HEADER_CHARS).1.fail = false := by
          simpa using hg
        obtain ⟨l2, hl2, hb2⟩ := ifstream.getline_lines _ _ _ hg2
        rw [hb2, sat_line_step n b l v hv (hl l (List.mem_cons_self _ _))] at h
        rw [hl2] at hl ⊢
        have hrec := ih _ _ _ _ h (by simp)
          (fun x hx => hl x (List.mem_cons_of_mem _ hx))
        rw [hrec, take_append_take]
        simp
    · rename_i hp
      simp only [Option.some.injEq] at h
      subst h
      rw [List.takeWhile_cons_of_neg hp]
      simp only [List.flatMap_nil, List.append_nil]
      exact (List.take_of_length_le hv).symm

/-- What an accepted header stores as its satellites and its satellite
system, in terms of the lines the stream delivers from line 3 on. -/
theorem read_header_sats_stores (s s1 : sp3) (pe e2 : Int) (f : ifstream) (line : List Char)
    (h : read_header_sats s pe e2 f line = (.returned 0, s1)) :
    ((∀ x ∈ f.lines_left.takeWhile (starts_with '+' ' '), 60 ≤ x.length) →
      to_size_t (to_int (strtol ((f.lines_left.headD []).drop 4)).1) ≤ sats_max_num ∧
      s1.sat_vec = ((f.lines_left.takeWhile (starts_with '+' ' ')).flatMap line_sats).take
        (to_size_t (to_int (strtol ((f.lines_left.headD []).drop 4)).1))) ∧
    (4 ≤ (((f.lines_left.dropWhile (starts_with '+' ' ')).dropWhile
        (starts_with '+' '+')).headD []).length →
      (char_to_satsys ((((f.lines_left.dropWhile (starts_with '+' ' ')).dropWhile
          (starts_with '+' '+')).headD []).getD 3 NUL)).orElse
        (fun _ => char_to_satsys ((((f.lines_left.dropWhile (starts_with '+' ' ')).dropWhile
          (starts_with '+' '+')).headD []).getD 4 NUL)) = some s1.satsys) := by
  unfold read_header_sats at h
  simp only [] at h
  split at h
  · simp at h
  · rename_i c0
    simp only [Bool.or_eq_true, not_or, Bool.not_eq_true, Bool.not_eq_false'] at c0
    obtain ⟨n0, m0⟩ := c0
    obtain ⟨l0, hl0, hb0⟩ := ifstream.getline_lines _ _ _ n0
    rw [hb0, strncmp_eq_two _ _ _ _ (by decide) (by decide)] at m0
    rw [hb0] at h
    split at h
    · simp at h
    · rename_i hmax
      split at h
      · simp at h
      · split at h
        · simp at h
        · rename_i sl hsl
          split at h
          · simp at h
          · rename_i hsf
            have hsf2 : sl.failed = false := by simpa using hsf
            obtain ⟨b1, l1, e1, d1⟩ := read_sat_lines_lines _ _ _ _ _ _ _ hsl hsf2
            rw [e1] at h
            rw [strncmp_eq_two _ _ _ _ (by decide) (by decide)] at h
            split at h
            · simp at h
            · split at h
              · simp at h
              · rename_i al hal
                split at h
                · simp at h
                · rename_i haf
                  have haf2 : al.failed = false := by simpa using haf
                  obtain ⟨b2, l2, e2', d2⟩ := read_acc_lines_lines _ _ _ _ _ _ _ hal haf2
                  rw [e2'] at h
                  obtain ⟨t1, t2, _⟩ := read_header_tail_stores _ _ _ _ _ _ h
                  simp only [] at t2
                  rw [hl0]
                  refine ⟨fun hlen => ?_, fun hlen => ?_⟩
                  · have hl60 : 60 ≤ l0.length := by
                      apply hlen
                      rw [List.takeWhile_cons_of_pos m0]
                      exact List.mem_cons_self _ _
                    have hv := read_sat_lines_values _ _ _ _ _ _ _ hsl hsf2 (Nat.zero_le _) hlen
                    rw [strtol_store_line _ _ 4 (by omega)] at hmax hv
                    simp only [List.headD_cons]
                    refine ⟨by simpa using hmax, ?_⟩
                    rw [t2, hv]
                    simp
                  · rw [d1, d2] at hlen ⊢
                    simp only [List.headD_cons] at hlen ⊢
                    rw [byte_at_store_line _ _ 3 (by omega),
                      byte_at_store_line _ _ 4 (by omega)] at t1
                    exact t1

/-- What an accepted header stores as its satellites and its satellite
system, in terms of the lines of the file. -/
theorem read_header_stores (s s1 : sp3) (line0 : List Char)
    (h : read_header s line0 = (.returned 0, s1)) :
    ((∀ x ∈ header_sat_lines (split_lines s.istream.data), 60 ≤ x.length) →
      to_size_t (to_int (declared_sats (split_lines s.istream.data))) ≤ sats_max_num ∧
      s1.sat_vec = ((header_sat_lines (split_lines s.istream.data)).flatMap line_sats).take
        (to_size_t (to_int (declared_sats (split_lines s.istream.data))))) ∧
    (4 ≤ (header_sys_line (split_lines s.istream.data)).length →
      (char_to_satsys ((header_sys_line (split_lines s.istream.data)).getD 3 NUL)).orElse
        (fun _ => char_to_satsys ((header_sys_line (split_lines s.istream.data)).getD 4 NUL))
        = some s1.satsys) := by
  unfold read_header at h
  simp only [] at h
  split at h
  · simp at h
  · rename_i c1
    simp only [Bool.or_eq_true, not_or, Bool.not_eq_true, bne_eq_false_iff_eq] at c1
    obtain ⟨n1, m1⟩ := c1
    obtain ⟨l1, hl1, hb1⟩ := ifstream.getline_lines _ _ _ n1
    obtain ⟨hg1, _⟩ := ifstream.getline_progress _ _ _ n1
    rw [ifstream.seekg0_lines _ hg1] at hl1
    split at h
    · simp at h
    · split at h
      · simp at h
      · split at h
        · simp at h
        · rename_i n2
          have n2' : ((s.istream.seekg0.getline line0 MAX_HEADER_CHARS).1.getline
              (s.istream.seekg0.getline line0 MAX_HEADER_CHARS).2 MAX_HEADER_CHARS).1.fail
              = false := by simpa using n2
          obtain ⟨l2, hl2, hb2⟩ := ifstream.getline_lines _ _ _ n2'
          split at h
          · simp at h
          · split at h
            · simp at h
            · have hb := read_header_sats_stores _ _ _ _ _ _ h
              unfold header_sat_lines declared_sats header_sys_line
              rw [hl1, hl2]
              simp only [List.drop_succ_cons, List.drop_zero]
              exact hb

theorem to_size_t_to_int_small (n : Nat) (h : n ≤ 85) : to_size_t (to_int (n : Int)) = n := by
  unfold to_size_t to_int
  omega

theorem flatMap_line_sats_length (ls : List (List Char)) :
    (ls.flatMap line_sats).length = 17 * ls.length := by
  induction ls with
  | nil => simp
  | cons l r ih =>
    simp only [List.flatMap_cons, List.length_append, line_sats_length, ih, List.length_cons]
    omega

/-! ## The header reader: acceptance of a laid-out header -/

theorem storable_iff (l : List Char) (h : storable l = true) :
    '\n' ∉ l ∧ l.length < MAX_HEADER_CHARS := by
  simpa [storable] using h

theorem ifstream.good_not_fail (f : ifstream) (h : f.good = true) : f.fail = false := by
  obtain ⟨_, hf, hb⟩ := f.good_bits h
  simp [ifstream.fail, hf, hb]

/-- A `getline` on a good stream in front of a storable line that ends with a
newline: the line is stored, and the stream is good and in front of what
follows the newline. -/
theorem ifstream.getline_at (f : ifstream) (buf l t : List Char) (hg : f.good = true)
    (hr : f.rest = l ++ '\n' :: t) (hl : storable l = true) :
    ∃ g, f.getline buf MAX_HEADER_CHARS = (g, store_line buf l) ∧ g.good = true ∧ g.rest = t ∧
      g.data = f.data := by
  obtain ⟨hn, hlen⟩ := storable_iff l hl
  refine ⟨_, ifstream.getline_line f buf l t MAX_HEADER_CHARS hg hr hn hlen, ?_, ?_, rfl⟩
  · exact hg
  · have hd : f.rest.drop l.length = '\n' :: t := by
      rw [hr]
      exact List.drop_left _ _
    exact ifstream.rest_after f l.length t '\n' hd

theorem ifstream.rest_length_le (f : ifstream) : f.rest.length ≤ f.data.length := by
  simp [ifstream.rest]

theorem text_of_lines_length (ls : List (List Char)) : ls.length ≤ (text_of_lines ls).length := by
  induction ls with
  | nil => simp [text_of_lines]
  | cons l r ih =>
    simp only [text_of_lines, List.flatMap_cons, List.length_append, List.length_cons,
      List.length_nil] at ih ⊢
    omega

theorem text_of_lines_cons (l : List Char) (ls : List (List Char)) (t : List Char) :
    text_of_lines (l :: ls) ++ t = l ++ '\n' :: (text_of_lines ls ++ t) := by
  simp [text_of_lines]

/-- The loop over the satellite lines, in front of the lines `ls` that start
with `"+ "` and a line `nl` that does not: it ends without a failure, with
`nl` in the line buffer and the stream behind `nl`. -/
theorem read_sat_lines_forward (n : Nat) (ls : List (List Char)) (nl t : List Char) :
    ∀ (fuel : Nat) (f : ifstream) (b l : List Char) (v : List satellite),
    f.good = true → f.rest = text_of_lines ls ++ (nl ++ '\n' :: t) →
    starts_with '+' ' ' l = true →
    (∀ x ∈ ls, starts_with '+' ' ' x = true ∧ storable x = true) →
    starts_with '+' ' ' nl = false → storable nl = true → ls.length + 1 < fuel →
    ∃ g b1 vals, read_sat_lines n fuel f (store_line b l) v
        = some ⟨false, g, store_line b1 nl, vals⟩ ∧
      g.good = true ∧ g.rest = t ∧ g.data = f.data := by
  induction ls with
  | nil =>
    intro fuel f b l v hg hr hl _ hnl hsn hfuel
    obtain ⟨k, rfl⟩ : ∃ k, fuel = k + 2 := ⟨fuel - 2, by simp at hfuel; omega⟩
    simp only [text_of_lines, List.flatMap_nil, List.nil_append] at hr
    obtain ⟨g, hgl, hgg, hgr, hgd⟩ := ifstream.getline_at f (store_line b l) nl t hg hr hsn
    refine ⟨g, store_line b l,
      (if v.length < n then collect_sats (store_line b l) n sat_offsets v else v), ?_, hgg, hgr,
      hgd⟩
    unfold read_sat_lines
    rw [strncmp_eq_two _ _ _ _ (by decide) (by decide)]
    simp only [hl, if_true, hgl, ifstream.good_not_fail g hgg, Bool.false_eq_true, if_false]
    unfold read_sat_lines
    rw [strncmp_eq_two _ _ _ _ (by decide) (by decide)]
    simp only [hnl, Bool.false_eq_true, if_false]
  | cons x r ih =>
    intro fuel f b l v hg hr hl hall hnl hsn hfuel
    obtain ⟨k, rfl⟩ : ∃ k, fuel = k + 1 := ⟨fuel - 1, by simp at hfuel; omega⟩
    rw [text_of_lines_cons] at hr
    obtain ⟨hx1, hx2⟩ := hall x (List.mem_cons_self _ _)
    obtain ⟨g, hgl, hgg, hgr, hgd⟩ := ifstream.getline_at f (store_line b l) x _ hg hr hx2
    obtain ⟨g2, b2, vals, h2, hg2, hr2, hd2⟩ := ih k g (store_line b l) x
      (if v.length < n then collect_sats (store_line b l) n sat_offsets v else v) hgg hgr hx1
      (fun y hy => hall y (List.mem_cons_of_mem _ hy)) hnl hsn (by simp at hfuel ⊢; omega)
    refine ⟨g2, b2, vals, ?_, hg2, hr2, hd2.trans hgd⟩
    unfold read_sat_lines
    rw [strncmp_eq_two _ _ _ _ (by decide) (by decide)]
    simp only [hl, if_true, hgl, ifstream.good_not_fail g hgg, Bool.false_eq_true, if_false]
    exact h2

/-- The loop over the accuracy lines, in front of the lines `ls` that start
with `"++"` and a line `nl` that does not: it ends without a failure, with
`nl` in the line buffer and the stream behind `nl`. -/
theorem read_acc_lines_forward (n : Nat) (ls : List (List Char)) (nl t : List Char) :
    ∀ (fuel : Nat) (f : ifstream) (b l : List Char) (v : List Int),
    f.good = true → f.rest = text_of_lines ls ++ (nl ++ '\n' :: t) →
    starts_with '+' '+' l = true →
    (∀ x ∈ ls, starts_with '+' '+' x = true ∧ storable x = true) →
    starts_with '+' '+' nl = false → storable nl = true → ls.length + 1 < fuel →
    ∃ g b1 vals, read_acc_lines n fuel f (store_line b l) v
        = some ⟨false, g, store_line b1 nl, vals⟩ ∧
      g.good = true ∧ g.rest = t ∧ g.data = f.data := by
  induction ls with
  | nil =>
    intro fuel f b l v hg hr hl _ hnl hsn hfuel
    obtain ⟨k, rfl⟩ : ∃ k, fuel = k + 2 := ⟨fuel - 2, by simp at hfuel; omega⟩
    simp only [text_of_lines, List.flatMap_nil, List.nil_append] at hr
    obtain ⟨g, hgl, hgg, hgr, hgd⟩ := ifstream.getline_at f (store_line b l) nl t hg hr hsn
    refine ⟨g, store_line b l,
      (if v.length < n then collect_accs (store_line b l) n sat_offsets v else v), ?_, hgg, hgr,
      hgd⟩
    unfold read_acc_lines
    rw [strncmp_eq_two _ _ _ _ (by decide) (by decide)]
    simp only [hl, if_true, hgl, ifstream.good_not_fail g hgg, Bool.false_eq_true, if_false]
    unfold read_acc_lines
    rw [strncmp_eq_two _ _ _ _ (by decide) (by decide)]
    simp only [hnl, Bool.false_eq_true, if_false]
  | cons x r ih =>
    intro fuel f b l v hg hr hl hall hnl hsn hfuel
    obtain ⟨k, rfl⟩ : ∃ k, fuel = k + 1 := ⟨fuel - 1, by simp at hfuel; omega⟩
    rw [text_of_lines_cons] at hr
    obtain ⟨hx1, hx2⟩ := hall x (List.mem_cons_self _ _)
    obtain ⟨g, hgl, hgg, hgr, hgd⟩ := ifstream.getline_at f (store_line b l) x _ hg hr hx2
    obtain ⟨g2, b2, vals, h2, hg2, hr2, hd2⟩ := ih k g (store_line b l) x
      (if v.length < n then collect_accs (store_line b l) n sat_offsets v else v) hgg hgr hx1
      (fun y hy => hall y (List.mem_cons_of_mem _ hy)) hnl hsn (by simp at hfuel ⊢; omega)
    refine ⟨g2, b2, vals, ?_, hg2, hr2, hd2.trans hgd⟩
    unfold read_acc_lines
    rw [strncmp_eq_two _ _ _ _ (by decide) (by decide)]
    simp only [hl, if_true, hgl, ifstream.good_not_fail g hgg, Bool.false_eq_true, if_false]
    exact h2

theorem starts_with_head (a b : Char) (l : List Char) (h : starts_with a b l = true) :
    ∃ r, l = a :: b :: r := by
  match l with
  | [] => simp [starts_with] at h
  | [x] => simp [starts_with] at h
  | x :: y :: r =>
    simp only [starts_with, List.take_succ_cons, List.take_zero, beq_iff_eq, List.cons.injEq,
      and_true] at h
    exact ⟨r, by rw [h.1, h.2]⟩

/-- The loop over the comment lines, in front of the lines `ls` that start
with `"/*"` and of bytes that do not start with a slash: it ends without a
failure. -/
theorem read_comment_lines_forward (ls : List (List Char)) (t : List Char) :
    ∀ (fuel : Nat) (f : ifstream) (line : List Char),
    f.good = true → f.rest = text_of_lines ls ++ t →
    (∀ x ∈ ls, starts_with '/' '*' x = true ∧ storable x = true) →
    t.head? ≠ some '/' → ls.length < fuel →
    ∃ cl, read_comment_lines fuel f line = some cl ∧ cl.failed = false := by
  induction ls with
  | nil =>
    intro fuel f line hg hr _ ht hfuel
    obtain ⟨k, rfl⟩ : ∃ k, fuel = k + 1 := ⟨fuel - 1, by simp at hfuel; omega⟩
    simp only [text_of_lines, List.flatMap_nil, List.nil_append] at hr
    have hp : f.peek.2 ≠ some '/' := by
      unfold ifstream.peek
      simp only [hg, Bool.not_true, Bool.false_eq_true, if_false, hr]
      cases t with
      | nil => simp
      | cons c r => simpa using ht
    unfold read_comment_lines
    simp only [hp, if_false]
    exact ⟨_, rfl, rfl⟩
  | cons x r ih =>
    intro fuel f line hg hr hall ht hfuel
    obtain ⟨k, rfl⟩ : ∃ k, fuel = k + 1 := ⟨fuel - 1, by simp at hfuel; omega⟩
    rw [text_of_lines_cons] at hr
    obtain ⟨hx1, hx2⟩ := hall x (List.mem_cons_self _ _)
    obtain ⟨q, hq⟩ := starts_with_head _ _ _ hx1
    have hp : f.peek = (f, some '/') := by
      unfold ifstream.peek
      simp only [hg, Bool.not_true, Bool.false_eq_true, if_false, hr, hq, List.cons_append]
    obtain ⟨g, hgl, hgg, hgr, hgd⟩ := ifstream.getline_at f line x _ hg hr hx2
    obtain ⟨cl, hcl, hcf⟩ := ih k g (store_line line x) hgg hgr
      (fun y hy => hall y (List.mem_cons_of_mem _ hy)) ht (by simp at hfuel ⊢; omega)
    refine ⟨cl, ?_, hcf⟩
    unfold read_comment_lines
    simp only [hp, if_true, hgl, ifstream.good_not_fail g hgg,
      strncmp_eq_two _ _ _ _ (show '/' ≠ NUL by decide) (show '*' ≠ NUL by decide), hx1,
      Bool.not_true, Bool.or_self, Bool.false_eq_true, if_false]
    exact hcl

theorem errno_after_none (e : Int) (errs : List Bool) (h : errs.any id = false) :
    errno_after e errs = e := by
  simp [errno_after, h]

theorem text_fuel (f : ifstream) (ls : List (List Char)) (t : List Char)
    (h : f.rest = text_of_lines ls ++ t) : ls.length < f.data.length + 1 := by
  have h1 := f.rest_length_le
  have h2 := text_of_lines_length ls
  rw [h, List.length_append] at h1
  omega

/-- The rest of the header, from the first system line on, is accepted when
the stream is in front of a second system line, two base lines, two integer
lines, comment lines and bytes that do not start with a slash, the first
system line names a satellite system at index 3 or 4, the two bases are in
the range of a `double`, and `errno` is not `ERANGE`. -/
theorem read_header_tail_accepts (s : sp3) (pe e3 : Int) (f : ifstream)
    (b sys1 sys2 base1 base2 int1 int2 : List Char) (coms : List (List Char)) (t : List Char)
    (hg : f.good = true)
    (hr : f.rest = sys2 ++ '\n' :: (base1 ++ '\n' :: (base2 ++ '\n' :: (int1 ++ '\n' ::
      (int2 ++ '\n' :: (text_of_lines coms ++ t))))))
    (he : e3 ≠ ERANGE)
    (m1 : starts_with '%' 'c' sys1 = true) (m2 : starts_with '%' 'c' sys2 = true)
    (m3 : starts_with '%' 'f' base1 = true) (m4 : starts_with '%' 'f' base2 = true)
    (m5 : starts_with '%' 'i' int1 = true) (m6 : starts_with '%' 'i' int2 = true)
    (k2 : storable sys2 = true) (k3 : storable base1 = true) (k4 : storable base2 = true)
    (k5 : storable int1 = true) (k6 : storable int2 = true)
    (hc : ∀ x ∈ coms, starts_with '/' '*' x = true ∧ storable x = true)
    (ht : t.head? ≠ some '/')
    (hs1 : 4 ≤ sys1.length)
    (hsys : ((char_to_satsys (sys1.getD 3 NUL)).orElse
      (fun _ => char_to_satsys (sys1.getD 4 NUL))).isSome = true)
    (hb1 : 14 ≤ base1.length)
    (hbp : (strtod (base1.drop 3)).2 = false) (hbc : (strtod (base1.drop 14)).2 = false) :
    (read_header_tail s pe e3 f (store_line b sys1)).1 = .returned 0 := by
  obtain ⟨g1, q1, g1g, g1r, g1d⟩ := ifstream.getline_at f (store_line b sys1) sys2 _ hg hr k2
  obtain ⟨g2, q2, g2g, g2r, g2d⟩ :=
    ifstream.getline_at g1 (store_line (store_line b sys1) sys2) base1 _ g1g g1r k3
  obtain ⟨g3, q3, g3g, g3r, g3d⟩ := ifstream.getline_at g2
    (store_line (store_line (store_line b sys1) sys2) base1) base2 _ g2g g2r k4
  obtain ⟨g4, q4, g4g, g4r, g4d⟩ := ifstream.getline_at g3
    (store_line (store_line (store_line (store_line b sys1) sys2) base1) base2) int1 _ g3g g3r k5
  obtain ⟨g5, q5, g5g, g5r, g5d⟩ := ifstream.getline_at g4
    (store_line (store_line (store_line (store_line (store_line b sys1) sys2) base1) base2) int1)
    int2 _ g4g g4r k6
  obtain ⟨cl, hcl, hcf⟩ := read_comment_lines_forward coms t (g5.data.length + 1) g5
    (store_line (store_line (store_line (store_line (store_line (store_line b sys1) sys2) base1)
      base2) int1) int2) g5g g5r hc ht (text_fuel g5 coms t g5r)
  obtain ⟨sys, hsys2⟩ := Option.isSome_iff_exists.mp hsys
  have hsys3 : (char_to_satsys (byte_at (store_line b sys1) 3)).orElse
      (fun _ => char_to_satsys (byte_at (store_line b sys1) 4)) = some sys := by
    rw [byte_at_store_line _ _ 3 (by omega), byte_at_store_line _ _ 4 (by omega)]
    exact hsys2
  have hbp2 : (strtod ((store_line (store_line (store_line b sys1) sys2) base1).drop 3)).2
      = false := by
    rw [strtod_store_line _ _ 3 (by omega)]
    exact hbp
  have hbc2 : (strtod ((store_line (store_line (store_line b sys1) sys2) base1).drop 14)).2
      = false := by
    rw [strtod_store_line _ _ 14 (by omega)]
    exact hbc
  have he4 : errno_after e3
      [(strtod ((store_line (store_line (store_line b sys1) sys2) base1).drop 3)).2,
       (strtod ((store_line (store_line (store_line b sys1) sys2) base1).drop 14)).2] ≠ ERANGE := by
    rw [errno_after_none _ _ (by simp [hbp2, hbc2])]
    exact he
  unfold read_header_tail
  simp only [strncmp_eq_two _ _ _ _ (show '%' ≠ NUL by decide) (show 'c' ≠ NUL by decide),
    strncmp_eq_two _ _ _ _ (show '%' ≠ NUL by decide) (show 'f' ≠ NUL by decide),
    strncmp_eq_two _ _ _ _ (show '%' ≠ NUL by decide) (show 'i' ≠ NUL by decide),
    m1, Bool.not_true, Bool.false_eq_true, if_false, hsys3, q1, q2, q3, q4, q5,
    ifstream.good_not_fail _ g1g, ifstream.good_not_fail _ g2g, ifstream.good_not_fail _ g3g,
    ifstream.good_not_fail _ g4g, ifstream.good_not_fail _ g5g, m2, m3, m4, m5, m6,
    Bool.or_self, he4, hcl, hcf]

theorem text_fuel_line (f : ifstream) (ls : List (List Char)) (x t : List Char)
    (h : f.rest = text_of_lines ls ++ (x ++ '\n' :: t)) : ls.length + 1 < f.data.length + 1 := by
  have h1 := f.rest_length_le
  have h2 := text_of_lines_length ls
  rw [h] at h1
  simp only [List.length_append, List.length_cons] at h1
  omega

theorem starts_with_exclusive (a b c d : Char) (l : List Char) (h : starts_with a b l = true)
    (hne : a ≠ c ∨ b ≠ d) : starts_with c d l = false := by
  obtain ⟨r, rfl⟩ := starts_with_head a b l h
  simp only [starts_with, List.take_succ_cons, List.take_zero, beq_eq_false_iff_ne, ne_eq,
    List.cons.injEq, and_true, not_and]
  intro h1 h2
  rcases hne with h3 | h3
  · exact h3 h1
  · exact h3 h2

theorem sat_lines_small (n : Nat) (h1 : 1 ≤ n) (h2 : n ≤ 85) :
    to_size_t (satellite_lines (to_int ((n : Nat) : Int))) ≤ sats_max_lines := by
  have e : sats_per_line = 17 := by decide
  have e2 : sats_max_lines = 5 := rfl
  unfold satellite_lines
  rw [e, e2]
  unfold to_size_t to_int
  omega

/-- The header from line 3 on is accepted when the stream is in front of
satellite lines, accuracy lines and the rest of a header as
`read_header_tail_accepts` takes it, line 3 declares between 1 and 85
satellites, and `errno` is not `ERANGE`. -/
theorem read_header_sats_accepts (s : sp3) (pe e2 : Int) (f : ifstream)
    (line sat1 acc1 sys1 sys2 base1 base2 int1 int2 : List Char)
    (sats accs coms : List (List Char)) (t : List Char)
    (hg : f.good = true)
    (hr : f.rest = sat1 ++ '\n' :: (text_of_lines sats ++ (acc1 ++ '\n' ::
      (text_of_lines accs ++ (sys1 ++ '\n' :: (sys2 ++ '\n' :: (base1 ++ '\n' ::
        (base2 ++ '\n' :: (int1 ++ '\n' :: (int2 ++ '\n' :: (text_of_lines coms ++ t)))))))))))
    (he : e2 ≠ ERANGE)
    (a1 : starts_with '+' ' ' sat1 = true) (a2 : storable sat1 = true)
    (a3 : ∀ x ∈ sats, starts_with '+' ' ' x = true ∧ storable x = true)
    (a4 : starts_with '+' '+' acc1 = true) (a5 : storable acc1 = true)
    (a6 : ∀ x ∈ accs, starts_with '+' '+' x = true ∧ storable x = true)
    (k1 : storable sys1 = true)
    (m1 : starts_with '%' 'c' sys1 = true) (m2 : starts_with '%' 'c' sys2 = true)
    (m3 : starts_with '%' 'f' base1 = true) (m4 : starts_with '%' 'f' base2 = true)
    (m5 : starts_with '%' 'i' int1 = true) (m6 : starts_with '%' 'i' int2 = true)
    (k2 : storable sys2 = true) (k3 : storable base1 = true) (k4 : storable base2 = true)
    (k5 : storable int1 = true) (k6 : storable int2 = true)
    (hc : ∀ x ∈ coms, starts_with '/' '*' x = true ∧ storable x = true)
    (ht : t.head? ≠ some '/')
    (hn0 : 4 ≤ sat1.length) (hn1 : (strtol (sat1.drop 4)).2 = false)
    (hn2 : 1 ≤ (strtol (sat1.drop 4)).1) (hn3 : (strtol (sat1.drop 4)).1 ≤ 85)
    (hs1 : 4 ≤ sys1.length)
    (hsys : ((char_to_satsys (sys1.getD 3 NUL)).orElse
      (fun _ => char_to_satsys (sys1.getD 4 NUL))).isSome = true)
    (hb1 : 14 ≤ base1.length)
    (hbp : (strtod (base1.drop 3)).2 = false) (hbc : (strtod (base1.drop 14)).2 = false) :
    (read_header_sats s pe e2 f line).1 = .returned 0 := by
  obtain ⟨g, q, gg, gr, gd⟩ := ifstream.getline_at f line sat1 _ hg hr a2
  obtain ⟨n, hn⟩ : ∃ n : Nat, (strtol (sat1.drop 4)).1 = (n : Int) :=
    ⟨((strtol (sat1.drop 4)).1).toNat, by omega⟩
  have hcount : (strtol ((store_line line sat1).drop 4)) = ((n : Int), false) := by
    rw [strtol_store_line _ _ 4 hn0]
    exact Prod.ext hn hn1
  have hn85 : n ≤ 85 := by omega
  have hn1' : 1 ≤ n := by omega
  have hsz : to_size_t (to_int ((n : Nat) : Int)) = n := to_size_t_to_int_small n hn85
  have hnot : starts_with '+' ' ' acc1 = false :=
    starts_with_exclusive _ _ _ _ _ a4 (Or.inr (by decide))
  have hnot2 : starts_with '+' '+' sys1 = false :=
    starts_with_exclusive _ _ _ _ _ m1 (Or.inl (by decide))
  obtain ⟨g2, b2, vals, h2, g2g, g2r, g2d⟩ := read_sat_lines_forward n sats acc1 _
    (g.data.length + 1) g line sat1 [] gg gr a1 a3 hnot a5 (text_fuel_line g sats acc1 _ gr)
  obtain ⟨g3, b3, vals3, h3, g3g, g3r, g3d⟩ := read_acc_lines_forward n accs sys1 _
    (g2.data.length + 1) g2 b2 acc1 [] g2g g2r a4 a6 hnot2 k1
    (text_fuel_line g2 accs sys1 _ g2r)
  have he3 : errno_after e2 [false] ≠ ERANGE := by
    rw [errno_after_none _ _ (by simp)]
    exact he
  unfold read_header_sats
  simp only [q, ifstream.good_not_fail _ gg,
    strncmp_eq_two _ _ _ _ (show '+' ≠ NUL by decide) (show ' ' ≠ NUL by decide),
    strncmp_eq_two _ _ _ _ (show '+' ≠ NUL by decide) (show '+' ≠ NUL by decide),
    a1, Bool.not_true, Bool.or_self, Bool.false_eq_true, if_false, hcount, hsz]
  rw [if_neg (by simpa [sats_max_num] using hn85),
    if_neg (by simpa using sat_lines_small n hn1' hn85)]
  simp only [h2, Bool.false_eq_true, if_false,
    strncmp_eq_two _ _ _ _ (show '+' ≠ NUL by decide) (show '+' ≠ NUL by decide), a4,
    Bool.not_true, h3]
  exact read_header_tail_accepts _ pe _ g3 b3 sys1 sys2 base1 base2 int1 int2 coms t g3g g3r he3
    m1 m2 m3 m4 m5 m6 k2 k3 k4 k5 k6 hc ht hs1 hsys hb1 hbp hbc

theorem header_text.text_eq (h : header_text) :
    h.text = h.line1 ++ '\n' :: (h.line2 ++ '\n' :: (h.sat_line ++ '\n' ::
      (text_of_lines h.more_sat_lines ++ (h.acc_line ++ '\n' ::
        (text_of_lines h.more_acc_lines ++ (h.sys_line1 ++ '\n' :: (h.sys_line2 ++ '\n' ::
          (h.base_line1 ++ '\n' :: (h.base_line2 ++ '\n' :: (h.int_line1 ++ '\n' ::
            (h.int_line2 ++ '\n' :: (text_of_lines h.comments ++ h.data_section)))))))))))) := by
  simp [header_text.text, header_text.lines, text_of_lines, List.flatMap_append,
    List.flatMap_cons, List.append_assoc]

theorem ifstream.seekg0_at (f : ifstream) (h : f.fail = false) :
    f.seekg0.good = true ∧ f.seekg0.rest = f.data ∧ f.seekg0.data = f.data := by
  simp only [ifstream.fail, Bool.or_eq_false_iff] at h
  obtain ⟨h1, h2⟩ := h
  simp [ifstream.seekg0, ifstream.good, ifstream.rest, h1, h2]

theorem takeWhile_append_of_stop {α : Type} (p : α → Bool) (x y : List α)
    (h : ∃ a ∈ x, p a = false) : (x ++ y).takeWhile p = x.takeWhile p := by
  induction x with
  | nil => simp at h
  | cons a r ih =>
    by_cases hp : p a = true
    · obtain ⟨b, hb, hpb⟩ := h
      simp only [List.mem_cons] at hb
      rcases hb with rfl | hb
      · rw [hp] at hpb
        cases hpb
      · simp only [List.cons_append, List.takeWhile_cons, hp, if_true]
        rw [ih ⟨b, hb, hpb⟩]
    · simp [List.takeWhile_cons, hp]

theorem seconds_fit_store_line (b l : List Char) (h23 : 23 ≤ l.length)
    (hb : (l.drop 23).contains ' ' = true) :
    seconds_fit (store_line b l) = seconds_fit l := by
  unfold seconds_fit
  rw [store_line_drop b l 23 h23]
  rw [takeWhile_append_of_stop]
  refine ⟨' ', ?_, by decide⟩
  simpa using hb

/-- The header reader accepts every header in the layout of `header_text`
whose fields are well formed, when the stream has not failed and `errno` is
not `ERANGE` at entry. -/
theorem read_header_accepts (s : sp3) (line0 : List Char) (h : header_text)
    (hd : s.istream.data = h.text) (hf : s.istream.fail = false) (he : s.errno ≠ ERANGE)
    (hl : h.laid_out = true) (hk : h.fields_ok = true) :
    (read_header s line0).1 = .returned 0 := by
  simp only [header_text.laid_out, header_text.lines, Bool.and_eq_true, List.all_append,
    List.all_cons, List.all_nil, Bool.and_true, List.all_eq_true, bne_iff_ne, ne_eq,
    beq_iff_eq] at hl
  simp only [header_text.fields_ok, header_text.line1_ok, Bool.and_eq_true, decide_eq_true_eq,
    Bool.not_eq_true'] at hk
  obtain ⟨⟨⟨⟨⟨⟨⟨⟨⟨⟨⟨⟨⟨⟨⟨⟨⟨⟨⟨k1, k2, k3⟩, ks⟩, k4⟩, ka⟩, k5, k6, k7, k8, k9, k10⟩, kc⟩, hc1⟩,
    a1⟩, a2⟩, a4⟩, a5⟩, m1⟩, m2⟩, m3⟩, m4⟩, m5⟩, m6⟩, mc⟩, ht⟩ := hl
  obtain ⟨⟨⟨⟨⟨⟨⟨⟨⟨⟨⟨⟨⟨⟨⟨⟨⟨⟨⟨⟨⟨⟨⟨⟨⟨n32, e3⟩, e8⟩, e11⟩, e14⟩, e17⟩, e20⟩, e32⟩, hfit⟩, hblank⟩, _⟩,
    n24⟩,
    e24⟩, hint⟩, _⟩, _⟩, _⟩, hn0⟩, hn1⟩, hn2⟩, hn3⟩, hs1⟩, hsys⟩, hb1⟩, hbp⟩, hbc⟩ := hk
  obtain ⟨g0, r0, d0⟩ := ifstream.seekg0_at s.istream hf
  rw [hd, header_text.text_eq] at r0
  obtain ⟨g1, q1, g1g, g1r, g1d⟩ := ifstream.getline_at _ line0 h.line1 _ g0 r0 k1
  obtain ⟨g2, q2, g2g, g2r, g2d⟩ := ifstream.getline_at g1 (store_line line0 h.line1) h.line2 _
    g1g g1r k2
  have hno : errno_after s.errno [(strtol (h.line1.drop 3)).2, (strtol (h.line1.drop 8)).2,
      (strtol (h.line1.drop 11)).2, (strtol (h.line1.drop 14)).2, (strtol (h.line1.drop 17)).2,
      (strtod (h.line1.drop 20)).2, (strtol (h.line1.drop 32)).2] = s.errno :=
    errno_after_none _ _ (by simp [e3, e8, e11, e14, e17, e20, e32])
  have hno2 : errno_after s.errno [(strtod (h.line2.drop 24)).2] = s.errno :=
    errno_after_none _ _ (by simp [e24])
  unfold read_header
  simp only [q1, ifstream.good_not_fail _ g1g, byte_at_store_line _ _ 1 (by omega : 1 ≤ h.line1.length),
    hc1, bne_self_eq_false, Bool.or_self, Bool.false_eq_true, if_false,
    strtol_store_line _ _ 3 (by omega : 3 ≤ h.line1.length),
    strtol_store_line _ _ 8 (by omega : 8 ≤ h.line1.length),
    strtol_store_line _ _ 11 (by omega : 11 ≤ h.line1.length),
    strtol_store_line _ _ 14 (by omega : 14 ≤ h.line1.length),
    strtol_store_line _ _ 17 (by omega : 17 ≤ h.line1.length),
    strtod_store_line _ _ 20 (by omega : 20 ≤ h.line1.length),
    strtol_store_line _ _ 32 (by omega : 32 ≤ h.line1.length),
    hno, he, seconds_fit_store_line _ _ (by omega : 23 ≤ h.line1.length) hblank, hfit,
    Bool.not_true, q2, ifstream.good_not_fail _ g2g,
    strtod_store_line _ _ 24 n24, hno2, sub_zero, not_lt.mpr hint]
  exact read_header_sats_accepts _ _ _ g2 _ h.sat_line h.acc_line h.sys_line1 h.sys_line2
    h.base_line1 h.base_line2 h.int_line1 h.int_line2 h.more_sat_lines h.more_acc_lines h.comments
    h.data_section g2g g2r he a1 k3 (fun x hx => ⟨a2 x hx, ks x hx⟩) a4 k4
    (fun x hx => ⟨a5 x hx, ka x hx⟩) k5 m1 m2 m3 m4 m5 m6 k6 k7 k8 k9 k10
    (fun x hx => ⟨mc x hx, kc x hx⟩) ht hn0 hn1 hn2 hn3 hs1 hsys hb1 hbp hbc

/-! ## The satellite lines of a declared count, and the point-building loops -/

/-- For a declared count between 1 and 85, `satellite_lines` is the number of
lines of 17 tokens needed, and 5 at most. -/
theorem satellite_lines_needed (n : Nat) (h1 : 1 ≤ n) (h2 : n ≤ 85) :
    satellite_lines (n : Int) = (lines_needed n : Int) ∧ lines_needed n ≤ sats_max_lines := by
  have e : sats_per_line = 17 := by decide
  have e2 : sats_max_lines = 5 := rfl
  unfold satellite_lines lines_needed
  rw [e, e2]
  unfold to_size_t to_int
  omega

/-- On the range from 0 to 1 with the step 0.1 the additions are not exact:
the loops of `main` visit ten latitudes, the last of them `0.9000001`, and
not the latitude 1. -/
theorem float_additions_rounded :
    sample_tenth_range.exact = false ∧
    build_points sample_tenth_range sample_one_lon_range 20
      = some [(20, 0), (20, 13421773 / 134217728), (20, 13421773 / 67108864),
          (20, 5033165 / 16777216), (20, 13421773 / 33554432), (20, 1 / 2),
          (20, 5033165 / 8388608), (20, 2936013 / 4194304), (20, 6710887 / 8388608),
          (20, 1887437 / 2097152)] := by
  decide!

/-- On the descending sample range, from 10 to 0 with the step -2.5, `less`
is the test `f >= from`: the loops of `main` visit the latitude 10 only, and
7.5, which lies between 0 and 10, fails the test. -/
theorem descending_range_stops_at_start :
    build_points sample_descending_range sample_lon_range 10
      = some [(20, 10), (21, 10), (22, 10)] ∧
    sample_descending_range.less (15 / 2) = false ∧
    sample_descending_range.between (15 / 2) := by
  decide!

/-! ## The epoch reader: one decoded record per position record -/

theorem records_between_add (data : List Char) (a b c : Nat) (h1 : a ≤ b) (h2 : b ≤ c) :
    records_between data a c = records_between data a b + records_between data b c := by
  unfold records_between
  have e : List.range' a (c - a) = List.range' a (b - a) ++ List.range' b (c - b) := by
    have := List.range'_append a (b - a) (c - b) 1
    simp only [Nat.one_mul] at this
    rw [show a + (b - a) = b by omega, show c - b + (b - a) = c - a by omega] at this
    exact this.symm
  rw [e, List.countP_append]

theorem records_between_none (data : List Char) (a b : Nat)
    (h : ∀ q, a ≤ q → q < b → record_start data q = false) : records_between data a b = 0 := by
  unfold records_between
  rw [List.countP_eq_zero]
  intro q hq
  rw [List.mem_range'_1] at hq
  rw [h q hq.1 (by omega)]
  simp

theorem records_between_one (data : List Char) (a b : Nat) (hab : a < b)
    (ha : record_start data a = true)
    (h : ∀ q, a < q → q < b → line_start data q = false) : records_between data a b = 1 := by
  rw [records_between_add data a (a + 1) b (by omega) (by omega)]
  rw [records_between_none data (a + 1) b (fun q h1 h2 => by
    simp [record_start, h q (by omega) h2])]
  unfold records_between
  simp [ha]

theorem records_between_other (data : List Char) (a b : Nat)
    (ha : data.getD a NUL ≠ 'P')
    (h : ∀ q, a < q → q < b → line_start data q = false) : records_between data a b = 0 := by
  apply records_between_none
  intro q h1 h2
  rcases Nat.eq_or_lt_of_le h1 with e | e
  · subst e
    have : (data.getD a NUL == 'P') = false := by simpa using ha
    simp only [record_start, this, Bool.and_false]
  · simp [record_start, h q e h2]

theorem prefix_append_drop {α : Type} (a r : List α) (h : a <+: r) :
    a ++ r.drop a.length = r := by
  obtain ⟨t, rfl⟩ := h
  simp

theorem line_chars_append (r : List Char) (k : Nat) :
    (r.takeWhile (fun c => c != '\n')).take k
      ++ r.drop ((r.takeWhile (fun c => c != '\n')).take k).length = r :=
  prefix_append_drop _ _ ((List.take_prefix _ _).trans (List.takeWhile_prefix _))

/-- The bytes of the file that a `getline` stores are those at the read
position. -/
theorem ifstream.line_chars_getD (f : ifstream) (n i : Nat) (h : i < (f.line_chars n).length) :
    f.data.getD (f.pos + i) NUL = (f.line_chars n).getD i NUL ∧
    f.data.getD (f.pos + i) NUL ≠ '\n' := by
  have e := line_chars_append f.rest (n - 1)
  have e1 : f.data.getD (f.pos + i) NUL = f.rest.getD i NUL := by
    simp [ifstream.rest, List.getD_eq_getElem?_getD, List.getElem?_drop]
  have e2 : f.rest.getD i NUL = (f.line_chars n).getD i NUL := by
    conv_lhs => rw [← e]
    exact List.getD_append _ _ _ _ h
  refine ⟨e1.trans e2, ?_⟩
  rw [e1, e2, List.getD_eq_getElem _ _ h]
  apply takeWhile_no_newline f.rest
  exact List.mem_of_mem_take (List.getElem_mem _)

/-- The bytes a `getline` that does not fail goes over: no line starts behind
the first of them; the first byte of the stored line, unless it is the
terminator, is the byte at the read position; and a stream that is good
afterwards stands behind a newline. -/
theorem ifstream.getline_region (f : ifstream) (buf : List Char) (n : Nat)
    (h : (f.getline buf n).1.fail = false) :
    (∀ q, f.pos < q → q < (f.getline buf n).1.pos → line_start f.data q = false) ∧
    (byte_at (f.getline buf n).2 0 ≠ NUL →
      byte_at (f.getline buf n).2 0 = f.data.getD f.pos NUL) ∧
    ((f.getline buf n).1.good = true →
      0 < (f.getline buf n).1.pos ∧
      f.data.getD ((f.getline buf n).1.pos - 1) NUL = '\n') := by
  obtain ⟨hg, _, _, _, _⟩ := ifstream.getline_progress f buf n h
  obtain ⟨he, hf, hb⟩ := f.good_bits hg
  have hbuf := ifstream.getline_buf f buf n hg
  have inner : ∀ q, f.pos < q → q < f.pos + (f.line_chars n).length + 1 →
      line_start f.data q = false := by
    intro q h1 h2
    have := (ifstream.line_chars_getD f n (q - 1 - f.pos) (by omega)).2
    rw [show f.pos + (q - 1 - f.pos) = q - 1 by omega] at this
    have hq : (q == 0) = false := by simp; omega
    have hn : (f.data.getD (q - 1) NUL == '\n') = false := by simpa using this
    simp only [line_start, hq, hn, Bool.or_self]
  have first : byte_at (f.getline buf n).2 0 ≠ NUL →
      byte_at (f.getline buf n).2 0 = f.data.getD f.pos NUL := by
    intro hne
    rw [hbuf] at hne ⊢
    have hl := byte_at_store_line_ne_nul _ _ hne
    have := (ifstream.line_chars_getD f n 0 hl).1
    rw [Nat.add_zero] at this
    rw [this, byte_at_store_line _ _ 0 (Nat.zero_le _)]
  refine ⟨?_, first, ?_⟩
  · intro q h1 h2
    apply inner q h1
    cases hd : f.rest.drop (f.line_chars n).length with
    | nil =>
      have e : (f.getline buf n).1.pos = f.pos + (f.line_chars n).length := by
        unfold ifstream.getline
        simp only [hg, Bool.not_true, Bool.false_eq_true, if_false, hd]
      omega
    | cons c t =>
      have e : (f.getline buf n).1.pos ≤ f.pos + (f.line_chars n).length + 1 := by
        unfold ifstream.getline
        simp only [hg, Bool.not_true, Bool.false_eq_true, if_false, hd]
        split <;> simp
      omega
  · intro hgood
    cases hd : f.rest.drop (f.line_chars n).length with
    | nil =>
      exfalso
      have e : (f.getline buf n).1.eofbit = true := by
        unfold ifstream.getline
        simp only [hg, Bool.not_true, Bool.false_eq_true, if_false, hd]
      have := ((f.getline buf n).1.good_bits hgood).1
      rw [e] at this
      cases this
    | cons c t =>
      by_cases hc : (c == '\n') = true
      · have e : (f.getline buf n).1.pos = f.pos + (f.line_chars n).length + 1 := by
          unfold ifstream.getline
          simp only [hg, Bool.not_true, Bool.false_eq_true, if_false, hd, hc, if_true]
        rw [e]
        refine ⟨by omega, ?_⟩
        have hc' : c = '\n' := by simpa using hc
        have e2 : f.data.getD (f.pos + (f.line_chars n).length) NUL = c := by
          have : (f.rest.drop (f.line_chars n).length).getD 0 NUL = c := by rw [hd]; rfl
          rw [← this]
          simp [ifstream.rest, List.getD_eq_getElem?_getD, List.getElem?_drop]
        rw [show f.pos + (f.line_chars n).length + 1 - 1 = f.pos + (f.line_chars n).length by omega,
          e2, hc']
      · exfalso
        have e : (f.getline buf n).1.failbit = true := by
          unfold ifstream.getline
          simp only [hg, Bool.not_true, Bool.false_eq_true, if_false, hd, hc]
        simp [ifstream.fail, e] at h

theorem ifstream.peek_some (f : ifstream) (c : Char) (h : f.peek.2 = some c) :
    f.good = true ∧ f.data.getD f.pos NUL = c ∧ f.peek.1 = f := by
  unfold ifstream.peek at h ⊢
  by_cases hg : f.good = true
  · simp only [hg, Bool.not_true, Bool.false_eq_true, if_false] at h ⊢
    cases hr : f.rest with
    | nil => simp [hr] at h
    | cons a t =>
      simp only [hr, Option.some.injEq] at h ⊢
      subst h
      refine ⟨trivial, ?_, trivial⟩
      have : f.rest.getD 0 NUL = a := by rw [hr]; rfl
      rw [← this]
      simp [ifstream.rest, List.getD_eq_getElem?_getD, List.getElem?_drop]
  · simp [hg] at h

theorem ifstream.behind_newline_at_line (f : ifstream) (h : f.behind_newline) : f.at_line := by
  intro hp
  obtain ⟨hg, _, _⟩ := ifstream.peek_some f 'P' hp
  obtain ⟨h1, h2⟩ := h hg
  simp only [line_start, h2, beq_self_eq_true, Bool.or_true]

/-- One round of the loop over the following records that reads a
correlation record with status 0: no position record starts at the bytes it
goes over, and the stream ends behind a newline when it is good. -/
theorem follow_step_corr_count (s : sp3) (hget : (s.istream.get 3).1.fail = false)
    (h1 : byte_at (s.istream.get 3).2 1 ≠ NUL)
    (h0 : (read_next_corr { s with istream := (s.istream.get 3).1.unget.unget }).1 = 0) :
    (read_next_corr { s with istream := (s.istream.get 3).1.unget.unget }).2.istream.behind_newline ∧
    records_between s.istream.data s.istream.pos
      (read_next_corr { s with istream := (s.istream.get 3).1.unget.unget }).2.istream.pos = 0 := by
  obtain ⟨hg, hcs, hne, hd, hp, hf, hb⟩ := ifstream.get_progress s.istream hget
  have hlen : (s.istream.line_chars 3).length = 2 := by
    have := ifstream.line_chars_length_le s.istream 3
    have := byte_at_one_length _ (hcs ▸ h1)
    omega
  rw [hlen] at hp
  have hu := ifstream.unget_unget_two s.istream _ hf hb hd hp
  obtain ⟨hs, hok⟩ := read_next_corr_stream { s with istream := (s.istream.get 3).1.unget.unget }
  have hnf := hok h0
  have hE : byte_at ((s.istream.get 3).1.unget.unget.getline s.corr_line MAX_HEADER_CHARS).2 0
      = 'E' := by
    unfold read_next_corr at h0
    simp only [] at h0
    split at h0
    · simp at h0
    · rename_i hc
      simp only [Bool.or_eq_true, not_or, Bool.not_eq_true, bne_eq_false_iff_eq] at hc
      exact hc.2
  rw [hs]
  simp only [hu] at hnf hE ⊢
  obtain ⟨r1, r2, r3⟩ := ifstream.getline_region _ _ _ hnf
  obtain ⟨_, hd2, _, _, _⟩ := ifstream.getline_progress _ _ _ hnf
  simp only at r1 r2 r3 hd2
  refine ⟨?_, ?_⟩
  · intro hgood
    have := r3 hgood
    rw [hd2]
    exact this
  · apply records_between_other _ _ _ _ r1
    rw [← r2 (by rw [hE]; decide), hE]
    decide

/-- One round of the loop over the following records that reads a velocity
record with status 0, from a stream behind a newline: no position record
starts at the bytes it goes over, and the stream ends behind a newline when
it is good. -/
theorem follow_step_vel_count (s : sp3) (sat : satellite) (st : satellite_state)
    (clk : satellite_clock) (hA : s.istream.behind_newline)
    (hget : (s.istream.get 3).1.fail = false)
    (h0 : (read_next_vel { s with istream := (s.istream.get 3).1.unget.unget } sat st clk).1
      = 0) :
    (read_next_vel { s with istream := (s.istream.get 3).1.unget.unget } sat st
      clk).2.2.2.istream.behind_newline ∧
    records_between s.istream.data s.istream.pos
      (read_next_vel { s with istream := (s.istream.get 3).1.unget.unget } sat st
        clk).2.2.2.istream.pos = 0 := by
  obtain ⟨hg, hcs, hne, hd, hp, hf, hb⟩ := ifstream.get_progress s.istream hget
  obtain ⟨hpos, hnl⟩ := hA hg
  obtain ⟨hs, hok⟩ := read_next_vel_stream { s with istream := (s.istream.get 3).1.unget.unget }
    sat st clk
  obtain ⟨hnf, hV⟩ := hok h0
  have hlen1 := ifstream.line_chars_length_le s.istream 3
  have hlen0 : 0 < (s.istream.line_chars 3).length := List.length_pos.mpr hne
  rw [hs]
  by_cases h2 : (s.istream.line_chars 3).length = 2
  · rw [h2] at hp
    have hu := ifstream.unget_unget_two s.istream _ hf hb hd hp
    simp only [hu] at hnf hV ⊢
    obtain ⟨r1, r2, r3⟩ := ifstream.getline_region _ _ _ hnf
    obtain ⟨_, hd2, _, _, _⟩ := ifstream.getline_progress _ _ _ hnf
    simp only at r1 r2 r3 hd2
    refine ⟨?_, ?_⟩
    · intro hgood
      have := r3 hgood
      rw [hd2]
      exact this
    · apply records_between_other _ _ _ _ r1
      rw [← r2 (by rw [hV]; decide), hV]
      decide
  · exfalso
    have h1 : (s.istream.line_chars 3).length = 1 := by omega
    rw [h1] at hp
    rcases ifstream.unget_unget_one s.istream _ hf hb hd hp with ⟨hz, _⟩ | ⟨_, hu⟩
    · omega
    · simp only [hu] at hnf hV
      obtain ⟨_, r2, _⟩ := ifstream.getline_region _ _ _ hnf
      simp only at r2
      have := r2 (by rw [hV]; decide)
      rw [hV, hnl] at this
      exact absurd this (by decide)

/-- The loop over the following records, from a stream behind a newline,
when it ends with status 0: no position record starts at the bytes it goes
over, and when it leaves a `P` as the next byte, the `P` starts a line. -/
theorem follow_records_count (fuel : Nat) (s : sp3) (sat : satellite) (st : satellite_state)
    (clk : satellite_clock) (r : record_result) (p0 : Nat)
    (h : follow_records fuel s sat st clk = some r) (h0 : r.status = 0)
    (hA : s.istream.behind_newline) (hp0 : p0 < s.istream.pos) :
    records_between s.istream.data p0 r.self.istream.pos
      = records_between s.istream.data p0 s.istream.pos ∧
    r.self.istream.at_line ∧ r.self.istream.data = s.istream.data := by
  induction fuel generalizing s st clk with
  | zero => simp [follow_records] at h
  | succ k ih =>
    unfold follow_records at h
    simp only [] at h
    by_cases hget : (s.istream.get 3).1.fail = true
    · rw [if_pos hget] at h
      simp only [Option.some.injEq] at h
      subst h
      obtain ⟨hd, hp⟩ := ifstream.get_fail _ hget
      refine ⟨by simp only [hp], ?_, hd⟩
      intro hpk
      obtain ⟨hg, _, _⟩ := ifstream.peek_some _ _ hpk
      have := ifstream.good_not_fail _ hg
      simp only at this
      rw [hget] at this
      cases this
    · rw [if_neg hget] at h
      have hget2 : (s.istream.get 3).1.fail = false := by simpa using hget
      obtain ⟨hg, hcs, hne, hd, hp, hf, hb⟩ := ifstream.get_progress s.istream hget2
      obtain ⟨hpos, hnl⟩ := hA hg
      split at h
      · rename_i hE
        split at h
        · simp only [Option.some.injEq] at h
          subst h
          rename_i hne0
          exact absurd h0 hne0
        · rename_i hz
          have hz : (read_next_corr { s with istream := (s.istream.get 3).1.unget.unget }).1
              = 0 := by simpa using hz
          have h1 : byte_at (s.istream.get 3).2 1 ≠ NUL := by
            simp only [Bool.and_eq_true, Bool.or_eq_true, beq_iff_eq] at hE
            rcases hE.2 with hP | hV
            · rw [hP]; decide
            · rw [hV]; decide
          obtain ⟨hd3, hp3, _⟩ := follow_step_corr s hget2 h1 hz
          obtain ⟨c1, c2⟩ := follow_step_corr_count s hget2 h1 hz
          obtain ⟨i1, i2, i3⟩ := ih _ _ _ h c1 (by omega)
          rw [hd3] at i1
          refine ⟨?_, i2, i3.trans hd3⟩
          rw [i1, records_between_add _ p0 s.istream.pos _ (by omega) (by omega), c2]
          rfl
      · split at h
        · split at h
          · simp only [Option.some.injEq] at h
            subst h
            rename_i hne0
            exact absurd h0 hne0
          · rename_i hz
            have hz : (read_next_vel { s with istream := (s.istream.get 3).1.unget.unget } sat
                st clk).1 = 0 := by simpa using hz
            obtain ⟨hd3, hp3, _⟩ := follow_step_vel s sat st clk hget2 hz
            obtain ⟨c1, c2⟩ := follow_step_vel_count s sat st clk hA hget2 hz
            obtain ⟨i1, i2, i3⟩ := ih _ _ _ h c1 (by omega)
            rw [hd3] at i1
            refine ⟨?_, i2, i3.trans hd3⟩
            rw [i1, records_between_add _ p0 s.istream.pos _ (by omega) (by omega), c2]
            rfl
        · simp only [Option.some.injEq] at h
          subst h
          have hlen1 := ifstream.line_chars_length_le s.istream 3
          have hlen0 : 0 < (s.istream.line_chars 3).length := List.length_pos.mpr hne
          by_cases h2 : (s.istream.line_chars 3).length = 2
          · rw [h2] at hp
            have hu := ifstream.unget_unget_two s.istream _ hf hb hd hp
            simp only [hu]
            refine ⟨trivial, ?_, trivial⟩
            apply ifstream.behind_newline_at_line
            intro _
            exact ⟨hpos, hnl⟩
          · have h1 : (s.istream.line_chars 3).length = 1 := by omega
            rw [h1] at hp
            rcases ifstream.unget_unget_one s.istream _ hf hb hd hp with ⟨hz, _⟩ | ⟨_, hu⟩
            · omega
            · simp only [hu]
              have hP : s.istream.data.getD (s.istream.pos - 1) NUL ≠ 'P' := by
                rw [hnl]; decide
              refine ⟨?_, ?_, trivial⟩
              · have e := records_between_add s.istream.data p0 (s.istream.pos - 1)
                  s.istream.pos (by omega) (by omega)
                rw [e, records_between_other _ _ _ hP (fun q a b => by omega)]
                rfl
              · intro hpk
                obtain ⟨_, hc, _⟩ := ifstream.peek_some _ _ hpk
                exact absurd hc hP

/-- A call of `read_next_pos_n_clock` that returns 0, from a stream whose
next byte starts a line: exactly one position record starts at the bytes it
goes over, the one it decodes; and when it leaves a `P` as the next byte, the
`P` starts a line. -/
theorem read_next_pos_n_clock_count (s : sp3) (sat : satellite) (st : satellite_state)
    (clk : satellite_clock) (r : record_result) (p0 : Nat)
    (h : read_next_pos_n_clock s sat st clk = some r) (h0 : r.status = 0)
    (hl : line_start s.istream.data s.istream.pos = true) (hp0 : p0 ≤ s.istream.pos) :
    records_between s.istream.data p0 r.self.istream.pos
      = records_between s.istream.data p0 s.istream.pos + 1 ∧
    r.self.istream.at_line ∧ r.self.istream.data = s.istream.data ∧
    s.istream.pos < r.self.istream.pos := by
  obtain ⟨_, hprog, _⟩ := read_next_pos_n_clock_progress s sat st clk r h h0
  unfold read_next_pos_n_clock at h
  simp only [] at h
  split at h
  · simp only [Option.some.injEq] at h
    subst h
    simp at h0
  · rename_i hc
    simp only [Bool.or_eq_true, not_or, Bool.not_eq_true, bne_eq_false_iff_eq] at hc
    obtain ⟨hnf, hP⟩ := hc
    obtain ⟨r1, r2, r3⟩ := ifstream.getline_region _ _ _ hnf
    obtain ⟨_, hd2, _, hp2, _⟩ := ifstream.getline_progress _ _ _ hnf
    have hPd : s.istream.data.getD s.istream.pos NUL = 'P' := by
      rw [← r2 (by rw [hP]; decide), hP]
    have hrec : record_start s.istream.data s.istream.pos = true := by
      simp only [record_start, hl, hPd, beq_self_eq_true, Bool.and_self]
    have hone := records_between_one _ _ _ hp2 hrec r1
    have hA : (s.istream.getline s.pos_line MAX_HEADER_CHARS).1.behind_newline := by
      intro hgood
      have := r3 hgood
      rw [hd2]
      exact this
    have key : ∀ (e : Int) (sat1 : satellite) (st1 : satellite_state) (clk1 : satellite_clock),
        follow_records (s.istream.data.length + 1)
          { s with istream := (s.istream.getline s.pos_line MAX_HEADER_CHARS).1,
                   pos_line := (s.istream.getline s.pos_line MAX_HEADER_CHARS).2,
                   errno := e } sat1 st1 clk1 = some r →
        records_between s.istream.data p0 r.self.istream.pos
          = records_between s.istream.data p0 s.istream.pos + 1 ∧
        r.self.istream.at_line ∧ r.self.istream.data = s.istream.data := by
      intro e sat1 st1 clk1 hf
      obtain ⟨i1, i2, i3⟩ := follow_records_count _ _ _ _ _ r p0 hf h0 hA (by simp only; omega)
      simp only [hd2] at i1 i3
      refine ⟨?_, i2, i3⟩
      rw [i1, records_between_add _ p0 s.istream.pos _ hp0 (by omega), hone]
    split at h
    · simp only [Option.some.injEq] at h
      subst h
      simp at h0
    · split at h
      · simp only [Option.some.injEq] at h
        subst h
        simp at h0
      · obtain ⟨k1, k2, k3⟩ := key _ _ _ _ h
        exact ⟨k1, k2, k3, hprog⟩

theorem read_next_epoch_header_line (s : sp3) (date : datetime_ms)
    (h : (read_next_epoch_header s date).1 = 0) :
    (read_next_epoch_header s date).2.2.istream
      = (s.istream.getline s.epoch_line MAX_HEADER_CHARS).1 ∧
    (s.istream.getline s.epoch_line MAX_HEADER_CHARS).1.fail = false ∧
    byte_at (s.istream.getline s.epoch_line MAX_HEADER_CHARS).2 0 = '*' := by
  unfold read_next_epoch_header at h ⊢
  simp only [] at h ⊢
  split at h
  · split at h <;> simp at h
  · rename_i hc
    simp only [Bool.or_eq_true, not_or, Bool.not_eq_true, bne_eq_false_iff_eq] at hc
    rw [if_neg (by simp [hc])]
    split at h
    · simp at h
    · rename_i he
      rw [if_neg he]
      exact ⟨rfl, hc.1, hc.2⟩

/-- The loop over the records, when it ends with status 0, from a stream
whose next byte, when it is a `P`, starts a line: it appends one state per
position record that starts at the bytes it goes over. -/
theorem read_records_records (fuel : Nat) (s : sp3) (epoch : datetime_ms) (sat : satellite)
    (state : satellite_state) (clock : satellite_clock) (sats : List satellite)
    (states : List satellite_state) (clocks : List satellite_clock) (r : epoch_result)
    (p0 : Nat)
    (h : read_records fuel s epoch sat state clock sats states clocks = some r)
    (h0 : r.status = 0) (hJ : s.istream.at_line) (hp0 : p0 ≤ s.istream.pos) :
    r.states.length + records_between s.istream.data p0 s.istream.pos
      = states.length + records_between s.istream.data p0 r.self.istream.pos := by
  induction fuel generalizing s sat state clock sats states clocks with
  | zero => simp [read_records] at h
  | succ k ih =>
    unfold read_records at h
    simp only [] at h
    obtain ⟨pd, pp⟩ := ifstream.peek_stream s.istream
    split at h
    · rename_i hP
      obtain ⟨_, _, hpk⟩ := ifstream.peek_some _ _ hP
      split at h
      · simp at h
      · rename_i r1 hr1
        split at h
        · simp only [Option.some.injEq] at h
          subst h
          simp at h0
        · rename_i hz
          have hz : r1.status = 0 := by simpa using hz
          have hl := hJ hP
          obtain ⟨c1, c2, c3, c4⟩ := read_next_pos_n_clock_count _ sat state clock r1 p0 hr1 hz
            (by simp only [hpk]; exact hl) (by simp only [hpk]; exact hp0)
          simp only [hpk] at c1 c3 c4
          have i := ih _ _ _ _ _ _ _ h c2 (by omega)
          rw [c3, c1] at i
          simp only [List.length_append, List.length_singleton] at i
          omega
    · simp only [Option.some.injEq] at h
      subst h
      simp only [pp]

/-- A call of `get_next_epoch` that returns 0 appends one state per position
record that starts at the bytes it goes over. -/
theorem get_next_epoch_records (s : sp3) (epoch : datetime_ms) (sats : List satellite)
    (states : List satellite_state) (clocks : List satellite_clock) (r : epoch_result)
    (h : get_next_epoch s epoch sats states clocks = some r) (h0 : r.status = 0) :
    r.states.length
      = states.length + records_between s.istream.data s.istream.pos r.self.istream.pos := by
  unfold get_next_epoch at h
  simp only [] at h
  split at h
  · simp only [Option.some.injEq] at h
    subst h
    simp at h0
  · split at h
    · simp only [Option.some.injEq] at h
      subst h
      rename_i hne
      exact absurd h0 hne
    · rename_i hz
      have hz : (read_next_epoch_header s epoch).1 = 0 := by simpa using hz
      obtain ⟨e1, e2, e3⟩ := read_next_epoch_header_line s epoch hz
      obtain ⟨r1, r2, r3⟩ := ifstream.getline_region _ _ _ e2
      obtain ⟨_, hd2, _, hp2, _⟩ := ifstream.getline_progress _ _ _ e2
      have hstar : s.istream.data.getD s.istream.pos NUL ≠ 'P' := by
        rw [← r2 (by rw [e3]; decide), e3]
        decide
      have hnone := records_between_other _ _ _ hstar r1
      have hA : (read_next_epoch_header s epoch).2.2.istream.behind_newline := by
        rw [e1]
        intro hgood
        have := r3 hgood
        rw [hd2]
        exact this
      have i := read_records_records _ _ _ _ _ _ _ _ _ r s.istream.pos h h0
        (ifstream.behind_newline_at_line _ hA) (by rw [e1]; omega)
      rw [e1, hd2, hnone] at i
      omega

theorem records_between_mono (data : List Char) (a b c : Nat) (h1 : a ≤ b) (h2 : b ≤ c) :
    records_between data a b ≤ records_between data a c := by
  rw [records_between_add data a b c h1 h2]
  omega

/-- Where the loop over the following records leaves the stream, whatever its
status: in the same file, at most one byte before where it started. -/
theorem follow_records_pos_any (fuel : Nat) (s : sp3) (sat : satellite) (st : satellite_state)
    (clk : satellite_clock) (r : record_result)
    (h : follow_records fuel s sat st clk = some r) :
    r.self.istream.data = s.istream.data ∧ s.istream.pos ≤ r.self.istream.pos + 1 := by
  induction fuel generalizing s st clk with
  | zero => simp [follow_records] at h
  | succ k ih =>
    unfold follow_records at h
    simp only [] at h
    by_cases hget : (s.istream.get 3).1.fail = true
    · rw [if_pos hget] at h
      simp only [Option.some.injEq] at h
      subst h
      obtain ⟨hd, hp⟩ := ifstream.get_fail _ hget
      exact ⟨hd, by simp only [hp]; omega⟩
    · rw [if_neg hget] at h
      have hget2 : (s.istream.get 3).1.fail = false := by simpa using hget
      obtain ⟨hg, hcs, hne, hd, hp, hf, hb⟩ := ifstream.get_progress s.istream hget2
      obtain ⟨u1, u2⟩ := ifstream.unget_unget_pos _ hf hb
      have hpos : 0 < (s.istream.line_chars 3).length := List.length_pos.mpr hne
      have hc := (read_next_corr_stream { s with istream := (s.istream.get 3).1.unget.unget }).1
      have hv := (read_next_vel_stream { s with istream := (s.istream.get 3).1.unget.unget }
        sat st clk).1
      have gp := ifstream.getline_pos_le (s.istream.get 3).1.unget.unget s.corr_line
        MAX_HEADER_CHARS
      have gd := ifstream.getline_data (s.istream.get 3).1.unget.unget s.corr_line
        MAX_HEADER_CHARS
      have gp2 := ifstream.getline_pos_le (s.istream.get 3).1.unget.unget s.vel_line
        MAX_HEADER_CHARS
      have gd2 := ifstream.getline_data (s.istream.get 3).1.unget.unget s.vel_line
        MAX_HEADER_CHARS
      simp only at hc hv
      split at h
      · rename_i hE
        split at h
        · simp only [Option.some.injEq] at h
          subst h
          simp only [hc]
          exact ⟨gd.trans (u1.trans hd), by omega⟩
        · rename_i hz
          have hz : (read_next_corr { s with istream := (s.istream.get 3).1.unget.unget }).1
              = 0 := by simpa using hz
          have h1 : byte_at (s.istream.get 3).2 1 ≠ NUL := by
            simp only [Bool.and_eq_true, Bool.or_eq_true, beq_iff_eq] at hE
            rcases hE.2 with hP | hV
            · rw [hP]; decide
            · rw [hV]; decide
          obtain ⟨hd3, hp3, _⟩ := follow_step_corr s hget2 h1 hz
          obtain ⟨i1, i2⟩ := ih _ _ _ h
          exact ⟨i1.trans hd3, by omega⟩
      · split at h
        · split at h
          · simp only [Option.some.injEq] at h
            subst h
            simp only [hv]
            exact ⟨gd2.trans (u1.trans hd), by omega⟩
          · rename_i hz
            have hz : (read_next_vel { s with istream := (s.istream.get 3).1.unget.unget } sat
                st clk).1 = 0 := by simpa using hz
            obtain ⟨hd3, hp3, _⟩ := follow_step_vel s sat st clk hget2 hz
            obtain ⟨i1, i2⟩ := ih _ _ _ h
            exact ⟨i1.trans hd3, by omega⟩
        · simp only [Option.some.injEq] at h
          subst h
          refine ⟨u1.trans hd, ?_⟩
          simp only
          omega

/-- A call of `read_next_pos_n_clock` leaves the stream in the same file, not
before where it started, whatever its status. -/
theorem read_next_pos_n_clock_pos_any (s : sp3) (sat : satellite) (st : satellite_state)
    (clk : satellite_clock) (r : record_result)
    (h : read_next_pos_n_clock s sat st clk = some r) :
    r.self.istream.data = s.istream.data ∧ s.istream.pos ≤ r.self.istream.pos := by
  have gp := ifstream.getline_pos_le s.istream s.pos_line MAX_HEADER_CHARS
  have gd := ifstream.getline_data s.istream s.pos_line MAX_HEADER_CHARS
  unfold read_next_pos_n_clock at h
  simp only [] at h
  split at h
  · simp only [Option.some.injEq] at h
    subst h
    exact ⟨gd, gp⟩
  · rename_i hc
    simp only [Bool.or_eq_true, not_or, Bool.not_eq_true, bne_eq_false_iff_eq] at hc
    obtain ⟨_, _, _, hp2, _⟩ := ifstream.getline_progress _ _ _ hc.1
    split at h
    · simp only [Option.some.injEq] at h
      subst h
      exact ⟨gd, gp⟩
    · split at h
      · simp only [Option.some.injEq] at h
        subst h
        exact ⟨gd, gp⟩
      · obtain ⟨i1, i2⟩ := follow_records_pos_any _ _ _ _ _ _ h
        simp only at i1 i2
        exact ⟨i1.trans gd, by omega⟩

/-- The loop over the records, from a stream whose next byte, when it is a
`P`, starts a line: whatever its status, it does not append more states than
position records start at the bytes it goes over. -/
theorem read_records_records_le (fuel : Nat) (s : sp3) (epoch : datetime_ms) (sat : satellite)
    (state : satellite_state) (clock : satellite_clock) (sats : List satellite)
    (states : List satellite_state) (clocks : List satellite_clock) (r : epoch_result)
    (p0 : Nat)
    (h : read_records fuel s epoch sat state clock sats states clocks = some r)
    (hJ : s.istream.at_line) (hp0 : p0 ≤ s.istream.pos) :
    r.states.length + records_between s.istream.data p0 s.istream.pos
      ≤ states.length + records_between s.istream.data p0 r.self.istream.pos ∧
    s.istream.pos ≤ r.self.istream.pos := by
  induction fuel generalizing s sat state clock sats states clocks with
  | zero => simp [read_records] at h
  | succ k ih =>
    unfold read_records at h
    simp only [] at h
    obtain ⟨pd, pp⟩ := ifstream.peek_stream s.istream
    split at h
    · rename_i hP
      obtain ⟨_, _, hpk⟩ := ifstream.peek_some _ _ hP
      split at h
      · simp at h
      · rename_i r1 hr1
        obtain ⟨a1, a2⟩ := read_next_pos_n_clock_pos_any _ _ _ _ _ hr1
        simp only [hpk] at a1 a2
        split at h
        · simp only [Option.some.injEq] at h
          subst h
          simp only
          exact ⟨Nat.add_le_add_left (records_between_mono _ _ _ _ hp0 a2) _, a2⟩
        · rename_i hz
          have hz : r1.status = 0 := by simpa using hz
          have hl := hJ hP
          obtain ⟨c1, c2, c3, c4⟩ := read_next_pos_n_clock_count _ sat state clock r1 p0 hr1 hz
            (by simp only [hpk]; exact hl) (by simp only [hpk]; exact hp0)
          simp only [hpk] at c1 c3 c4
          obtain ⟨i, j⟩ := ih _ _ _ _ _ _ _ h c2 (by omega)
          rw [c3, c1] at i
          simp only [List.length_append, List.length_singleton] at i
          exact ⟨by omega, by omega⟩
    · simp only [Option.some.injEq] at h
      subst h
      simp only [pp]
      exact ⟨le_refl _, le_refl _⟩

/-- A call of `get_next_epoch` on a good stream does not append more states
than position records start at the bytes it goes over, whatever its
status. -/
theorem get_next_epoch_records_le (s : sp3) (epoch : datetime_ms) (sats : List satellite)
    (states : List satellite_state) (clocks : List satellite_clock) (r : epoch_result)
    (h : get_next_epoch s epoch sats states clocks = some r) :
    r.states.length
      ≤ states.length + records_between s.istream.data s.istream.pos r.self.istream.pos := by
  unfold get_next_epoch at h
  simp only [] at h
  split at h
  · simp only [Option.some.injEq] at h
    subst h
    simp
  · split at h
    · simp only [Option.some.injEq] at h
      subst h
      simp
    · rename_i hz
      have hz : (read_next_epoch_header s epoch).1 = 0 := by simpa using hz
      obtain ⟨e1, e2, e3⟩ := read_next_epoch_header_line s epoch hz
      obtain ⟨r1, r2, r3⟩ := ifstream.getline_region _ _ _ e2
      obtain ⟨_, hd2, _, hp2, _⟩ := ifstream.getline_progress _ _ _ e2
      have hstar : s.istream.data.getD s.istream.pos NUL ≠ 'P' := by
        rw [← r2 (by rw [e3]; decide), e3]
        decide
      have hnone := records_between_other _ _ _ hstar r1
      have hA : (read_next_epoch_header s epoch).2.2.istream.behind_newline := by
        rw [e1]
        intro hgood
        have := r3 hgood
        rw [hd2]
        exact this
      obtain ⟨i, _⟩ := read_records_records_le _ _ _ _ _ _ _ _ _ r s.istream.pos h
        (ifstream.behind_newline_at_line _ hA) (by rw [e1]; omega)
      rw [e1, hd2, hnone] at i
      omega

/-- One call of `get_next_epoch` appends the same number of entries to the
satellites, the states and the clocks, at most as many as there are unread
bytes. -/
theorem get_next_epoch_equal_growth (s : sp3) (epoch : datetime_ms) (sats : List satellite)
    (states : List satellite_state) (clocks : List satellite_clock) (r : epoch_result)
    (h : get_next_epoch s epoch sats states clocks = some r) :
    ∃ k, r.sats.length = sats.length + k ∧ r.states.length = states.length + k ∧
      r.clocks.length = clocks.length + k ∧ k ≤ s.unread := by
  unfold get_next_epoch at h
  simp only [] at h
  split at h
  · simp only [Option.some.injEq] at h
    subst h
    exact ⟨0, rfl, rfl, rfl, Nat.zero_le _⟩
  · split at h
    · simp only [Option.some.injEq] at h
      subst h
      exact ⟨0, rfl, rfl, rfl, Nat.zero_le _⟩
    · obtain ⟨k, k1, k2, k3, k4⟩ := read_records_count _ _ _ _ _ _ _ _ _ _ h
      refine ⟨k, k1, k2, k3, ?_⟩
      have hd := read_next_epoch_header_data s epoch
      have hp := read_next_epoch_header_pos s epoch
      simp only [sp3.header_data, Prod.mk.injEq] at hd
      simp only [sp3.unread] at k4 ⊢
      rw [hd.2.2.2.2.2.2.2.2.2.2.2.2] at k4
      omega

/-! ## The header reader: a line without its marker -/

theorem byte_at_one_store_line_ne (line0 l : List Char) (hl : l ≠ [])
    (h : byte_at (store_line line0 l) 1 = 'c') : l.getD 1 NUL = 'c' := by
  match l with
  | [] => exact absurd rfl hl
  | [x] =>
    simp only [store_line, byte_at] at h
    simp [NUL] at h
  | x :: y :: t =>
    simp only [store_line, byte_at] at h
    simpa using h

/-- A header that `read_header` accepts has every marker where the lines of
the file are to show it, provided line 1 is not empty or the byte at index 1
of the uninitialised line buffer is not a `c`. -/
theorem read_header_markers_line1 (s s1 : sp3) (line0 : List Char)
    (h0 : (split_lines s.istream.data).headD [] = [] → byte_at line0 1 ≠ 'c')
    (h : read_header s line0 = (.returned 0, s1)) :
    header_markers_ok (split_lines s.istream.data) = true := by
  by_cases hc : byte_at line0 1 = 'c'
  · unfold read_header at h
    simp only [] at h
    split at h
    · simp at h
    · rename_i c1
      simp only [Bool.or_eq_true, not_or, Bool.not_eq_true, bne_eq_false_iff_eq] at c1
      obtain ⟨n1, m1⟩ := c1
      obtain ⟨l1, hl1, hb1⟩ := ifstream.getline_lines _ _ _ n1
      obtain ⟨hg1, _⟩ := ifstream.getline_progress _ _ _ n1
      rw [ifstream.seekg0_lines _ hg1] at hl1
      rw [hb1] at m1
      have hne : l1 ≠ [] := by
        intro he
        apply h0 _ hc
        rw [hl1, he]
        rfl
      have hc1 := byte_at_one_store_line_ne line0 l1 hne m1
      split at h
      · simp at h
      · split at h
        · simp at h
        · split at h
          · simp at h
          · rename_i n2
            have n2' : ((s.istream.seekg0.getline line0 MAX_HEADER_CHARS).1.getline
                (s.istream.seekg0.getline line0 MAX_HEADER_CHARS).2 MAX_HEADER_CHARS).1.fail
                = false := by simpa using n2
            obtain ⟨l2, hl2, hb2⟩ := ifstream.getline_lines _ _ _ n2'
            split at h
            · simp at h
            · split at h
              · simp at h
              · have hb := read_header_sats_markers _ _ _ _ _ _ h
                unfold header_markers_ok
                rw [hl1, hl2]
                simp only [List.headD_cons, hc1, beq_self_eq_true, List.drop_succ_cons,
                  List.drop_zero, hb, Bool.and_self]
  · exact read_header_markers s s1 line0 hc h

/-- A header with a missing marker can make `read_header` throw: on the sample
header with the interval field `900.50000000` on line 2 and `+x` for `++` on
its accuracy line, the call throws on line 2 and the constructor fails. -/
theorem marker_mismatch_throws :
    header_markers_ok (split_lines sample_unmarked_half_second_header) = false ∧
    (read_header (sp3.initial sample_unmarked_half_second_header 0) zero_line).1 = .thrown ∧
    sp3.open sample_unmarked_half_second_header 0 zero_line = none := by
  decide!

/-- For every reader over a file in which a header line lacks its marker (`c`
as the second character of line 1; `+ ` on line 3; `++` on the first line
behind the lines that start with `+ `; behind the lines that start with `++`,
`%c` on two lines, `%f` on two and `%i` on two; `/*` on every line of the run
of lines starting with a slash that follows), and whose line 1 is not empty
(or whose line buffer has no `c` at index 1 at entry): `read_header` does not
return 0: it returns 1, or an earlier line ends the call with an exception
or a failed `assert`; and the constructor fails. -/
theorem marker_mismatch_fails (s : sp3) (errno : Int) (line0 : List Char)
    (h0 : (split_lines s.istream.data).headD [] = [] → byte_at line0 1 ≠ 'c')
    (h : header_markers_ok (split_lines s.istream.data) = false) :
    ((read_header s line0).1 = .returned 1 ∨ (read_header s line0).1 = .thrown ∨
      (read_header s line0).1 = .assert_failed) ∧
    sp3.open s.istream.data errno line0 = none := by
  have key : ∀ t : sp3, t.istream.data = s.istream.data →
      (read_header t line0).1 ≠ .returned 0 := by
    intro t ht h1
    have hm := read_header_markers_line1 t (read_header t line0).2 line0 (by rw [ht]; exact h0)
      (Prod.ext h1 rfl)
    rw [ht, h] at hm
    exact absurd hm (by simp)
  constructor
  · rcases read_header_outcome s line0 with h1 | h1 | h1 | h1
    · exact absurd h1 (key s rfl)
    · exact Or.inl h1
    · exact Or.inr (Or.inl h1)
    · exact Or.inr (Or.inr h1)
  · have hk := key (sp3.initial s.istream.data errno) rfl
    unfold sp3.open
    split
    · rename_i s1 heq
      exact absurd (congrArg Prod.fst heq) hk
    · rfl

/-- The sample header whose accuracy line starts with `+x`, read with the
line buffer that holds the bytes of an earlier line 1: `read_header` returns
1 and the constructor fails. -/
theorem marker_mismatch_fails_witness :
    header_markers_ok (split_lines sample_header) = true ∧
    byte_at sample_stale_line 1 = 'c' ∧
    (read_header (sp3.initial sample_unmarked_header 0) sample_stale_line).1 = .returned 1 ∧
    (((read_header (sp3.initial sample_unmarked_header 0) sample_stale_line).1 = .returned 1 ∨
        (read_header (sp3.initial sample_unmarked_header 0) sample_stale_line).1 = .thrown ∨
        (read_header (sp3.initial sample_unmarked_header 0) sample_stale_line).1
          = .assert_failed) ∧
      sp3.open (sp3.initial sample_unmarked_header 0).istream.data 0 sample_stale_line = none) :=
  ⟨by decide!, by decide!, by decide!,
    marker_mismatch_fails (sp3.initial sample_unmarked_header 0) 0 sample_stale_line
      (by decide!) (by decide!)⟩

/-! ## Claims -/

/-- C1: for every header that `read_header` accepts (it returns 0) with a
declared epoch count `n ≥ 0`, the stored last epoch is the stored first epoch
advanced by `n` times the stored interval. -/
theorem read_header_last_epoch (s : sp3) (line0 : List Char)
    (hok : (read_header s line0).1 = .returned 0)
    (hn : 0 ≤ (read_header s line0).2.num_of_epochs) :
    (read_header s line0).2.last_epoch =
      (read_header s line0).2.first_epoch.add_seconds
        ((read_header s line0).2.num_of_epochs * (read_header s line0).2.interval) := by
  have h : read_header s line0 = (.returned 0, (read_header s line0).2) := by
    rw [← hok]
  obtain ⟨hc, hl⟩ := read_header_ok s _ line0 h
  rw [hl, advance_epoch_eq _ _ _ hc, Int.toNat_of_nonneg hn]

/-- C1, on the sample header: first epoch 2020-01-01T00:00:00, interval 900 s
and count 96 give the last epoch 2020-01-02T00:00:00. -/
theorem read_header_last_epoch_witness :
    (read_header (sp3.initial sample_header 0) zero_line).1 = .returned 0 ∧
    (read_header (sp3.initial sample_header 0) zero_line).2.first_epoch
      = datetime_ms.of_calendar 2020 1 1 0 0 0 ∧
    (read_header (sp3.initial sample_header 0) zero_line).2.interval = 900 * 1000 ∧
    (read_header (sp3.initial sample_header 0) zero_line).2.num_of_epochs = 96 ∧
    (read_header (sp3.initial sample_header 0) zero_line).2.last_epoch
      = datetime_ms.of_calendar 2020 1 2 0 0 0 ∧
    (read_header (sp3.initial sample_header 0) zero_line).2.last_epoch =
      (read_header (sp3.initial sample_header 0) zero_line).2.first_epoch.add_seconds
        ((read_header (sp3.initial sample_header 0) zero_line).2.num_of_epochs
          * (read_header (sp3.initial sample_header 0) zero_line).2.interval) :=
  ⟨by decide!, by decide!, by decide!, by decide!, by decide!,
    read_header_last_epoch (sp3.initial sample_header 0) zero_line (by decide!) (by decide!)⟩

/-- C2: the state flag `bad_or_absent` ought to be set if and only if x, y
and z all lie within 1e-10 of 0.0.  The code does the opposite at both sample
records: the record with the absent position 0.0 0.0 0.0 is decoded without
the flag, and the record with coordinates far from zero is decoded with it. -/
theorem pos_bad_or_absent_inverted :
    (read_next_pos_n_clock (sample_reader sample_absent_record) satellite.default
        satellite_state.default satellite_clock.default = some sample_absent_result ∧
      sample_absent_result.status = 0 ∧
      sample_absent_result.state.x = 0 ∧ sample_absent_result.state.y = 0 ∧
      sample_absent_result.state.z = 0 ∧
      sample_absent_result.state.flag.bad_or_absent = false) ∧
    (read_next_pos_n_clock (sample_reader sample_pos_record) satellite.default
        satellite_state.default satellite_clock.default = some sample_pos_result ∧
      sample_pos_result.status = 0 ∧
      sample_pos_result.state.x = 15000123456 / 1000000 ∧
      sample_pos_result.state.y = -20000654321 / 1000000 ∧
      sample_pos_result.state.z = 5000000001 / 1000000 ∧
      sample_pos_result.state.flag.bad_or_absent = true) := by
  decide!

/-- C3: for every `P` record `read_next_pos_n_clock` decodes (it returns 0),
the clock flag `bad_or_absent` is set if and only if the decoded clock value
is at least 999999.0. -/
theorem clock_bad_or_absent_iff (s : sp3) (sat : satellite) (st : satellite_state)
    (clk : satellite_clock) (r : record_result)
    (h : read_next_pos_n_clock s sat st clk = some r) (h0 : r.status = 0) :
    r.clock.flag.bad_or_absent = true ↔ (field_c (pos_record_line s)).1 ≥ 999999 := by
  obtain ⟨_, _, hc⟩ := read_next_pos_n_clock_decoded s sat st clk r h h0
  rw [hc.2.1]
  simp [pos_clock_of, satellite_clock.of_clk, clk_flag_of_bad_or_absent, BAD_CLK_VALUE]

/-- C3, on the sample record whose clock field is 999999.999999. -/
theorem clock_bad_or_absent_iff_witness :
    read_next_pos_n_clock (sample_reader sample_absent_record) satellite.default
      satellite_state.default satellite_clock.default = some sample_absent_result ∧
    sample_absent_result.status = 0 ∧
    (field_c (pos_record_line (sample_reader sample_absent_record))).1 = 999999999999 / 1000000 ∧
    (sample_absent_result.clock.flag.bad_or_absent = true ↔
      (field_c (pos_record_line (sample_reader sample_absent_record))).1 ≥ 999999) :=
  ⟨by decide!, by decide!, by decide!,
    clock_bad_or_absent_iff (sample_reader sample_absent_record) satellite.default
      satellite_state.default satellite_clock.default sample_absent_result
      (by decide!) (by decide!)⟩

/-- C4: for every `P` record `read_next_pos_n_clock` decodes (it returns 0),
the state flag `unknown_acc` is set exactly when at least one of the x, y, z
accuracy exponents is at least 99, and the clock flag `unknown_acc` exactly
when the clock accuracy exponent is at least 99. -/
theorem unknown_acc_iff (s : sp3) (sat : satellite) (st : satellite_state)
    (clk : satellite_clock) (r : record_result)
    (h : read_next_pos_n_clock s sat st clk = some r) (h0 : r.status = 0) :
    (r.state.flag.unknown_acc = true ↔
      ((idev_x (pos_record_line s)).1 ≥ 99 ∨ (idev_y (pos_record_line s)).1 ≥ 99 ∨
        (idev_z (pos_record_line s)).1 ≥ 99)) ∧
    (r.clock.flag.unknown_acc = true ↔ (idev_c (pos_record_line s)).1 ≥ 99) := by
  obtain ⟨_, hs, hc⟩ := read_next_pos_n_clock_decoded s sat st clk r h h0
  rw [hs.2.2.2.2.2.2.2.1, hc.2.2.1]
  simp [pos_state_of, satellite_state.of_pos, pos_clock_of, satellite_clock.of_clk,
    pos_flag_of_unknown_acc, clk_flag_of_unknown_acc, some_bad_exp, BAD_EXP_VALUE, or_assoc]

/-- C4, on the sample record with exponents 10, 9, 11 and 102: the state flag
is not set, the clock flag is. -/
theorem unknown_acc_iff_witness :
    read_next_pos_n_clock (sample_reader sample_pos_record) satellite.default
      satellite_state.default satellite_clock.default = some sample_pos_result ∧
    sample_pos_result.status = 0 ∧
    (idev_x (pos_record_line (sample_reader sample_pos_record))).1 = 10 ∧
    (idev_y (pos_record_line (sample_reader sample_pos_record))).1 = 9 ∧
    (idev_z (pos_record_line (sample_reader sample_pos_record))).1 = 11 ∧
    (idev_c (pos_record_line (sample_reader sample_pos_record))).1 = 102 ∧
    sample_pos_result.state.flag.unknown_acc = false ∧
    sample_pos_result.clock.flag.unknown_acc = true ∧
    ((sample_pos_result.state.flag.unknown_acc = true ↔
      ((idev_x (pos_record_line (sample_reader sample_pos_record))).1 ≥ 99 ∨
        (idev_y (pos_record_line (sample_reader sample_pos_record))).1 ≥ 99 ∨
        (idev_z (pos_record_line (sample_reader sample_pos_record))).1 ≥ 99)) ∧
    (sample_pos_result.clock.flag.unknown_acc = true ↔
      (idev_c (pos_record_line (sample_reader sample_pos_record))).1 ≥ 99)) :=
  ⟨by decide!, by decide!, by decide!, by decide!, by decide!, by decide!, by decide!,
    by decide!,
    unknown_acc_iff (sample_reader sample_pos_record) satellite.default
      satellite_state.default satellite_clock.default sample_pos_result
      (by decide!) (by decide!)⟩

/-- C5: a `P` record with an accuracy exponent of at least 99 ought to carry
no std-deviation derived as base^exponent.  The code derives and stores it:
the sample record with exponents 99, 99, 99 and 999 is decoded with both
`unknown_acc` flags set, with the position std-deviation `1.25^99` and with
the clock std-deviation `1.025^999`. -/
theorem unknown_acc_sdev_stored :
    read_next_pos_n_clock (sample_reader sample_unknown_acc_record) satellite.default
      satellite_state.default satellite_clock.default = some sample_unknown_acc_result ∧
    sample_unknown_acc_result.status = 0 ∧
    (idev_x (pos_record_line (sample_reader sample_unknown_acc_record))).1 = 99 ∧
    (idev_c (pos_record_line (sample_reader sample_unknown_acc_record))).1 = 999 ∧
    sample_unknown_acc_result.state.flag.unknown_acc = true ∧
    sample_unknown_acc_result.clock.flag.unknown_acc = true ∧
    sample_unknown_acc_result.state.sx = (5 / 4 : ℚ) ^ (99 : Int) ∧
    sample_unknown_acc_result.clock.sc = (41 / 40 : ℚ) ^ (999 : Int) := by
  decide!

/-- C6: for every `V` line whose satellite id differs from the satellite
passed to `read_next_vel` (that of the preceding `P` record), the call
returns -2 and the state and the clock are as they were before the call. -/
theorem read_next_vel_mismatch (s : sp3) (sat : satellite) (state : satellite_state)
    (clkcor : satellite_clock)
    (hread : (s.istream.getline s.vel_line MAX_HEADER_CHARS).1.fail = false)
    (hV : byte_at (vel_record_line s) 0 = 'V')
    (hsat : satellite.of_chars ((vel_record_line s).drop 1) ≠ sat) :
    (read_next_vel s sat state clkcor).1 = -2 ∧
    (read_next_vel s sat state clkcor).2.1 = state ∧
    (read_next_vel s sat state clkcor).2.2.1 = clkcor := by
  unfold vel_record_line at hV hsat
  unfold read_next_vel
  simp only [hread, hV, Bool.false_or, bne_self_eq_false, Bool.false_eq_true, if_false]
  rw [if_pos (Ne.symm hsat)]
  exact ⟨rfl, rfl, rfl⟩

/-- C6, on the sample velocity record of G01, read for the satellite G02. -/
theorem read_next_vel_mismatch_witness :
    (sample_reader sample_vel_record).istream.getline
      (sample_reader sample_vel_record).vel_line MAX_HEADER_CHARS |>.1.fail = false ∧
    byte_at (vel_record_line (sample_reader sample_vel_record)) 0 = 'V' ∧
    satellite.of_chars ((vel_record_line (sample_reader sample_vel_record)).drop 1)
      = sample_sat ∧
    sample_sat ≠ sample_other_sat ∧
    (read_next_vel (sample_reader sample_vel_record) sample_other_sat sample_state
      satellite_clock.default).1 = -2 ∧
    (read_next_vel (sample_reader sample_vel_record) sample_other_sat sample_state
      satellite_clock.default).2.1 = sample_state ∧
    (read_next_vel (sample_reader sample_vel_record) sample_other_sat sample_state
      satellite_clock.default).2.2.1 = satellite_clock.default :=
  ⟨by decide!, by decide!, by decide!, by decide!,
    read_next_vel_mismatch (sample_reader sample_vel_record) sample_other_sat sample_state
      satellite_clock.default (by decide!) (by decide!) (by decide!)⟩

/-- C7: on a `V` record whose satellite id matches, `read_next_vel` ought to
set `no_velocity` and keep the velocity when the decoded velocity is the
absent sentinel, and to store the decoded velocity otherwise.  The code does
the opposite at both sample records: the velocity far from zero is not
stored and `no_velocity` is set, while the absent velocity 0.0 0.0 0.0 is
stored over the state's velocity and `no_velocity` is not set. -/
theorem read_next_vel_velocity_inverted :
    ((field_x (vel_record_line (sample_reader sample_vel_record))).1
        = 20298880364 / 1000000 ∧
      (read_next_vel (sample_reader sample_vel_record) sample_sat sample_state
        satellite_clock.default).1 = 0 ∧
      (read_next_vel (sample_reader sample_vel_record) sample_sat sample_state
        satellite_clock.default).2.1.flag.no_velocity = true ∧
      (read_next_vel (sample_reader sample_vel_record) sample_sat sample_state
        satellite_clock.default).2.1.vx = sample_state.vx ∧
      (read_next_vel (sample_reader sample_vel_record) sample_sat sample_state
        satellite_clock.default).2.1.vy = sample_state.vy ∧
      (read_next_vel (sample_reader sample_vel_record) sample_sat sample_state
        satellite_clock.default).2.1.vz = sample_state.vz) ∧
    ((field_x (vel_record_line (sample_reader sample_absent_vel_record))).1 = 0 ∧
      (field_y (vel_record_line (sample_reader sample_absent_vel_record))).1 = 0 ∧
      (field_z (vel_record_line (sample_reader sample_absent_vel_record))).1 = 0 ∧
      (read_next_vel (sample_reader sample_absent_vel_record) sample_sat sample_state
        satellite_clock.default).1 = 0 ∧
      (read_next_vel (sample_reader sample_absent_vel_record) sample_sat sample_state
        satellite_clock.default).2.1.flag.no_velocity = false ∧
      sample_state.vx = 1 ∧
      (read_next_vel (sample_reader sample_absent_vel_record) sample_sat sample_state
        satellite_clock.default).2.1.vx = 0) := by
  decide!

/-- C8: for every `V` record whose satellite id matches and that
`read_next_vel` decodes (it returns 0): if one of the three velocity accuracy
exponents is at least 99, `no_vel_acc` is set and the velocity std-deviations
of the state are unchanged; otherwise each velocity std-deviation is
`base_for_pos` to the power of its exponent. -/
theorem read_next_vel_accuracy (s : sp3) (sat : satellite) (state : satellite_state)
    (clkcor : satellite_clock) (h0 : (read_next_vel s sat state clkcor).1 = 0) :
    (((idev_x (vel_record_line s)).1 ≥ 99 ∨ (idev_y (vel_record_line s)).1 ≥ 99 ∨
        (idev_z (vel_record_line s)).1 ≥ 99) →
      (read_next_vel s sat state clkcor).2.1.flag.no_vel_acc = true ∧
      (read_next_vel s sat state clkcor).2.1.svx = state.svx ∧
      (read_next_vel s sat state clkcor).2.1.svy = state.svy ∧
      (read_next_vel s sat state clkcor).2.1.svz = state.svz) ∧
    (¬ ((idev_x (vel_record_line s)).1 ≥ 99 ∨ (idev_y (vel_record_line s)).1 ≥ 99 ∨
        (idev_z (vel_record_line s)).1 ≥ 99) →
      (read_next_vel s sat state clkcor).2.1.svx = s.base_for_pos ^ (idev_x (vel_record_line s)).1 ∧
      (read_next_vel s sat state clkcor).2.1.svy = s.base_for_pos ^ (idev_y (vel_record_line s)).1 ∧
      (read_next_vel s sat state clkcor).2.1.svz = s.base_for_pos ^ (idev_z (vel_record_line s)).1) := by
  have hb : ∀ a b c : Int, some_bad_exp a b c = true ↔ (a ≥ 99 ∨ b ≥ 99 ∨ c ≥ 99) := by
    intro a b c
    simp [some_bad_exp, BAD_EXP_VALUE, or_assoc]
  rw [← hb]
  unfold vel_record_line
  unfold read_next_vel at h0 ⊢
  simp only [] at h0 ⊢
  split at h0
  · simp at h0
  · rename_i c1
    split at h0
    · simp at h0
    · rename_i c2
      split at h0
      · simp at h0
      · rename_i c3
        split at h0
        · simp at h0
        · rename_i c4
          rw [if_neg c1, if_neg c2, if_neg c3, if_neg c4]
          constructor
          · intro hbad
            rw [if_pos hbad]
            split <;> simp [state_flag.set]
          · intro hbad
            rw [if_neg hbad]
            split <;> simp [pow_value]

/-- C8, on the sample velocity record with exponents 14, 99 and 14 (the flag
is set, the std-deviations 4, 5, 6 stay) and on the one with exponents 14
(the std-deviations become `1.25^14`). -/
theorem read_next_vel_accuracy_witness :
    (read_next_vel (sample_reader sample_unknown_acc_vel_record) sample_sat sample_state
      satellite_clock.default).1 = 0 ∧
    (idev_y (vel_record_line (sample_reader sample_unknown_acc_vel_record))).1 = 99 ∧
    (read_next_vel (sample_reader sample_unknown_acc_vel_record) sample_sat sample_state
      satellite_clock.default).2.1.flag.no_vel_acc = true ∧
    (read_next_vel (sample_reader sample_unknown_acc_vel_record) sample_sat sample_state
      satellite_clock.default).2.1.svx = 4 ∧
    (read_next_vel (sample_reader sample_vel_record) sample_sat sample_state
      satellite_clock.default).2.1.svx = (5 / 4 : ℚ) ^ (14 : Int) ∧
    ((((idev_x (vel_record_line (sample_reader sample_unknown_acc_vel_record))).1 ≥ 99 ∨
        (idev_y (vel_record_line (sample_reader sample_unknown_acc_vel_record))).1 ≥ 99 ∨
        (idev_z (vel_record_line (sample_reader sample_unknown_acc_vel_record))).1 ≥ 99) →
      (read_next_vel (sample_reader sample_unknown_acc_vel_record) sample_sat sample_state
        satellite_clock.default).2.1.flag.no_vel_acc = true ∧
      (read_next_vel (sample_reader sample_unknown_acc_vel_record) sample_sat sample_state
        satellite_clock.default).2.1.svx = sample_state.svx ∧
      (read_next_vel (sample_reader sample_unknown_acc_vel_record) sample_sat sample_state
        satellite_clock.default).2.1.svy = sample_state.svy ∧
      (read_next_vel (sample_reader sample_unknown_acc_vel_record) sample_sat sample_state
        satellite_clock.default).2.1.svz = sample_state.svz) ∧
    (¬ ((idev_x (vel_record_line (sample_reader sample_unknown_acc_vel_record))).1 ≥ 99 ∨
        (idev_y (vel_record_line (sample_reader sample_unknown_acc_vel_record))).1 ≥ 99 ∨
        (idev_z (vel_record_line (sample_reader sample_unknown_acc_vel_record))).1 ≥ 99) →
      (read_next_vel (sample_reader sample_unknown_acc_vel_record) sample_sat sample_state
        satellite_clock.default).2.1.svx = (sample_reader sample_unknown_acc_vel_record).base_for_pos
          ^ (idev_x (vel_record_line (sample_reader sample_unknown_acc_vel_record))).1 ∧
      (read_next_vel (sample_reader sample_unknown_acc_vel_record) sample_sat sample_state
        satellite_clock.default).2.1.svy = (sample_reader sample_unknown_acc_vel_record).base_for_pos
          ^ (idev_y (vel_record_line (sample_reader sample_unknown_acc_vel_record))).1 ∧
      (read_next_vel (sample_reader sample_unknown_acc_vel_record) sample_sat sample_state
        satellite_clock.default).2.1.svz = (sample_reader sample_unknown_acc_vel_record).base_for_pos
          ^ (idev_z (vel_record_line (sample_reader sample_unknown_acc_vel_record))).1)) :=
  ⟨by decide!, by decide!, by decide!, by decide!, by decide!,
    read_next_vel_accuracy (sample_reader sample_unknown_acc_vel_record) sample_sat sample_state
      satellite_clock.default (by decide!)⟩

/-- C9: for every readable stream whose unread bytes start with the literal
`EOF`, `get_next_epoch` returns 999 and leaves the states, the clocks and the
epoch argument as they were; 999 is not the success status 0; and over all
calls the status is one of 0, 1, -1 and 999, with 999 returned only at such
an `EOF` line, so that no failure is reported as 999. -/
theorem get_next_epoch_eof (s : sp3) (epoch : datetime_ms) (sats : List satellite)
    (states : List satellite_state) (clocks : List satellite_clock) (h : at_eof_line s) :
    (∃ r, get_next_epoch s epoch sats states clocks = some r ∧ r.status = 999 ∧
      r.states = states ∧ r.clocks = clocks ∧ r.epoch = epoch) ∧
    (999 : Int) ≠ 0 ∧
    (∀ (s2 : sp3) (e2 : datetime_ms) (sats2 : List satellite) (states2 : List satellite_state)
      (clocks2 : List satellite_clock) (r2 : epoch_result),
      get_next_epoch s2 e2 sats2 states2 clocks2 = some r2 →
        (r2.status = 0 ∨ r2.status = 1 ∨ r2.status = -1 ∨ r2.status = 999) ∧
        (r2.status = 999 → at_eof_line s2)) := by
  refine ⟨?_, by decide, ?_⟩
  · obtain ⟨h1, h2⟩ := read_next_epoch_header_eof s epoch h
    unfold get_next_epoch
    simp only [h.1, Bool.not_true, Bool.false_eq_true, if_false, h1, h2]
    exact ⟨_, rfl, rfl, rfl, rfl, rfl⟩
  · intro s2 e2 sats2 states2 clocks2 r2 hr
    unfold get_next_epoch at hr
    simp only [] at hr
    split at hr
    · simp only [Option.some.injEq] at hr
      subst hr
      exact ⟨Or.inr (Or.inr (Or.inl rfl)), fun h => by simp at h⟩
    · rename_i hg
      have hg2 : s2.istream.good = true := by simpa using hg
      obtain ⟨hs, he⟩ := read_next_epoch_header_status s2 e2
      split at hr
      · simp only [Option.some.injEq] at hr
        subst hr
        refine ⟨?_, fun h => he h hg2⟩
        rcases hs with hs | hs | hs
        · exact Or.inl hs
        · exact Or.inr (Or.inl hs)
        · exact Or.inr (Or.inr (Or.inr hs))
      · rcases read_records_status _ _ _ _ _ _ _ _ _ _ hr with h0 | h1
        · exact ⟨Or.inl h0, fun h => by rw [h0] at h; simp at h⟩
        · exact ⟨Or.inr (Or.inl h1), fun h => by rw [h1] at h; simp at h⟩

/-- C9, on the sample file whose data section is the line `EOF`. -/
theorem get_next_epoch_eof_witness :
    at_eof_line (sample_reader sample_eof_line) ∧
    get_next_epoch (sample_reader sample_eof_line) (datetime_ms.of_calendar 2020 1 1 0 0 0)
      [] [sample_state] [satellite_clock.default] = some sample_eof_result ∧
    sample_eof_result.status = 999 ∧
    sample_eof_result.states = [sample_state] ∧
    sample_eof_result.clocks = [satellite_clock.default] ∧
    sample_eof_result.epoch = datetime_ms.of_calendar 2020 1 1 0 0 0 ∧
    (∃ r, get_next_epoch (sample_reader sample_eof_line)
        (datetime_ms.of_calendar 2020 1 1 0 0 0) [] [sample_state] [satellite_clock.default]
          = some r ∧ r.status = 999 ∧
      r.states = [sample_state] ∧ r.clocks = [satellite_clock.default] ∧
      r.epoch = datetime_ms.of_calendar 2020 1 1 0 0 0) :=
  ⟨by decide!, by decide!, by decide!, by decide!, by decide!, by decide!,
    (get_next_epoch_eof (sample_reader sample_eof_line) (datetime_ms.of_calendar 2020 1 1 0 0 0)
      [] [sample_state] [satellite_clock.default] (by decide!)).1⟩

/-- C10: for every stream at the physical end of its file, `get_next_epoch`
returns a failure status, 1 or -1: neither the success status 0 nor the
end-of-stream status 999. -/
theorem get_next_epoch_end_of_file (s : sp3) (epoch : datetime_ms) (sats : List satellite)
    (states : List satellite_state) (clocks : List satellite_clock) (h : at_end_of_file s) :
    ∃ r, get_next_epoch s epoch sats states clocks = some r ∧
      (r.status = 1 ∨ r.status = -1) ∧ r.status ≠ 0 ∧ r.status ≠ 999 := by
  unfold at_end_of_file at h
  unfold get_next_epoch
  simp only []
  split
  · exact ⟨_, rfl, Or.inr rfl, by simp, by simp⟩
  · rename_i hg
    have hg2 : s.istream.good = true := by simpa using hg
    have hc : s.istream.line_chars MAX_HEADER_CHARS = [] := by
      simp [ifstream.line_chars, h]
    have hl := ifstream.getline_buf s.istream s.epoch_line MAX_HEADER_CHARS hg2
    rw [hc] at hl
    have hf : (s.istream.getline s.epoch_line MAX_HEADER_CHARS).1.fail = true := by
      unfold ifstream.getline
      simp [hg2, hc, h, ifstream.fail]
    have h1 : (read_next_epoch_header s epoch).1 = 1 := by
      unfold read_next_epoch_header
      simp only [hf, Bool.true_or, if_true, hl]
      have : strncmp_eq (store_line s.epoch_line []) ['E', 'O', 'F'] 3 = false := by
        simp [strncmp_eq, store_line, NUL]
      simp [this]
    rw [if_pos (by rw [h1]; decide)]
    exact ⟨_, rfl, Or.inl h1, by simp [h1], by simp [h1]⟩

/-- C10, on a reader whose data section is empty. -/
theorem get_next_epoch_end_of_file_witness :
    at_end_of_file (sample_reader []) ∧
    get_next_epoch (sample_reader []) (datetime_ms.of_calendar 2020 1 1 0 0 0)
      [] [sample_state] [satellite_clock.default] = some sample_end_result ∧
    sample_end_result.status = 1 ∧
    (∃ r, get_next_epoch (sample_reader []) (datetime_ms.of_calendar 2020 1 1 0 0 0)
        [] [sample_state] [satellite_clock.default] = some r ∧
      (r.status = 1 ∨ r.status = -1) ∧ r.status ≠ 0 ∧ r.status ≠ 999) :=
  ⟨by decide!, by decide!, by decide!,
    get_next_epoch_end_of_file (sample_reader []) (datetime_ms.of_calendar 2020 1 1 0 0 0)
      [] [sample_state] [satellite_clock.default] (by decide!)⟩

/-- C11, as stated, fails on the sample orbit file: its header declares three
satellites, its first epoch block holds four position records, and one call
of `get_next_epoch` returns 0 with four decoded records. -/
theorem record_count_exceeds_header :
    (sp3.open sample_orbit_file 0 zero_line).map (fun s => s.sat_vec.length) = some 3 ∧
    sample_orbit_epoch.map (fun r => r.status) = some 0 ∧
    sample_orbit_epoch.map (fun r => r.states.length) = some 4 := by
  decide!

/-- C11, amended: one call of `get_next_epoch` appends the same number `k` of
entries to the satellites, the states and the clocks, one per decoded
position record: `k` is at most the number of the position records (lines
that start with a `P`) that start at the bytes the call goes over, and is
that number when the call returns 0; it is at most the number of unread
bytes of the file; the satellite count of the header plays no part. -/
theorem get_next_epoch_record_count (s : sp3) (epoch : datetime_ms) (sats : List satellite)
    (states : List satellite_state) (clocks : List satellite_clock) (r : epoch_result)
    (h : get_next_epoch s epoch sats states clocks = some r) :
    ∃ k, r.sats.length = sats.length + k ∧ r.states.length = states.length + k ∧
      r.clocks.length = clocks.length + k ∧ k ≤ s.unread ∧
      k ≤ records_between s.istream.data s.istream.pos r.self.istream.pos ∧
      (r.status = 0 →
        k = records_between s.istream.data s.istream.pos r.self.istream.pos) := by
  obtain ⟨k, k1, k2, k3, k4⟩ := get_next_epoch_equal_growth s epoch sats states clocks r h
  have hle := get_next_epoch_records_le s epoch sats states clocks r h
  refine ⟨k, k1, k2, k3, k4, by omega, fun h0 => ?_⟩
  have heq := get_next_epoch_records s epoch sats states clocks r h h0
  omega

/-- The amended C11 on the sample epoch block of four records, read into
empty vectors: the call returns 0 at byte 328 of the block, four position
records start at the bytes before it, and four states are appended. -/
theorem get_next_epoch_record_count_witness :
    get_next_epoch (sample_reader sample_epoch_block) datetime_ms.default [] [] []
      = some (epoch_of (sample_reader sample_epoch_block) [] []) ∧
    (epoch_of (sample_reader sample_epoch_block) [] []).status = 0 ∧
    (epoch_of (sample_reader sample_epoch_block) [] []).states.length = 4 ∧
    records_between sample_epoch_block 0
      (epoch_of (sample_reader sample_epoch_block) [] []).self.istream.pos = 4 ∧
    (∃ k, (epoch_of (sample_reader sample_epoch_block) [] []).sats.length
          = ([] : List satellite).length + k ∧
      (epoch_of (sample_reader sample_epoch_block) [] []).states.length
          = ([] : List satellite_state).length + k ∧
      (epoch_of (sample_reader sample_epoch_block) [] []).clocks.length
          = ([] : List satellite_clock).length + k ∧
      k ≤ (sample_reader sample_epoch_block).unread ∧
      k ≤ records_between (sample_reader sample_epoch_block).istream.data
        (sample_reader sample_epoch_block).istream.pos
        (epoch_of (sample_reader sample_epoch_block) [] []).self.istream.pos ∧
      ((epoch_of (sample_reader sample_epoch_block) [] []).status = 0 →
        k = records_between (sample_reader sample_epoch_block).istream.data
          (sample_reader sample_epoch_block).istream.pos
          (epoch_of (sample_reader sample_epoch_block) [] []).self.istream.pos)) :=
  ⟨by decide!, by decide!, by decide!, by decide!,
    get_next_epoch_record_count (sample_reader sample_epoch_block) datetime_ms.default [] [] []
      (epoch_of (sample_reader sample_epoch_block) [] []) (by decide!)⟩

/-- C12: the code does not leave a line of one character in place, nor an
empty line.  After a position record followed by the line `X`, the call
returns 0 with the stream one byte before the line, on the newline of the
record; followed by an empty line, it returns 0 with `failbit` set. -/
theorem short_line_not_left_in_place :
    (read_next_pos_n_clock (sample_reader sample_short_line_block) satellite.default
        satellite_state.default satellite_clock.default
        = some (pos_result_of sample_short_line_block) ∧
      (pos_result_of sample_short_line_block).status = 0 ∧
      sample_short_line_block.drop 74 = "X\nEOF\n".toList ∧
      (pos_result_of sample_short_line_block).self.istream.pos = 73) ∧
    (read_next_pos_n_clock (sample_reader sample_empty_line_block) satellite.default
        satellite_state.default satellite_clock.default
        = some (pos_result_of sample_empty_line_block) ∧
      (pos_result_of sample_empty_line_block).status = 0 ∧
      sample_empty_line_block.drop 74 = "\nEOF\n".toList ∧
      (pos_result_of sample_empty_line_block).self.istream.good = false ∧
      (pos_result_of sample_empty_line_block).self.istream.failbit = true) := by
  decide!

/-- C14: `get_next_epoch` does not pass the status of a failed record on.
On the three sample epochs `read_next_pos_n_clock` returns 1 (a record line
of 89 characters), -1 (a field out of range) and -2 (a velocity record of
another satellite); `get_next_epoch` returns 1 for each of them. -/
theorem record_failures_all_one :
    ((pos_result_of (records_of sample_overlong_epoch)).status = 1 ∧
      (pos_result_of (records_of sample_range_epoch)).status = -1 ∧
      (pos_result_of (records_of sample_mismatch_epoch)).status = -2) ∧
    (get_next_epoch (sample_reader sample_overlong_epoch) datetime_ms.default [] [] []
        = some (epoch_of (sample_reader sample_overlong_epoch) [] []) ∧
      get_next_epoch (sample_reader sample_range_epoch) datetime_ms.default [] [] []
        = some (epoch_of (sample_reader sample_range_epoch) [] []) ∧
      get_next_epoch (sample_reader sample_mismatch_epoch) datetime_ms.default [] [] []
        = some (epoch_of (sample_reader sample_mismatch_epoch) [] [])) ∧
    ((epoch_of (sample_reader sample_overlong_epoch) [] []).status = 1 ∧
      (epoch_of (sample_reader sample_range_epoch) [] []).status = 1 ∧
      (epoch_of (sample_reader sample_mismatch_epoch) [] []).status = 1) := by
  decide!

/-- C15: a field that is no number is decoded as 0.  On the sample record
whose x field holds the bytes `abcdefgh`, `read_next_pos_n_clock` returns 0
and the x coordinate 0. -/
theorem not_a_number_decoded :
    bytes_at (pos_record_line (sample_reader sample_not_a_number_record)) 4 14
      = "      abcdefgh".toList ∧
    read_next_pos_n_clock (sample_reader sample_not_a_number_record) satellite.default
      satellite_state.default satellite_clock.default
      = some (pos_result_of sample_not_a_number_record) ∧
    (pos_result_of sample_not_a_number_record).status = 0 ∧
    (pos_result_of sample_not_a_number_record).state.x = 0 := by
  decide!

/-- C16, as stated, fails on the sample epoch whose velocity record names
another satellite: `get_next_epoch` returns 1, and the stream that was at
byte 0 is at byte 180. -/
theorem position_not_restored :
    get_next_epoch (sample_reader sample_mismatch_epoch) datetime_ms.default [] [] []
      = some (epoch_of (sample_reader sample_mismatch_epoch) [] []) ∧
    (epoch_of (sample_reader sample_mismatch_epoch) [] []).status = 1 ∧
    (sample_reader sample_mismatch_epoch).istream.pos = 0 ∧
    (epoch_of (sample_reader sample_mismatch_epoch) [] []).self.istream.pos = 180 := by
  decide!

/-- C16, amended: whatever `get_next_epoch` returns, the header data of the
reader and the bytes of its file are the same as before the call; the reader
as a whole, its position in the stream included, is the same as before only
when the stream was not good at entry, and then the status is -1. -/
theorem get_next_epoch_keeps_header (s : sp3) (epoch : datetime_ms) (sats : List satellite)
    (states : List satellite_state) (clocks : List satellite_clock) (r : epoch_result)
    (h : get_next_epoch s epoch sats states clocks = some r) :
    r.self.header_data = s.header_data ∧
    (s.istream.good = false → r.status = -1 ∧ r.self = s) := by
  refine ⟨get_next_epoch_data s epoch sats states clocks r h, fun hg => ?_⟩
  unfold get_next_epoch at h
  simp only [hg, Bool.not_false, if_true, Option.some.injEq] at h
  subst h
  exact ⟨rfl, rfl⟩

/-- The amended C16 on the sample epoch with a mismatched velocity record
(status 1, header data kept), and on the reader whose stream has failed
(status -1, reader unchanged). -/
theorem get_next_epoch_keeps_header_witness :
    (get_next_epoch (sample_reader sample_mismatch_epoch) datetime_ms.default [] [] []
        = some (epoch_of (sample_reader sample_mismatch_epoch) [] []) ∧
      (epoch_of (sample_reader sample_mismatch_epoch) [] []).status = 1 ∧
      (epoch_of (sample_reader sample_mismatch_epoch) [] []).self.header_data
        = (sample_reader sample_mismatch_epoch).header_data) ∧
    (sample_failed_reader.istream.good = false ∧
      (epoch_of sample_failed_reader [] []).status = -1 ∧
      (epoch_of sample_failed_reader [] []).self = sample_failed_reader) :=
  ⟨⟨by decide!, by decide!,
      (get_next_epoch_keeps_header (sample_reader sample_mismatch_epoch) datetime_ms.default
        [] [] [] (epoch_of (sample_reader sample_mismatch_epoch) [] []) (by decide!)).1⟩,
    ⟨by decide!,
      (get_next_epoch_keeps_header sample_failed_reader datetime_ms.default
        [] [] [] (epoch_of sample_failed_reader [] []) (by decide!)).2 (by decide!)⟩⟩

/-- C18: the outcome of `read_header` depends on the value of `errno` at
entry.  On the same bytes of the sample header it returns 0 when `errno` is
0 and throws when `errno` is `ERANGE`. -/
theorem read_header_stale_errno :
    (sp3.initial sample_header 0).istream = (sp3.initial sample_header ERANGE).istream ∧
    (read_header (sp3.initial sample_header 0) zero_line).1 = .returned 0 ∧
    (read_header (sp3.initial sample_header ERANGE) zero_line).1 = .thrown := by
  decide!

/-- C19, as stated, fails on the sample header with the interval field
`900.000000005`: the fractional part is not zero, the constructor accepts the
header and stores 900000 ms. -/
theorem fractional_interval_accepted :
    interval_field (sp3.initial sample_fractional_header 0) zero_line
      = 900000000005 / 1000000000 ∧
    frac (interval_field (sp3.initial sample_fractional_header 0) zero_line)
      = 5 / 1000000000 ∧
    frac (interval_field (sp3.initial sample_fractional_header 0) zero_line) ≠ 0 ∧
    (sp3.open sample_fractional_header 0 zero_line).map (fun s => s.interval)
      = some 900000 := by
  decide!

/-- C19, amended: for every file whose line-2 interval field is a number in
decimal notation: when the `double` nearest to the field has a fractional
part above `1e-8` (the `double` nearest to it) in absolute value,
`read_header` returns 1 or throws, and the construction fails; and every
constructed reader stores the integral part of that `double` times 1000, as
a `long`, so `n * 1000` for a field that is the whole number `n` of magnitude
`2^53` at most. -/
theorem interval_tolerance (file : List Char) (errno : Int) (line0 : List Char)
    (_hd : decimal_notation ((header_line2 (sp3.initial file errno) line0).2.drop 24) = true) :
    (|frac (interval_double (sp3.initial file errno) line0)| > to_double (1 / 100000000) →
      ((read_header (sp3.initial file errno) line0).1 = .returned 1 ∨
        (read_header (sp3.initial file errno) line0).1 = .thrown) ∧
      sp3.open file errno line0 = none) ∧
    (∀ s1, sp3.open file errno line0 = some s1 →
      ¬ |frac (interval_double (sp3.initial file errno) line0)| > to_double (1 / 100000000) ∧
      s1.interval
        = to_long (long_of_double (trunc (interval_double (sp3.initial file errno) line0))
            * 1000) ∧
      ∀ n : Int, interval_field (sp3.initial file errno) line0 = n → |n| ≤ 2 ^ 53 →
        s1.interval = n * 1000) := by
  constructor
  · intro hf
    have h := read_header_fractional (sp3.initial file errno) line0 hf
    refine ⟨h, ?_⟩
    unfold sp3.open
    split
    · rename_i s1 heq
      rw [heq] at h
      simp at h
    · rfl
  · intro s1 hs
    have hr : read_header (sp3.initial file errno) line0 = (.returned 0, s1) := by
      unfold sp3.open at hs
      split at hs
      · rename_i s2 heq
        simp only [Option.some.injEq] at hs
        rw [heq, hs]
      · simp at hs
    obtain ⟨h1, h2⟩ := read_header_interval _ _ _ hr
    refine ⟨h2, h1, fun n hn hb => ?_⟩
    rw [h1]
    unfold interval_double
    rw [hn, to_double_intCast n hb, trunc_intCast, to_long_seconds n hb]

/-- The amended C19 on sample headers: the interval field `900.50000000` (the
construction fails); `900` (900000 ms are stored); `900.00000001`, whose
`double` has a fractional part above the `double` nearest to `1e-8` (the
construction fails); `1800.000000010000001`, whose `double` has a smaller
fractional part (1800000 ms are stored); `9007199254740993`, whose `double`
is `9007199254740992`; and `10000000000000000`, whose product with 1000
wraps. -/
theorem interval_tolerance_witness :
    (|frac (interval_double (sp3.initial sample_half_second_header 0) zero_line)|
        > to_double (1 / 100000000) ∧
      sp3.open sample_half_second_header 0 zero_line = none) ∧
    (sp3.open sample_header 0 zero_line
        = some (read_header (sp3.initial sample_header 0) zero_line).2 ∧
      interval_field (sp3.initial sample_header 0) zero_line = ((900 : Int) : ℚ) ∧
      (read_header (sp3.initial sample_header 0) zero_line).2.interval = 900 * 1000) ∧
    (interval_field (sp3.initial sample_threshold_interval_header 0) zero_line
        = 90000000001 / 100000000 ∧
      sp3.open sample_threshold_interval_header 0 zero_line = none) ∧
    (interval_field (sp3.initial sample_rounded_interval_header 0) zero_line
        = 1800000000010000001 / 1000000000000000 ∧
      (sp3.open sample_rounded_interval_header 0 zero_line).map (fun s => s.interval)
        = some 1800000) ∧
    (sp3.open sample_large_interval_header 0 zero_line).map (fun s => s.interval)
      = some 9007199254740992000 ∧
    (sp3.open sample_wrapping_interval_header 0 zero_line).map (fun s => s.interval)
      = some (-8446744073709551616) :=
  ⟨⟨by decide!,
      ((interval_tolerance sample_half_second_header 0 zero_line (by decide!)).1
        (by decide!)).2⟩,
    ⟨by decide!, by decide!,
      (((interval_tolerance sample_header 0 zero_line (by decide!)).2 _ (by decide!)).2.2 900
        (by decide!) (by decide!))⟩,
    ⟨by decide!, by decide!⟩, ⟨by decide!, by decide!⟩, by decide!, by decide!⟩

/-- C20: a header line without its marker is accepted.  The sample header
whose line 1 is empty has no `c` as the second character of line 1; read with
a line buffer that holds a `c` at index 1 (the bytes of an earlier line 1),
`read_header` returns 0 and the construction succeeds; read with a zeroed line
buffer, it returns 1. -/
theorem missing_marker_accepted :
    (split_lines sample_empty_first_line_header).headD [] = [] ∧
    header_markers_ok (split_lines sample_empty_first_line_header) = false ∧
    byte_at sample_stale_line 1 = 'c' ∧
    (read_header (sp3.initial sample_empty_first_line_header 0) sample_stale_line).1
      = .returned 0 ∧
    (sp3.open sample_empty_first_line_header 0 sample_stale_line).isSome = true ∧
    (read_header (sp3.initial sample_empty_first_line_header 0) zero_line).1
      = .returned 1 := by
  decide!

/-- C21, as stated, fails: a header with well-formed fields that is laid out
with one `"%c"` system line (line 1, line 2, two `"+ "` lines, two `"++"`
lines, one `"%c"` line, two `"%f"` lines, two `"%i"` lines, one comment line)
is not accepted: `read_header` returns 1, because it finds `"%f"` where it
looks for a second `"%c"` line, and the construction fails. -/
theorem one_system_line_rejected :
    sample_header_text.laid_out = true ∧ sample_header_text.fields_ok = true ∧
    (read_header (sp3.initial sample_header_text.text_one_sys 0) zero_line).1 = .returned 1 ∧
    sp3.open sample_header_text.text_one_sys 0 zero_line = none := by
  decide!

/-- C21, amended: `read_header` accepts (returns 0 for) every header laid out
as line 1, line 2, the `"+ "` satellite lines, the `"++"` accuracy lines, two
`"%c"` system lines, two `"%f"` scale-base lines, two `"%i"` lines, then zero
or more `"/*"` comment lines, with well-formed fields, on a stream that has
not failed and with `errno` other than `ERANGE` at entry; the construction
from such a file succeeds. -/
theorem header_layout_accepted (h : header_text) (s : sp3) (line0 : List Char) (errno : Int)
    (hd : s.istream.data = h.text) (hf : s.istream.fail = false) (he : s.errno ≠ ERANGE)
    (hl : h.laid_out = true) (hk : h.fields_ok = true) (hen : errno ≠ ERANGE) :
    (read_header s line0).1 = .returned 0 ∧ (sp3.open h.text errno line0).isSome = true := by
  refine ⟨read_header_accepts s line0 h hd hf he hl hk, ?_⟩
  have h1 := read_header_accepts (sp3.initial h.text errno) line0 h rfl rfl hen hl hk
  unfold sp3.open
  cases hr : read_header (sp3.initial h.text errno) line0 with
  | mk o s1 =>
    rw [hr] at h1
    simp only at h1
    subst h1
    rfl

/-- C21, amended, on the sample header of 13 lines, with two satellite
lines, two accuracy lines, two `"%c"` lines and one comment line, read by the
initial reader. -/
theorem header_layout_accepted_witness :
    (read_header (sp3.initial sample_header_text.text 0) zero_line).1 = .returned 0 ∧
    (sp3.open sample_header_text.text 0 zero_line).isSome = true :=
  header_layout_accepted sample_header_text (sp3.initial sample_header_text.text 0) zero_line 0
    rfl rfl (by decide) (by decide!) (by decide!) (by decide)

/-- C22: for every reader over a file whose first system line (the first
line behind the satellite and the accuracy lines) has at least four
characters: an accepted header stores the satellite system that the
character at index 3 of that line denotes when it denotes one, and otherwise
the one that the character at index 4 denotes; and when neither character
denotes a system, `read_header` does not return 0 and the constructor
fails. -/
theorem header_satsys (s : sp3) (errno : Int) (line0 : List Char)
    (hl : 4 ≤ (header_sys_line (split_lines s.istream.data)).length) :
    (∀ s1, read_header s line0 = (.returned 0, s1) →
      (∀ sys, char_to_satsys ((header_sys_line (split_lines s.istream.data)).getD 3 NUL)
          = some sys → s1.satsys = sys) ∧
      (char_to_satsys ((header_sys_line (split_lines s.istream.data)).getD 3 NUL) = none →
        char_to_satsys ((header_sys_line (split_lines s.istream.data)).getD 4 NUL)
          = some s1.satsys)) ∧
    (char_to_satsys ((header_sys_line (split_lines s.istream.data)).getD 3 NUL) = none →
      char_to_satsys ((header_sys_line (split_lines s.istream.data)).getD 4 NUL) = none →
      (read_header s line0).1 ≠ .returned 0 ∧ sp3.open s.istream.data errno line0 = none) := by
  have key : ∀ t s1 : sp3, t.istream.data = s.istream.data →
      read_header t line0 = (.returned 0, s1) →
      (char_to_satsys ((header_sys_line (split_lines s.istream.data)).getD 3 NUL)).orElse
        (fun _ => char_to_satsys ((header_sys_line (split_lines s.istream.data)).getD 4 NUL))
        = some s1.satsys := by
    intro t s1 ht h
    have h2 := (read_header_stores t s1 line0 h).2
    rw [ht] at h2
    exact h2 hl
  refine ⟨fun s1 h => ⟨fun sys h3 => ?_, fun h3 => ?_⟩, fun h3 h4 => ⟨fun h => ?_, ?_⟩⟩
  · have k := key s s1 rfl h
    rw [h3] at k
    simpa using k.symm
  · have k := key s s1 rfl h
    rw [h3] at k
    simpa using k
  · have k := key s (read_header s line0).2 rfl (Prod.ext h rfl)
    rw [h3, h4] at k
    simp at k
  · unfold sp3.open
    split
    · rename_i s1 heq
      have k := key (sp3.initial s.istream.data errno) s1 rfl heq
      rw [h3, h4] at k
      simp at k
    · rfl

/-- C22 on three sample headers: `G` at index 3 gives GPS; a blank at index
3 and `R` at index 4 give GLONASS; `x` and `y` at the two indices make
`read_header` throw and the constructor fail. -/
theorem header_satsys_witness :
    ((header_of sample_header).satsys = .gps ∧
      (header_sys_line (split_lines sample_header)).getD 3 NUL = 'G') ∧
    ((header_of sample_shifted_sys_header).satsys = .glonass ∧
      (header_sys_line (split_lines sample_shifted_sys_header)).getD 3 NUL = ' ' ∧
      (header_sys_line (split_lines sample_shifted_sys_header)).getD 4 NUL = 'R') ∧
    ((read_header (sp3.initial sample_unknown_sys_header 0) zero_line).1 = .thrown ∧
      (read_header (sp3.initial sample_unknown_sys_header 0) zero_line).1 ≠ .returned 0 ∧
      sp3.open (sp3.initial sample_unknown_sys_header 0).istream.data 0 zero_line = none) :=
  ⟨⟨(((header_satsys (sp3.initial sample_header 0) 0 zero_line (by decide!)).1
        (header_of sample_header) (by decide!)).1 .gps (by decide!)), by decide!⟩,
    ⟨by
        have h := ((header_satsys (sp3.initial sample_shifted_sys_header 0) 0 zero_line
          (by decide!)).1 (header_of sample_shifted_sys_header) (by decide!)).2 (by decide!)
        have e : char_to_satsys ((header_sys_line (split_lines
            (sp3.initial sample_shifted_sys_header 0).istream.data)).getD 4 NUL)
            = some .glonass := by decide!
        rw [e] at h
        exact (Option.some.inj h).symm,
      by decide!, by decide!⟩,
    ⟨by decide!,
      (header_satsys (sp3.initial sample_unknown_sys_header 0) 0 zero_line (by decide!)).2
        (by decide!) (by decide!)⟩⟩

/-- C23: for every header that `read_header` accepts, with the declared
satellite count `n`, at most 85, and satellite lines of 60 characters or
more: the stored satellite list is made of the first `n` of the satellites at
the offsets 9, 12, ..., 57 of the satellite lines, in file order, and it has
`min n (17 * k)` entries for `k` satellite lines. -/
theorem header_sat_list (s s1 : sp3) (line0 : List Char) (n : Nat)
    (h : read_header s line0 = (.returned 0, s1))
    (hn : declared_sats (split_lines s.istream.data) = (n : Int)) (hn85 : n ≤ 85)
    (hl : ∀ x ∈ header_sat_lines (split_lines s.istream.data), 60 ≤ x.length) :
    s1.sat_vec = ((header_sat_lines (split_lines s.istream.data)).flatMap line_sats).take n ∧
    s1.sat_vec.length = min n (17 * (header_sat_lines (split_lines s.istream.data)).length) := by
  obtain ⟨_, h2⟩ := (read_header_stores s s1 line0 h).1 hl
  rw [hn, to_size_t_to_int_small n hn85] at h2
  refine ⟨h2, ?_⟩
  rw [h2, List.length_take, flatMap_line_sats_length]

/-- C23 on the sample header that declares 20 satellites on two satellite
lines (20 entries, G01 to G20), and on the one that declares 20 satellites
and has one satellite line (17 entries). -/
theorem header_sat_list_witness :
    ((header_of sample_twenty_sats_header).sat_vec
        = ((List.range 20).map (fun i => (⟨'G', (i : Int) + 1⟩ : satellite))) ∧
      (header_of sample_twenty_sats_header).sat_vec
        = ((header_sat_lines (split_lines
            (sp3.initial sample_twenty_sats_header 0).istream.data)).flatMap line_sats).take 20 ∧
      (header_of sample_twenty_sats_header).sat_vec.length
        = min 20 (17 * (header_sat_lines (split_lines
            (sp3.initial sample_twenty_sats_header 0).istream.data)).length)) ∧
    ((header_sat_lines (split_lines sample_one_line_header)).length = 1 ∧
      (header_of sample_one_line_header).sat_vec
        = ((header_sat_lines (split_lines
            (sp3.initial sample_one_line_header 0).istream.data)).flatMap line_sats).take 20 ∧
      (header_of sample_one_line_header).sat_vec.length
        = min 20 (17 * (header_sat_lines (split_lines
            (sp3.initial sample_one_line_header 0).istream.data)).length)) :=
  ⟨⟨by decide!,
      header_sat_list (sp3.initial sample_twenty_sats_header 0)
        (header_of sample_twenty_sats_header) zero_line 20 (by decide!) (by decide!)
        (by decide) (by decide!)⟩,
    ⟨by decide!,
      header_sat_list (sp3.initial sample_one_line_header 0)
        (header_of sample_one_line_header) zero_line 20 (by decide!) (by decide!)
        (by decide) (by decide!)⟩⟩

/-- C24: the accuracy exponents are not decoded from their own bytes only.
The two sample records have the same (blank) bytes 61-62 and the y exponents
14 and 10 in bytes 64-65; `read_next_pos_n_clock` decodes the x std-deviation
`1.25^14` from the first and `1.25^10` from the second. -/
theorem blank_exponent_reads_next_field :
    bytes_at (pos_record_line (sample_reader sample_blank_exp_record)) 61 2 = [' ', ' '] ∧
    bytes_at (pos_record_line (sample_reader sample_blank_exp_other_record)) 61 2
      = [' ', ' '] ∧
    read_next_pos_n_clock (sample_reader sample_blank_exp_record) satellite.default
        satellite_state.default satellite_clock.default
      = some (pos_result_of sample_blank_exp_record) ∧
    read_next_pos_n_clock (sample_reader sample_blank_exp_other_record) satellite.default
        satellite_state.default satellite_clock.default
      = some (pos_result_of sample_blank_exp_other_record) ∧
    (pos_result_of sample_blank_exp_record).status = 0 ∧
    (pos_result_of sample_blank_exp_other_record).status = 0 ∧
    (pos_result_of sample_blank_exp_record).state.sx = (5 / 4) ^ 14 ∧
    (pos_result_of sample_blank_exp_other_record).state.sx = (5 / 4) ^ 10 := by
  decide!

/-- C25: for two consecutive TEC maps and a query time between their epochs,
the interpolated value at a grid point is the linear interpolation in time of
the values of the two maps at that point; and a query at the epoch of the
first map gives the value of the first map. -/
theorem interpolate_at_linear (m0 m1 : tec_map) (e : Int) (i j : Nat) (t : datetime_ms)
    (h01 : m0.epoch.total < m1.epoch.total) (_h0 : m0.epoch.total ≤ t.total)
    (_h1 : t.total ≤ m1.epoch.total) :
    interpolate_at m0 m1 e i j t
      = m0.value e i j + (m1.value e i j - m0.value e i j)
          * (((t.total - m0.epoch.total : Int) : ℚ)
              / ((m1.epoch.total - m0.epoch.total : Int) : ℚ)) ∧
    interpolate_at m0 m1 e i j m0.epoch = m0.value e i j := by
  have hd : ((m1.epoch.total - m0.epoch.total : Int) : ℚ) ≠ 0 := by
    have : m1.epoch.total - m0.epoch.total ≠ 0 := by omega
    exact_mod_cast this
  constructor
  · unfold interpolate_at interpolate_in_time later_weight
    split
    · rename_i he
      rw [he]
      simp
    · split
      · rename_i he
        rw [he, div_self hd]
        ring
      · ring
  · unfold interpolate_at interpolate_in_time later_weight
    simp

/-- C25 on two maps of one grid point, with the values 10 and 20 at epochs
900 s apart: 15 after 450 s, 10 at the epoch of the first map. -/
theorem interpolate_at_linear_witness :
    sample_first_map.value (-1) 0 0 = 10 ∧ sample_second_map.value (-1) 0 0 = 20 ∧
    sample_second_map.epoch.total = sample_first_map.epoch.total + 900000 ∧
    interpolate_at sample_first_map sample_second_map (-1) 0 0
      (sample_first_map.epoch.add_seconds 450000) = 15 ∧
    interpolate_at sample_first_map sample_second_map (-1) 0 0 sample_first_map.epoch = 10 ∧
    (interpolate_at sample_first_map sample_second_map (-1) 0 0
        (sample_first_map.epoch.add_seconds 450000)
      = sample_first_map.value (-1) 0 0
        + (sample_second_map.value (-1) 0 0 - sample_first_map.value (-1) 0 0)
          * ((((sample_first_map.epoch.add_seconds 450000).total
                - sample_first_map.epoch.total : Int) : ℚ)
              / ((sample_second_map.epoch.total - sample_first_map.epoch.total : Int) : ℚ)) ∧
      interpolate_at sample_first_map sample_second_map (-1) 0 0 sample_first_map.epoch
        = sample_first_map.value (-1) 0 0) :=
  ⟨by decide!, by decide!, by decide!, by decide!, by decide!,
    interpolate_at_linear sample_first_map sample_second_map (-1) 0 0
      (sample_first_map.epoch.add_seconds 450000) (by decide!) (by decide!) (by decide!)⟩

/-- C26: the fraction of the seconds of an epoch line is dropped.  On the
epoch line with the seconds `30.50000000`, `read_next_epoch_header` returns 0
and the epoch 2020-01-01T00:00:30.000, not 2020-01-01T00:00:30.500. -/
theorem epoch_seconds_floored :
    (read_next_epoch_header (sample_reader sample_half_second_epoch) datetime_ms.default).1
      = 0 ∧
    (read_next_epoch_header (sample_reader sample_half_second_epoch) datetime_ms.default).2.1
      = datetime_ms.of_calendar 2020 1 1 0 0 30000 ∧
    (read_next_epoch_header (sample_reader sample_half_second_epoch) datetime_ms.default).2.1
      ≠ datetime_ms.of_calendar 2020 1 1 0 0 30500 ∧
    (read_next_epoch_header (sample_reader sample_whole_second_epoch) datetime_ms.default).2.1
      = datetime_ms.of_calendar 2020 1 1 0 0 30000 := by
  decide!

/-- C27: every state and every clock that a call of `read_next_pos_n_clock`
with status 0 returns carries `no_velocity`, whatever records followed the
position record. -/
theorem no_velocity_always_set (s : sp3) (sat : satellite) (st : satellite_state)
    (clk : satellite_clock) (r : record_result)
    (h : read_next_pos_n_clock s sat st clk = some r) (h0 : r.status = 0) :
    r.state.flag.no_velocity = true ∧ r.clock.flag.no_velocity = true := by
  unfold read_next_pos_n_clock at h
  simp only [] at h
  split at h
  · simp only [Option.some.injEq] at h
    subst h
    simp at h0
  · split at h
    · simp only [Option.some.injEq] at h
      subst h
      simp at h0
    · split at h
      · simp only [Option.some.injEq] at h
        subst h
        simp at h0
      · exact follow_records_no_velocity _ _ _ _ _ _ h (pos_flag_of_no_velocity _)
          (clk_flag_of_no_velocity _)

/-- C27 on the sample position record followed by a velocity record with a
velocity far from zero, and on the sample record of 60 characters that no
velocity record follows. -/
theorem no_velocity_always_set_witness :
    ((pos_result_of sample_pos_record).status = 0 ∧
      (pos_result_of sample_pos_record).self.istream.pos = sample_pos_record.length ∧
      (pos_result_of sample_pos_record).state.flag.no_velocity = true ∧
      (pos_result_of sample_pos_record).clock.flag.no_velocity = true) ∧
    ((pos_result_of sample_short_record).status = 0 ∧
      (pos_result_of sample_short_record).state.flag.no_velocity = true ∧
      (pos_result_of sample_short_record).clock.flag.no_velocity = true) :=
  ⟨⟨by decide!, by decide!,
      no_velocity_always_set (sample_reader sample_pos_record) satellite.default
        satellite_state.default satellite_clock.default (pos_result_of sample_pos_record)
        (by decide!) (by decide!)⟩,
    ⟨by decide!,
      no_velocity_always_set (sample_reader sample_short_record) satellite.default
        satellite_state.default satellite_clock.default (pos_result_of sample_short_record)
        (by decide!) (by decide!)⟩⟩

/-- C28: `read_next_vel` overwrites the clock correction.  On the sample
velocity record of G01, read for G01 with a clock whose correction is
123.456789, it returns 0 and a clock whose correction is -4.534317, the
fourth field of the velocity record; the position and its std-deviations are
the ones the state had. -/
theorem read_next_vel_overwrites_clock :
    sample_clock.c = 123456789 / 1000000 ∧
    (field_c (vel_record_line (sample_reader sample_vel_record))).1 = -4534317 / 1000000 ∧
    (read_next_vel (sample_reader sample_vel_record) sample_sat sample_state sample_clock).1
      = 0 ∧
    (read_next_vel (sample_reader sample_vel_record) sample_sat sample_state
      sample_clock).2.2.1.c = -4534317 / 1000000 ∧
    (read_next_vel (sample_reader sample_vel_record) sample_sat sample_state
      sample_clock).2.1.x = sample_state.x ∧
    (read_next_vel (sample_reader sample_vel_record) sample_sat sample_state
      sample_clock).2.1.sx = sample_state.sx := by
  decide!

/-- C29: what `read_next_pos_n_clock` decodes depends on the lines read
before.  The sample record of G02 of 60 characters is decoded with the
std-deviations 1 and no status option by a reader that has read no record,
and with the exponents and the status columns of the record of G01 by the
reader that has read that record before. -/
theorem short_record_reads_stale_bytes :
    (pos_result_of sample_long_short_block).status = 0 ∧
    (pos_result_of sample_long_short_block).self.istream.rest = sample_short_record ∧
    (pos_result_of sample_long_short_block).self.base_for_pos
      = (sample_reader sample_short_record).base_for_pos ∧
    (pos_result_of sample_long_short_block).self.base_for_clk
      = (sample_reader sample_short_record).base_for_clk ∧
    (pos_result_on (pos_result_of sample_long_short_block).self).status = 0 ∧
    (pos_result_of sample_short_record).status = 0 ∧
    (pos_result_on (pos_result_of sample_long_short_block).self).sat
      = (pos_result_of sample_short_record).sat ∧
    (pos_result_of sample_short_record).state.sx = 1 ∧
    (pos_result_on (pos_result_of sample_long_short_block).self).state.sx = (5 / 4) ^ 10 ∧
    (pos_result_of sample_short_record).state.flag.maneuver = false ∧
    (pos_result_on (pos_result_of sample_long_short_block).self).state.flag.maneuver = true ∧
    (pos_result_of sample_short_record).clock.flag.discontinuity = false ∧
    (pos_result_on (pos_result_of sample_long_short_block).self).clock.flag.discontinuity
      = true := by
  decide!

/-- C30: a call of `get_next_epoch` always returns, and the caller's
satellite vector is afterwards what it was before; the function's own copy
has one entry more for every state the caller gets. -/
theorem caller_sats_unchanged (s : sp3) (a : epoch_args) :
    ∃ st b s1, call_get_next_epoch s a = some (st, b, s1) ∧ b.sats = a.sats ∧
      ∃ r k, get_next_epoch s a.epoch a.sats a.states a.clocks = some r ∧
        r.sats.length = a.sats.length + k ∧ b.states.length = a.states.length + k := by
  obtain ⟨r, hr⟩ := get_next_epoch_total s a.epoch a.sats a.states a.clocks
  obtain ⟨k, k1, k2, _⟩ := get_next_epoch_counts _ _ _ _ _ _ hr
  refine ⟨r.status, ⟨r.epoch, a.sats, r.states, r.clocks⟩, r.self, ?_, rfl, r, k, hr, k1, k2⟩
  simp [call_get_next_epoch, hr]

/-- C31: for the declared count 0, which the first assertion of `read_header`
lets through, `satellite_lines` is not the number of lines needed to hold the
satellites: the difference `sat_nr - 1` is converted to `std::size_t`, and
the function returns 252645136, so that the second assertion fails; the
sample header that declares no satellite ends `read_header` with the failed
assertion. -/
theorem satellite_lines_zero_wraps :
    to_size_t (to_int 0) ≤ sats_max_num ∧
    satellite_lines 0 = 252645136 ∧ lines_needed 0 = 0 ∧
    ¬ to_size_t (satellite_lines (to_int ((to_size_t (to_int 0) : Nat) : Int))) ≤ sats_max_lines ∧
    declared_sats (split_lines sample_no_sats_header) = 0 ∧
    (read_header (sp3.initial sample_no_sats_header 0) zero_line).1 = .assert_failed := by
  decide!

end ngpt
